import Mathlib

/-!
CLog: a console and logrotate based logger

A shallow embedding of `src/clog.h` and `src/clog.cpp`.

* C strings are lists of characters (`Str`); character arrays are lists of a known
  size (`Buf`) that are written through `poke`, which fails on a write outside the array.
* The logger object and the part of the process it acts on (the files, the sequence of
  file-system calls that took effect, standard output) form one record, `CLog`.
* What the operating system decides (the clock, whether a lock, an open or a write
  succeeds, process and thread ids, the local time) is passed to each operation
  explicitly (`RotateCalls`, `FlushCalls`, `FormatEnv`).
* `printf`-style expansion of the caller's format string is not modelled: an operation
  receives the expanded message text, of any length and with any characters.
* `sprintf` into the two local arrays of `_configLogrotate` is modelled as plain
  concatenation (`configFilePath`, `logrotateText`); whether those renderings stay inside
  their arrays is the subject of separate definitions (`renderConfigFile`,
  `renderLogrotateText`).
* Integers are unbounded except where the code narrows one: `flush_sec` is an `int` that
  receives the `long long` clock value (`toInt32`).
-/

set_option autoImplicit false
set_option maxRecDepth 100000

/-! ## Constants of `clog.h` -/

abbrev Str := List Char
abbrev Buf := List Char

def LOG_PRI_CRITICAL : Int := 10
def LOG_PRI_WARN : Int := 20
def LOG_PRI_INFO : Int := 30
def LOG_PRI_DEBUG : Int := 40

def LOG_HL_NONE : Int := 0
def LOG_HL_MARK : Int := 1
def LOG_HL_KEYT : Int := 2

def LOG_CLR_NONE : Int := 0
def LOG_CLR_PID : Int := 1
def LOG_CLR_TID : Int := 2
def LOG_CLR_GRAY : Int := -30
def LOG_CLR_RED : Int := 31
def LOG_CLR_ORANGE : Int := -31
def LOG_CLR_GREEN : Int := 32
def LOG_CLR_LGREEN : Int := -32
def LOG_CLR_YELLOW : Int := -33
def LOG_CLR_BLUE : Int := -34
def LOG_CLR_PURPLE : Int := 35
def LOG_CLR_LPURPLE : Int := -35
def LOG_CLR_CYAN : Int := 36
def LOG_CLR_LCYAN : Int := -36

def MAX_LOG_ITEM_LENGTH : Nat := 1023
def MAX_LOG_QUEUE_LENGTH : Nat := 1024
def MAX_LOG_QUEUE_TIME : Int := 60

def LOGROTATE_CONFIG_PATH : Str := "/etc/logrotate.d/".toList
def LOGROTATE_ROTATE_SIZE : Str := "50M".toList
def LOGROTATE_ROTATE_NUM : Int := 4

/-- The value of `PATH_MAX` on Linux (`limits.h`). -/
def PATH_MAX : Nat := 4096

/-! ## Text rendering used by the `printf` family -/

/-- The string terminator. -/
def NUL : Char := Char.ofNat 0

/-- The escape character `\033`. -/
def ESC : Char := Char.ofNat 27

def digitChar : Nat → Char
  | 0 => '0' | 1 => '1' | 2 => '2' | 3 => '3' | 4 => '4'
  | 5 => '5' | 6 => '6' | 7 => '7' | 8 => '8' | _ => '9'

def decimalAux : Nat → Nat → Str
  | 0, n => [digitChar (n % 10)]
  | fuel + 1, n =>
    if n < 10 then [digitChar n] else decimalAux fuel (n / 10) ++ [digitChar (n % 10)]

/-- Decimal digits of a natural number, most significant first. -/
def decimal (n : Nat) : Str := decimalAux n n

/-- The conversion `%d` / `%lld`. -/
def fmt_d (v : Int) : Str :=
  if v < 0 then '-' :: decimal v.natAbs else decimal v.toNat

/-- The conversion `%-Nd`: left-justified, filled with blanks up to a minimum width. -/
def fmt_d_left (width : Nat) (v : Int) : Str :=
  fmt_d v ++ List.replicate (width - (fmt_d v).length) ' '

/-- The conversion `%0Nlld`: zero-filled up to a minimum width, the sign first. -/
def fmt_d_zero (width : Nat) (v : Int) : Str :=
  if v < 0 then
    '-' :: (List.replicate (width - 1 - (decimal v.natAbs).length) '0' ++ decimal v.natAbs)
  else
    List.replicate (width - (decimal v.toNat).length) '0' ++ decimal v.toNat

/-- Conversion of a `long long` to `int` (32 bits, two's complement). -/
def toInt32 (v : Int) : Int := (v + 2147483648) % 4294967296 - 2147483648

/-! ## Character arrays -/

/-- Store `bytes` at offset `off` of an array; `none` is a write outside the array. -/
def poke (buf : Buf) (off : Nat) (bytes : List Char) : Option Buf :=
  if off + bytes.length ≤ buf.length then
    some (buf.take off ++ bytes ++ buf.drop (off + bytes.length))
  else none

/-- The call `memset(buf, 0, n)`. -/
def memset0 (buf : Buf) (n : Nat) : Option Buf := poke buf 0 (List.replicate n NUL)

/-- The calls `snprintf(buf + off, size, ...)` and `vsnprintf(buf + off, size, ...)`, where
`text` is the full expansion of the format: at most `size - 1` characters of it are stored,
followed by the terminator. -/
def snprintf (buf : Buf) (off size : Nat) (text : Str) : Option Buf :=
  if size = 0 then some buf else poke buf off (text.take (size - 1) ++ [NUL])

/-- The characters of an array before its first terminator: what `%s` prints and what
`strlen` counts. -/
def cstr (buf : Buf) : Str := buf.takeWhile (fun c => !decide (c = NUL))

/-- The call `strlen(buf)`; `none` when the array holds no terminator (a read past its end). -/
def strlen (buf : Buf) : Option Nat :=
  if NUL ∈ buf then some (cstr buf).length else none

/-! ## Data model -/

structure SLogContext where
  log_level : Int
  log_color : Int
  b_log_screen : Bool
  b_log_rotate : Bool
  log_file_name : Str

/-- The log queue. `items` are the `MAX_LOG_QUEUE_LENGTH` slots of `MAX_LOG_ITEM_LENGTH + 1`
bytes; `log_fd` is `none` for `-1` and otherwise the path the descriptor was opened on.
The `iovs` array is recomputed from `items` at every flush and is not kept. -/
structure SLogQueue where
  items : List Buf
  length : Nat
  flush_sec : Int
  log_fd : Option Str

/-- A file-system call that took effect. -/
inductive IoEvent where
  | openLog (path : Str)
  | writev (path : Str) (bytes : Str)
  | close (path : Str)
  | unlink (path : Str)
  | writeConf (path : Str) (bytes : Str)
deriving DecidableEq

/-- The logger (`m_ctx`, `m_log_queue`) together with the files it acts on, the
file-system calls that took effect so far, and the texts printed on standard output. -/
structure CLog where
  m_ctx : SLogContext
  m_log_queue : SLogQueue
  files : Str → Option Str
  trace : List IoEvent
  stdout : List Str

/-- Outcomes of the system calls of `_configLogrotate`: `written = none` when `write` stored
every byte, `some n` when it stored only the first `n`. -/
structure RotateCalls where
  openOk : Bool
  written : Option Nat
  unlinkOk : Bool

/-- Outcomes of the system calls of `_flushLogQueue`: the clock in seconds, `open`, `writev`
(as for `RotateCalls.written`) and the calls of the nested `_configLogrotate`. -/
structure FlushCalls where
  tsec : Int
  openOk : Bool
  written : Option Nat
  rot : RotateCalls

/-- The fields of `struct tm` that `strftime` reads. -/
structure Tm where
  tm_year : Nat
  tm_mon : Nat
  tm_mday : Nat
  tm_hour : Nat
  tm_min : Nat
  tm_sec : Nat

/-- What `_formatLogItem` and `_getLogColor` obtain from the system: `getpid()`, `_gettid()`
(never negative), `_getTimestamp(true)` in microseconds and `localtime` of its seconds. -/
structure FormatEnv where
  pid : Nat
  tid : Nat
  ts : Int
  tm : Tm

/-- The bytes a `write` / `writev` stored. -/
def stored (written : Option Nat) (bytes : Str) : Str :=
  match written with
  | none => bytes
  | some n => bytes.take n

/-- Files are told apart by the path string given to the system call. A `writev` on a
descriptor opened with `O_APPEND` adds the bytes at the end of the file the descriptor was
opened on. -/
def fileAppend (files : Str → Option Str) (path bytes : Str) : Str → Option Str :=
  fun p => if p = path then some ((files path).getD [] ++ bytes) else files p

/-- A successful `open` with `O_CREAT` and without `O_TRUNC`: an absent file appears, empty. -/
def fileCreate (files : Str → Option Str) (path : Str) : Str → Option Str :=
  fun p => if p = path then some ((files path).getD []) else files p

/-- A successful `open` with `O_TRUNC | O_CREAT` followed by the `write` of `bytes`. -/
def fileReplace (files : Str → Option Str) (path bytes : Str) : Str → Option Str :=
  fun p => if p = path then some bytes else files p

/-- A successful `unlink`. -/
def fileRemove (files : Str → Option Str) (path : Str) : Str → Option Str :=
  fun p => if p = path then none else files p

/-- The records waiting in the queue: the strings of the slots `items[0 .. length - 1]`. -/
def pendingRecords (q : SLogQueue) : List Str := (q.items.take q.length).map cstr

/-- The array sizes declared in `SLogQueue`. -/
def SLogQueue.sized (q : SLogQueue) : Prop :=
  q.items.length = MAX_LOG_QUEUE_LENGTH ∧ ∀ b ∈ q.items, b.length = MAX_LOG_ITEM_LENGTH + 1

namespace CLog

/-! ## `_getLogColor` and `_printLogItem` -/

def log_colors : List Int :=
  [LOG_CLR_RED, LOG_CLR_BLUE, LOG_CLR_GREEN, LOG_CLR_LGREEN, LOG_CLR_LPURPLE,
   LOG_CLR_ORANGE, LOG_CLR_YELLOW, LOG_CLR_CYAN, LOG_CLR_PURPLE, LOG_CLR_LCYAN]

/-- The method `_getLogColor`. -/
def _getLogColor (ctx : SLogContext) (io : FormatEnv) : Int :=
  if ctx.log_color ≠ LOG_CLR_PID ∧ ctx.log_color ≠ LOG_CLR_TID then ctx.log_color
  else
    let pid := if ctx.log_color = LOG_CLR_TID then io.tid else io.pid
    log_colors.get ⟨pid % 10, Nat.mod_lt pid (by decide)⟩

/-- The escape sequence chosen by the `switch` of `_printLogItem` for `LOG_HL_MARK`. -/
def markSequence (log_color : Int) : Str :=
  if log_color = LOG_CLR_GRAY then "[30;47m".toList
  else if log_color = LOG_CLR_RED ∨ log_color = LOG_CLR_ORANGE ∨ log_color = LOG_CLR_PURPLE
      ∨ log_color = LOG_CLR_LPURPLE then "[30;45m".toList
  else if log_color = LOG_CLR_YELLOW then "[30;43m".toList
  else if log_color = LOG_CLR_BLUE then "[30;44m".toList
  else if log_color = LOG_CLR_CYAN ∨ log_color = LOG_CLR_LCYAN then "[30;46m".toList
  else "[30;42m".toList

/-- The method `_printLogItem`: the text its single `printf` sends to standard output. -/
def _printLogItem (ctx : SLogContext) (buf : Buf) (log_highlight : Int) (io : FormatEnv) :
    Str :=
  let log_color := _getLogColor ctx io
  let tail : Str := cstr buf ++ ESC :: "[0m\n".toList
  if log_highlight = LOG_HL_KEYT then
    ESC :: "[1;37;41m".toList ++ tail
  else if log_highlight = LOG_HL_MARK then
    ESC :: markSequence log_color ++ tail
  else if log_color < 0 then
    ESC :: "[1;".toList ++ fmt_d (-1 * log_color) ++ 'm' :: tail
  else
    ESC :: '[' :: fmt_d log_color ++ 'm' :: tail

/-! ## `_configLogrotate` -/

/-- The string at `p_slash + 1`, where `p_slash = strrchr(name, '/')`. -/
def afterLastSlash (name : Str) : Str :=
  (name.reverse.takeWhile (fun c => !decide (c = '/'))).reverse

/-- The rendering `"%s/%s.conf"` of `LOGROTATE_CONFIG_PATH` and `p_slash + 1`. -/
def configFilePath (name : Str) : Str :=
  LOGROTATE_CONFIG_PATH ++ '/' :: afterLastSlash name ++ ".conf".toList

/-- The rendering of the logrotate template for a log file name. -/
def logrotateText (name : Str) : Str :=
  name ++ "\n\x7b\nmissingok\nnotifempty\nnocompress\ncopytruncate\nnodateext\nstart 1\n".toList
    ++ "rotate ".toList ++ fmt_d LOGROTATE_ROTATE_NUM
    ++ "\nsize ".toList ++ LOGROTATE_ROTATE_SIZE ++ "\n\x7d".toList

/-- The method `_configLogrotate`. `unlink` takes effect when it is permitted and the file exists;
`open` with `O_TRUNC | O_CREAT` followed by `write` leaves the file holding the bytes stored. -/
def _configLogrotate (s : CLog) (io : RotateCalls) : CLog :=
  let name := s.m_ctx.log_file_name
  if name.length = 0 ∨ name.head? ≠ some '/' then s
  else if afterLastSlash name = [] then s
  else
    let config_file := configFilePath name
    if !s.m_ctx.b_log_rotate then
      if io.unlinkOk && (s.files config_file).isSome then
        { s with files := fileRemove s.files config_file,
                 trace := s.trace ++ [IoEvent.unlink config_file] }
      else s
    else if io.openOk then
      let bytes := stored io.written (logrotateText name)
      { s with files := fileReplace s.files config_file bytes,
               trace := s.trace ++ [IoEvent.writeConf config_file bytes] }
    else s

/-! ## `_formatLogItem` -/

/-- The `switch` on the priority. -/
def log_type (log_priority : Int) : Char :=
  if log_priority = LOG_PRI_WARN then 'W'
  else if log_priority = LOG_PRI_INFO then 'I'
  else if log_priority = LOG_PRI_DEBUG then 'D'
  else if log_priority = LOG_PRI_CRITICAL then 'C'
  else 'W'

/-- The call `strftime(buf_dtt, 16, "%y%m%d:%H%M%S", tmt)`. Every conversion prints two digits;
`%y` is the year modulo 100 and `%m` the month field plus one; the fields of a `tm` filled by
`localtime` are below 100, so that reducing them modulo 100 changes nothing. -/
def strftime_dtt (tm : Tm) : Str :=
  fmt_d_zero 2 ((tm.tm_year % 100 : Nat) : Int) ++ fmt_d_zero 2 (((tm.tm_mon + 1) % 100 : Nat) : Int)
    ++ fmt_d_zero 2 ((tm.tm_mday % 100 : Nat) : Int) ++ ':' :: fmt_d_zero 2 ((tm.tm_hour % 100 : Nat) : Int)
    ++ fmt_d_zero 2 ((tm.tm_min % 100 : Nat) : Int) ++ fmt_d_zero 2 ((tm.tm_sec % 100 : Nat) : Int)

/-- The expansion of `"[%-6d %03lld.%06lld %c] "` (console layout). -/
def screenHeader (pid tsec tusec : Int) (c : Char) : Str :=
  '[' :: fmt_d_left 6 pid ++ ' ' :: fmt_d_zero 3 (tsec % 256) ++ '.' :: fmt_d_zero 6 tusec
    ++ [' ', c, ']', ' ']

/-- The expansion of `"[%-6d %s.%06lld %c] "` (file layout). -/
def fileHeader (pid : Int) (buf_dtt : Str) (tusec : Int) (c : Char) : Str :=
  '[' :: fmt_d_left 6 pid ++ ' ' :: buf_dtt ++ '.' :: fmt_d_zero 6 tusec ++ [' ', c, ']', ' ']

/-- The method `_formatLogItem`, writing into the array `buf`; `log_message` is the expansion
of `log_format` with its arguments. `none` is a write outside `buf` or a `strlen` that finds
no terminator in it. -/
def _formatLogItem (ctx : SLogContext) (buf : Buf) (log_priority : Int) (log_message : Str)
    (io : FormatEnv) : Option Buf :=
  let pid : Int := ((if ctx.log_color = LOG_CLR_TID then io.tid else io.pid : Nat) : Int)
  let ts := io.ts
  let tsec := Int.tdiv ts 1000000
  let tusec := ts - tsec * 1000000
  let c := log_type log_priority
  if ctx.b_log_screen then do
    let b1 ← snprintf buf 0 23 (screenHeader pid tsec tusec c)
    snprintf b1 22 (MAX_LOG_ITEM_LENGTH - 22) log_message
  else do
    let b0 ← memset0 buf (MAX_LOG_ITEM_LENGTH + 1)
    let b1 ← snprintf b0 0 33 (fileHeader pid (strftime_dtt io.tm) tusec c)
    let b2 ← snprintf b1 32 (MAX_LOG_ITEM_LENGTH - 32 - 1) log_message
    let slen ← strlen b2
    let b3 ← poke b2 slen ['\n']
    poke b3 (slen + 1) [NUL]

/-! ## `_flushLogQueue` -/

/-- The method `_flushLogQueue`. `open` with `O_APPEND | O_CREAT` creates an absent file;
`writev` appends the strings of the pending slots, in index order, to the file of `log_fd`. -/
def _flushLogQueue (s : CLog) (force : Bool) (io : FlushCalls) : CLog :=
  if s.m_log_queue.length = 0 then s
  else
    let tsec := io.tsec
    if !force && decide (s.m_log_queue.length < MAX_LOG_QUEUE_LENGTH)
        && decide (tsec - s.m_log_queue.flush_sec < MAX_LOG_QUEUE_TIME) then s
    else
      let s1 : CLog :=
        match s.m_log_queue.log_fd with
        | some _ => s
        | none =>
          if io.openOk then
            { s with m_log_queue := { s.m_log_queue with log_fd := some s.m_ctx.log_file_name },
                     files := fileCreate s.files s.m_ctx.log_file_name,
                     trace := s.trace ++ [IoEvent.openLog s.m_ctx.log_file_name] }
          else s
      let s2 : CLog :=
        match s1.m_log_queue.log_fd with
        | none => s1
        | some fd =>
          let bytes := stored io.written (pendingRecords s1.m_log_queue).flatten
          _configLogrotate
            { s1 with files := fileAppend s1.files fd bytes,
                      trace := s1.trace ++ [IoEvent.writev fd bytes] } io.rot
      { s2 with m_log_queue := { s2.m_log_queue with length := 0, flush_sec := toInt32 tsec } }

/-! ## `_log` and the public operations -/

/-- The method `_log`. In console mode the record is formatted into a local array (its
initial content does not matter and is taken as zeros) and printed; in file mode, with the
mutex acquired, it is formatted into the slot `items[length]`, a read outside `items` being
`none`. -/
def _log (s : CLog) (log_priority log_highlight : Int) (log_message : Str) (lockOk : Bool)
    (fio : FlushCalls) (io : FormatEnv) : Option CLog :=
  if log_priority > s.m_ctx.log_level then some s
  else if s.m_ctx.b_log_screen then do
    let buf ← _formatLogItem s.m_ctx (List.replicate (MAX_LOG_ITEM_LENGTH + 1) NUL)
      log_priority log_message io
    some { s with stdout := s.stdout ++ [_printLogItem s.m_ctx buf log_highlight io] }
  else if lockOk then do
    let s1 := _flushLogQueue s false fio
    let i := s1.m_log_queue.length
    let slot ← s1.m_log_queue.items[i]?
    let slot' ← _formatLogItem s1.m_ctx slot log_priority log_message io
    some { s1 with m_log_queue :=
      { s1.m_log_queue with items := s1.m_log_queue.items.set i slot', length := i + 1 } }
  else some s

/-- The statements `if(m_log_queue.log_fd != -1) { close(...); m_log_queue.log_fd = -1; }`. -/
def closeLogFd (s : CLog) : CLog :=
  match s.m_log_queue.log_fd with
  | none => s
  | some fd =>
    { s with m_log_queue := { s.m_log_queue with log_fd := none },
             trace := s.trace ++ [IoEvent.close fd] }

/-- The method `setContext`; `lock1` and `lock2` tell whether its first and second
`pthread_mutex_lock` returned 0. -/
def setContext (s : CLog) (ctx : SLogContext) (lock1 lock2 : Bool) (fio : FlushCalls)
    (rio : RotateCalls) : CLog :=
  let s1 : CLog :=
    if (!s.m_ctx.b_log_screen && ctx.b_log_screen)
        || decide (ctx.log_file_name ≠ s.m_ctx.log_file_name) then
      if lock1 then closeLogFd (_flushLogQueue s true fio) else s
    else s
  let s2 : CLog := { s1 with m_ctx := ctx }
  if lock2 then _configLogrotate s2 rio else s2

def setLogLevel (s : CLog) (log_level : Int) : CLog :=
  { s with m_ctx := { s.m_ctx with log_level := log_level } }

def flushLogs (s : CLog) (lockOk : Bool) (fio : FlushCalls) : CLog :=
  if lockOk then _flushLogQueue s true fio else s

/-- The member initialisers of `SLogContext`, which are also the values of `ctx_default`. -/
def ctx_default : SLogContext :=
  { log_level := LOG_PRI_WARN, log_color := LOG_CLR_PID, b_log_screen := true,
    b_log_rotate := false, log_file_name := [] }

/-- The constructor, run on the zero-initialised static instance of `getInstance` in a process
whose files are `files`: `tsec` is the clock, `initOk` and the three `lock` flags tell whether
`pthread_mutex_init` and the `pthread_mutex_lock` calls returned 0. -/
def construct (files : Str → Option Str) (tsec : Int) (initOk lock0 lock1 lock2 : Bool)
    (fio : FlushCalls) (rio : RotateCalls) : CLog :=
  let zeros : List Buf :=
    List.replicate MAX_LOG_QUEUE_LENGTH (List.replicate (MAX_LOG_ITEM_LENGTH + 1) NUL)
  let s0 : CLog :=
    { m_ctx := ctx_default,
      m_log_queue :=
        { items := zeros, length := 0, flush_sec := if lock0 then toInt32 tsec else 0,
          log_fd := none },
      files := files,
      trace := [],
      stdout :=
        if initOk then [] else ["ERROR: CLog module failed to be initialized.\n".toList] }
  setContext s0 ctx_default lock1 lock2 fio rio

/-- The destructor. -/
def destruct (s : CLog) (lockOk : Bool) (fio : FlushCalls) : CLog :=
  if lockOk then closeLogFd (_flushLogQueue s true fio) else s

end CLog

/-! ## Sequences of calls of the public operations -/

inductive Call where
  | log (log_priority log_highlight : Int) (log_message : Str) (lockOk : Bool)
      (fio : FlushCalls) (io : FormatEnv)
  | setContext (ctx : SLogContext) (lock1 lock2 : Bool) (fio : FlushCalls) (rio : RotateCalls)
  | setLogLevel (log_level : Int)
  | flushLogs (lockOk : Bool) (fio : FlushCalls)

def step (s : CLog) : Call → Option CLog
  | Call.log p h m l fio io => CLog._log s p h m l fio io
  | Call.setContext ctx l1 l2 fio rio => some (CLog.setContext s ctx l1 l2 fio rio)
  | Call.setLogLevel lvl => some (CLog.setLogLevel s lvl)
  | Call.flushLogs l fio => some (CLog.flushLogs s l fio)

def run (s : CLog) : List Call → Option CLog
  | [] => some s
  | c :: cs => (step s c).bind (fun s' => run s' cs)

open CLog

/-! ## Definitions used to state the properties -/

/-- A character that is neither the terminator nor a line feed. -/
def plainChar (c : Char) : Prop := c ≠ NUL ∧ c ≠ '\n'

/-- The id printed in the header. -/
def headerId (ctx : SLogContext) (io : FormatEnv) : Int :=
  ((if ctx.log_color = LOG_CLR_TID then io.tid else io.pid : Nat) : Int)

/-- The microseconds printed in the header. -/
def headerUsec (io : FormatEnv) : Int := io.ts - Int.tdiv io.ts 1000000 * 1000000

/-- The console header as stored: the first 22 characters of its expansion. -/
def screenHeaderStored (ctx : SLogContext) (log_priority : Int) (io : FormatEnv) : Str :=
  (screenHeader (headerId ctx io) (Int.tdiv io.ts 1000000) (headerUsec io)
    (log_type log_priority)).take 22

/-- The file header as stored: the first 32 characters of its expansion. -/
def fileHeaderStored (ctx : SLogContext) (log_priority : Int) (io : FormatEnv) : Str :=
  (fileHeader (headerId ctx io) (strftime_dtt io.tm) (headerUsec io)
    (log_type log_priority)).take 32

/-- The console record: stored header and the message cut to 1000 characters. -/
def screenRecord (ctx : SLogContext) (log_priority : Int) (log_message : Str)
    (io : FormatEnv) : Str :=
  screenHeaderStored ctx log_priority io ++ cstr (log_message.take 1000)

/-- The file record: stored header, the message cut to 989 characters, a line feed. -/
def fileRecord (ctx : SLogContext) (log_priority : Int) (log_message : Str)
    (io : FormatEnv) : Str :=
  fileHeaderStored ctx log_priority io ++ cstr (log_message.take 989) ++ ['\n']

/-- The `writev` calls of a trace, as pairs of path and bytes. -/
def logWrites : List IoEvent → List (Str × Str)
  | [] => []
  | IoEvent.writev p b :: es => (p, b) :: logWrites es
  | IoEvent.openLog _ :: es => logWrites es
  | IoEvent.close _ :: es => logWrites es
  | IoEvent.unlink _ :: es => logWrites es
  | IoEvent.writeConf _ _ :: es => logWrites es

/-- The condition under which `_flushLogQueue` goes on to write a non-empty queue. -/
def flushDue (s : CLog) (force : Bool) (io : FlushCalls) : Prop :=
  force = true ∨ MAX_LOG_QUEUE_LENGTH ≤ s.m_log_queue.length
    ∨ MAX_LOG_QUEUE_TIME ≤ io.tsec - s.m_log_queue.flush_sec

instance (s : CLog) (force : Bool) (io : FlushCalls) : Decidable (flushDue s force io) := by
  unfold flushDue
  infer_instance

/-- The bytes of the pending records, in index order. -/
def pendingBytes (s : CLog) : Str := (pendingRecords s.m_log_queue).flatten

/-- The content of a file, empty when it does not exist. -/
def fileContent (s : CLog) (path : Str) : Str := (s.files path).getD []

/-- The state after `open` in `_flushLogQueue`. -/
def afterOpen (s : CLog) (io : FlushCalls) : CLog :=
  match s.m_log_queue.log_fd with
  | some _ => s
  | none =>
    if io.openOk then
      { s with m_log_queue := { s.m_log_queue with log_fd := some s.m_ctx.log_file_name },
               files := fileCreate s.files s.m_ctx.log_file_name,
               trace := s.trace ++ [IoEvent.openLog s.m_ctx.log_file_name] }
    else s

/-- The state after `writev` and `_configLogrotate` in `_flushLogQueue`. -/
def afterWrite (s1 : CLog) (io : FlushCalls) : CLog :=
  match s1.m_log_queue.log_fd with
  | none => s1
  | some fd =>
    _configLogrotate
      { s1 with files := fileAppend s1.files fd (stored io.written (pendingBytes s1)),
                trace := s1.trace ++ [IoEvent.writev fd (stored io.written (pendingBytes s1))] }
      io.rot

/-- A call of the kind the write-order statement is about: a log call that passes the level
filter with the mutex acquired, or a forced flush; `open` succeeds and `writev` stores every
byte. -/
def Call.accepted (level : Int) : Call → Prop
  | Call.log p _ _ l fio _ => p ≤ level ∧ l = true ∧ fio.openOk = true ∧ fio.written = none
  | Call.flushLogs _ fio => fio.openOk = true ∧ fio.written = none
  | Call.setContext _ _ _ _ _ => False
  | Call.setLogLevel _ => False

/-- The records submitted by a sequence of calls, in submission order. -/
def submitted (ctx : SLogContext) : List Call → List Str
  | [] => []
  | Call.log p _ m _ _ io :: cs => fileRecord ctx p m io :: submitted ctx cs
  | _ :: cs => submitted ctx cs

/-- The logger writes to one file: file mode, arrays of the declared sizes, the descriptor
closed or open on the configured file. -/
def oneTarget (s : CLog) : Prop :=
  s.m_ctx.b_log_screen = false ∧ s.m_log_queue.sized ∧
    (s.m_log_queue.log_fd = none ∨ s.m_log_queue.log_fd = some s.m_ctx.log_file_name)

def demoRotate : RotateCalls := { openOk := true, written := none, unlinkOk := true }

def demoFlush (tsec : Int) : FlushCalls :=
  { tsec := tsec, openOk := true, written := none, rot := demoRotate }

def demoFormat : FormatEnv :=
  { pid := 4242, tid := 4243, ts := 1700000000123456,
    tm := { tm_year := 123, tm_mon := 10, tm_mday := 14, tm_hour := 22, tm_min := 13,
            tm_sec := 20 } }

def demoPath : Str := "/var/log/app.log".toList

def demoOtherPath : Str := "/var/log/other.log".toList

def demoFileCtx : SLogContext :=
  { log_level := LOG_PRI_INFO, log_color := LOG_CLR_PID, b_log_screen := false,
    b_log_rotate := false, log_file_name := demoPath }

def demoScreenCtx : SLogContext := { demoFileCtx with b_log_screen := true }

def zeroSlot : Buf := List.replicate (MAX_LOG_ITEM_LENGTH + 1) NUL

def zeroItems : List Buf := List.replicate MAX_LOG_QUEUE_LENGTH zeroSlot

/-- A slot holding the string `text`. -/
def slotOf (text : Str) : Buf := text ++ List.replicate (MAX_LOG_ITEM_LENGTH + 1 - text.length) NUL

/-- A logger in file mode with an empty queue, last flushed at second 1700000000. -/
def demoFile : CLog :=
  { m_ctx := demoFileCtx,
    m_log_queue := { items := zeroItems, length := 0, flush_sec := 1700000000, log_fd := none },
    files := fun _ => none, trace := [], stdout := [] }

/-- A logger in console mode with an empty queue. -/
def demoScreen : CLog := { demoFile with m_ctx := demoScreenCtx }

/-- A logger in file mode with one pending record, last flushed at second 1700000000. -/
def demoPending : CLog :=
  { demoFile with m_log_queue :=
      { items := slotOf "[4242   231114:221320.123456 I] ready\n".toList
          :: List.replicate (MAX_LOG_QUEUE_LENGTH - 1) zeroSlot,
        length := 1, flush_sec := 1700000000, log_fd := none } }

/-- An accepted log call, the mutex acquired, made at clock second `t0`. -/
def Call.acceptedAt (level t0 : Int) : Call → Prop
  | Call.log p _ _ l fio _ => p ≤ level ∧ l = true ∧ fio.tsec = t0
  | Call.setContext _ _ _ _ _ => False
  | Call.setLogLevel _ => False
  | Call.flushLogs _ _ => False

/-- A freshly constructed logger (every lock obtained) that `setContext` puts into file
mode. -/
def freshFileLogger (files : Str → Option Str) (t0 : Int) (initOk : Bool)
    (fio0 : FlushCalls) (rio0 : RotateCalls) (ctx : SLogContext) (fio1 : FlushCalls) (rio1 : RotateCalls) :
    CLog :=
  setContext (construct files t0 initOk true true true fio0 rio0) ctx true true fio1 rio1

/-- A logger constructed at second 1700000000 in a process without files and put into file
mode. -/
def demoFresh : CLog :=
  freshFileLogger (fun _ => none) 1700000000 true (demoFlush 1700000000) demoRotate
    demoFileCtx (demoFlush 1700000000) demoRotate

/-- A warning logged at second 1700000000. -/
def demoCall : Call :=
  Call.log LOG_PRI_WARN LOG_HL_NONE "x".toList true (demoFlush 1700000000) demoFormat

/-- The code's condition for flushing in `setContext`: leaving file mode for console mode,
or a different file name. -/
def swapsTarget (s : CLog) (ctx : SLogContext) : Prop :=
  (s.m_ctx.b_log_screen = false ∧ ctx.b_log_screen = true)
    ∨ ctx.log_file_name ≠ s.m_ctx.log_file_name

/-- A log call or a forced flush, with any outcome of the lock and of the system calls. -/
def Call.logsOrFlushes : Call → Prop
  | Call.log _ _ _ _ _ _ => True
  | Call.flushLogs _ _ => True
  | Call.setContext _ _ _ _ _ => False
  | Call.setLogLevel _ => False

/-- The lines of a text, each with its line feed; a last part without line feed is a line
too. -/
def linesOf : Str → List Str
  | [] => []
  | c :: cs =>
    if c = '\n' then [c] :: linesOf cs
    else
      match linesOf cs with
      | [] => [[c]]
      | l :: ls => (c :: l) :: ls

/-- A call whose message, if it is a log call, holds no line feed. -/
def Call.oneLine : Call → Prop
  | Call.log _ _ m _ _ _ => '\n' ∉ m
  | Call.setContext _ _ _ _ _ => True
  | Call.setLogLevel _ => True
  | Call.flushLogs _ _ => True

/-- A path with every run of slashes replaced by one slash: the same file for the system. -/
def collapseSlashes : Str → Str
  | [] => []
  | [c] => [c]
  | c :: d :: cs =>
    if c = '/' ∧ d = '/' then collapseSlashes (d :: cs) else c :: collapseSlashes (d :: cs)

/-- The call `sprintf(buf, ...)`, where `text` is the expansion of the format: all of it is
stored, followed by the terminator; `none` is a write past the end of the array. -/
def sprintf (buf : Buf) (text : Str) : Option Buf := poke buf 0 (text ++ [NUL])

/-- The first `sprintf` of `_configLogrotate`, into `char config_file[PATH_MAX + 1]`. -/
def renderConfigFile (config_file : Buf) (name : Str) : Option Buf :=
  sprintf config_file (configFilePath name)

/-- The second `sprintf` of `_configLogrotate`, into `char buf[1024]`. -/
def renderLogrotateText (buf : Buf) (name : Str) : Option Buf :=
  sprintf buf (logrotateText name)

/-- The absolute path of a file in the root directory whose name is `n` letters `a`. -/
def longPath (n : Nat) : Str := '/' :: List.replicate n 'a'

/-- A logger in file mode with rotation enabled for `demoPath` and an empty queue. -/
def demoRotating : CLog :=
  { demoFile with m_ctx := { demoFileCtx with b_log_rotate := true } }

/-- An absolute path of 1012 characters: four directories of 250 letters and the file
`app.log`. -/
def deepPath : Str :=
  (List.replicate 4 ('/' :: List.replicate 250 'd')).flatten ++ "/app.log".toList

/-- A call in which every `pthread_mutex_lock` returns 0. -/
def Call.locked : Call → Prop
  | Call.log _ _ _ l _ _ => l = true
  | Call.setContext _ l1 l2 _ _ => l1 = true ∧ l2 = true
  | Call.setLogLevel _ => True
  | Call.flushLogs l _ => l = true

/-- In console mode the queue is empty and the descriptor closed; the descriptor is closed
or open on the configured file; the arrays have their declared sizes. -/
def idleOnScreen (s : CLog) : Prop :=
  (s.m_ctx.b_log_screen = true → s.m_log_queue.length = 0 ∧ s.m_log_queue.log_fd = none) ∧
  (s.m_log_queue.log_fd = none ∨ s.m_log_queue.log_fd = some s.m_ctx.log_file_name) ∧
  s.m_log_queue.sized

/-- The logger `demoRotating` after `_configLogrotate` has written its descriptor. -/
def demoRotated : CLog := _configLogrotate demoRotating demoRotate

/-- The queue stays within its array: the slots keep their sizes and the length is at most
`MAX_LOG_QUEUE_LENGTH`. -/
def withinBounds (s : CLog) : Prop :=
  s.m_log_queue.sized ∧ s.m_log_queue.length ≤ MAX_LOG_QUEUE_LENGTH

/-- The logger `demoRotated` with the pending record of `demoPending`. -/
def demoRotatedPending : CLog := { demoRotated with m_log_queue := demoPending.m_log_queue }

/-- System calls at second 1700000001 that succeed, except that the `write` of the rotation
descriptor stores no byte. -/
def demoShortWrite : FlushCalls :=
  { demoFlush 1700000001 with rot := { openOk := true, written := some 0, unlinkOk := true } }

/-! ## Characters and widths of the renderings -/

theorem digitChar_plain (d : Nat) : plainChar (digitChar d) := by
  unfold digitChar plainChar
  split <;> decide

theorem decimalAux_plain (fuel n : Nat) : ∀ c ∈ decimalAux fuel n, plainChar c := by
  induction fuel generalizing n with
  | zero =>
    intro c hc
    simp only [decimalAux, List.mem_singleton] at hc
    subst hc
    exact digitChar_plain _
  | succ k ih =>
    intro c hc
    unfold decimalAux at hc
    split at hc
    · simp only [List.mem_singleton] at hc
      subst hc
      exact digitChar_plain _
    · rcases List.mem_append.mp hc with h | h
      · exact ih _ c h
      · simp only [List.mem_singleton] at h
        subst h
        exact digitChar_plain _

theorem decimal_plain (n : Nat) : ∀ c ∈ decimal n, plainChar c := decimalAux_plain n n

theorem replicate_plain (k : Nat) (a : Char) (ha : plainChar a) :
    ∀ c ∈ List.replicate k a, plainChar c := by
  intro c hc
  rw [List.eq_of_mem_replicate hc]
  exact ha

theorem fmt_d_plain (v : Int) : ∀ c ∈ fmt_d v, plainChar c := by
  intro c hc
  unfold fmt_d at hc
  split at hc
  · rcases List.mem_cons.mp hc with h | h
    · subst h; exact ⟨by decide, by decide⟩
    · exact decimal_plain _ c h
  · exact decimal_plain _ c hc

theorem fmt_d_left_plain (w : Nat) (v : Int) : ∀ c ∈ fmt_d_left w v, plainChar c := by
  intro c hc
  unfold fmt_d_left at hc
  rcases List.mem_append.mp hc with h | h
  · exact fmt_d_plain v c h
  · exact replicate_plain _ _ ⟨by decide, by decide⟩ c h

theorem fmt_d_zero_plain (w : Nat) (v : Int) : ∀ c ∈ fmt_d_zero w v, plainChar c := by
  intro c hc
  unfold fmt_d_zero at hc
  split at hc
  · rcases List.mem_cons.mp hc with h | h
    · subst h; exact ⟨by decide, by decide⟩
    · rcases List.mem_append.mp h with h | h
      · exact replicate_plain _ _ ⟨by decide, by decide⟩ c h
      · exact decimal_plain _ c h
  · rcases List.mem_append.mp hc with h | h
    · exact replicate_plain _ _ ⟨by decide, by decide⟩ c h
    · exact decimal_plain _ c h

theorem fmt_d_left_length (w : Nat) (v : Int) : w ≤ (fmt_d_left w v).length := by
  unfold fmt_d_left
  simp only [List.length_append, List.length_replicate]
  omega

theorem fmt_d_zero_length (w : Nat) (v : Int) : w ≤ (fmt_d_zero w v).length := by
  unfold fmt_d_zero
  split
  · simp only [List.length_cons, List.length_append, List.length_replicate]
    omega
  · simp only [List.length_append, List.length_replicate]
    omega

theorem log_type_plain (p : Int) : plainChar (log_type p) := by
  unfold log_type
  repeat' split
  all_goals exact ⟨by decide, by decide⟩

theorem strftime_dtt_plain (tm : Tm) : ∀ c ∈ strftime_dtt tm, plainChar c := by
  intro c hc
  unfold strftime_dtt at hc
  simp only [List.mem_append, List.mem_cons] at hc
  rcases hc with ((((h | h) | h) | h | h) | h) | h
  · exact fmt_d_zero_plain _ _ c h
  · exact fmt_d_zero_plain _ _ c h
  · exact fmt_d_zero_plain _ _ c h
  · subst h; exact ⟨by decide, by decide⟩
  · exact fmt_d_zero_plain _ _ c h
  · exact fmt_d_zero_plain _ _ c h
  · exact fmt_d_zero_plain _ _ c h

theorem strftime_dtt_length (tm : Tm) : 13 ≤ (strftime_dtt tm).length := by
  unfold strftime_dtt
  simp only [List.length_append, List.length_cons]
  have h1 := fmt_d_zero_length 2 ((tm.tm_year % 100 : Nat) : Int)
  have h2 := fmt_d_zero_length 2 (((tm.tm_mon + 1) % 100 : Nat) : Int)
  have h3 := fmt_d_zero_length 2 ((tm.tm_mday % 100 : Nat) : Int)
  have h4 := fmt_d_zero_length 2 ((tm.tm_hour % 100 : Nat) : Int)
  have h5 := fmt_d_zero_length 2 ((tm.tm_min % 100 : Nat) : Int)
  have h6 := fmt_d_zero_length 2 ((tm.tm_sec % 100 : Nat) : Int)
  omega

theorem screenHeader_plain (pid tsec tusec : Int) (p : Int) :
    ∀ c ∈ screenHeader pid tsec tusec (log_type p), plainChar c := by
  intro c hc
  unfold screenHeader at hc
  simp only [List.mem_append, List.mem_cons, List.mem_singleton, List.not_mem_nil, or_false] at hc
  rcases hc with (((h | h) | h | h) | h | h) | h | h | h | h
  all_goals first
    | exact fmt_d_left_plain _ _ c h
    | exact fmt_d_zero_plain _ _ c h
    | (subst h; exact log_type_plain p)
    | (subst h; exact ⟨by decide, by decide⟩)

theorem fileHeader_plain (pid : Int) (tm : Tm) (tusec : Int) (p : Int) :
    ∀ c ∈ fileHeader pid (strftime_dtt tm) tusec (log_type p), plainChar c := by
  intro c hc
  unfold fileHeader at hc
  simp only [List.mem_append, List.mem_cons, List.mem_singleton, List.not_mem_nil, or_false] at hc
  rcases hc with (((h | h) | h | h) | h | h) | h | h | h | h
  all_goals first
    | exact fmt_d_left_plain _ _ c h
    | exact fmt_d_zero_plain _ _ c h
    | exact strftime_dtt_plain _ c h
    | (subst h; exact log_type_plain p)
    | (subst h; exact ⟨by decide, by decide⟩)

theorem screenHeader_length (pid tsec tusec : Int) (c : Char) :
    22 ≤ (screenHeader pid tsec tusec c).length := by
  unfold screenHeader
  simp only [List.length_append, List.length_cons, List.length_nil]
  have h1 := fmt_d_left_length 6 pid
  have h2 := fmt_d_zero_length 3 (tsec % 256)
  have h3 := fmt_d_zero_length 6 tusec
  omega

theorem fileHeader_length (pid : Int) (tm : Tm) (tusec : Int) (c : Char) :
    32 ≤ (fileHeader pid (strftime_dtt tm) tusec c).length := by
  unfold fileHeader
  simp only [List.length_append, List.length_cons, List.length_nil]
  have h1 := fmt_d_left_length 6 pid
  have h2 := strftime_dtt_length tm
  have h3 := fmt_d_zero_length 6 tusec
  omega

/-! ## Writes into character arrays -/

theorem poke_length {buf : Buf} {off : Nat} {bytes : List Char} {b : Buf}
    (h : poke buf off bytes = some b) : b.length = buf.length := by
  unfold poke at h
  split at h
  · cases h
    simp only [List.length_append, List.length_take, List.length_drop]
    omega
  · cases h

theorem poke_some (buf : Buf) (off : Nat) (bytes : List Char)
    (h : off + bytes.length ≤ buf.length) :
    poke buf off bytes = some (buf.take off ++ bytes ++ buf.drop (off + bytes.length)) := by
  unfold poke
  rw [if_pos h]

theorem cstr_append_NUL (a r : List Char) (ha : NUL ∉ a) : cstr (a ++ NUL :: r) = a := by
  induction a with
  | nil => simp [cstr]
  | cons x xs ih =>
    have hx : x ≠ NUL := fun h => ha (by simp [h])
    have hxs : NUL ∉ xs := fun h => ha (by simp [h])
    have := ih hxs
    simp only [cstr] at this ⊢
    simp [List.takeWhile, hx, this]

theorem cstr_snoc_NUL (a : List Char) : cstr (a ++ [NUL]) = cstr a := by
  induction a with
  | nil => simp [cstr]
  | cons x xs ih =>
    simp only [cstr] at ih ⊢
    by_cases hx : x = NUL
    · simp [List.takeWhile, hx]
    · simp [List.takeWhile, hx, ih]

theorem cstr_not_mem (buf : Buf) : NUL ∉ cstr buf := by
  intro h
  have := List.mem_takeWhile_imp h
  simp at this

/-- An array that holds a terminator is its string, the terminator, and a rest. -/
theorem cstr_split (buf : Buf) (h : NUL ∈ buf) :
    ∃ r, buf = cstr buf ++ NUL :: r := by
  induction buf with
  | nil => cases h
  | cons x xs ih =>
    by_cases hx : x = NUL
    · exact ⟨xs, by simp [cstr, List.takeWhile, hx]⟩
    · have hxs : NUL ∈ xs := by
        rcases List.mem_cons.mp h with h1 | h1
        · exact absurd h1.symm hx
        · exact h1
      obtain ⟨r, hr⟩ := ih hxs
      refine ⟨r, ?_⟩
      simp only [cstr] at hr ⊢
      rw [List.takeWhile_cons_of_pos (by simp [hx])]
      rw [List.cons_append, ← hr]

theorem cstr_takeWhile_take (m : Str) (k : Nat) :
    (cstr (m.take k)).length ≤ k := by
  have h1 : (cstr (m.take k)).length ≤ (m.take k).length := by
    unfold cstr
    exact (List.takeWhile_sublist _).length_le
  have h2 : (m.take k).length ≤ k := by
    simp only [List.length_take]
    omega
  omega

/-- The string left by two `snprintf` calls, a header at offset 0 cut to exactly `n`
characters and a message at offset `n`. -/
theorem snprintf_header_message (buf : Buf) (hdr msg : Str) (n k : Nat)
    (hn : n ≤ hdr.length) (hplain : ∀ c ∈ hdr, plainChar c) (hbuf : n + k + 1 ≤ buf.length) :
    ∃ b1 b2, snprintf buf 0 (n + 1) hdr = some b1 ∧ snprintf b1 n (k + 1) msg = some b2 ∧
      b2.length = buf.length ∧ cstr b2 = hdr.take n ++ cstr (msg.take k) := by
  have hlen : (hdr.take n).length = n := by
    simp only [List.length_take]
    omega
  have hmlen : (msg.take k).length ≤ k := by
    simp only [List.length_take]
    omega
  have h1 : snprintf buf 0 (n + 1) hdr
      = some (hdr.take n ++ NUL :: buf.drop (n + 1)) := by
    unfold snprintf
    rw [if_neg (by omega)]
    rw [poke_some _ _ _ (by simp only [Nat.add_sub_cancel, List.length_append, hlen,
      List.length_singleton]; omega)]
    simp [hlen]
  have hb1len : (hdr.take n ++ NUL :: buf.drop (n + 1)).length = buf.length := by
    simp only [List.length_append, hlen, List.length_cons, List.length_drop]
    omega
  have h2 : snprintf (hdr.take n ++ NUL :: buf.drop (n + 1)) n (k + 1) msg
      = some (hdr.take n ++ (msg.take k ++ [NUL]) ++
          (hdr.take n ++ NUL :: buf.drop (n + 1)).drop (n + (msg.take k ++ [NUL]).length)) := by
    unfold snprintf
    rw [if_neg (by omega)]
    rw [poke_some _ _ _ (by rw [hb1len]; simp only [Nat.add_sub_cancel, List.length_append,
      List.length_singleton]; omega)]
    simp only [Nat.add_sub_cancel]
    rw [List.take_left' hlen]
  refine ⟨_, _, h1, h2, ?_, ?_⟩
  · simp only [List.length_append, List.length_drop, hlen, List.length_cons, List.length_nil]
    omega
  · have hnul : NUL ∉ hdr.take n := fun h => (hplain _ (List.mem_of_mem_take h)).1 rfl
    obtain ⟨r, hr⟩ : ∃ r, msg.take k ++ [NUL] = cstr (msg.take k ++ [NUL]) ++ NUL :: r :=
      cstr_split _ (by simp)
    have hc : cstr (msg.take k ++ [NUL]) = cstr (msg.take k) := cstr_snoc_NUL _
    rw [hc] at hr
    rw [hr]
    have : hdr.take n ++ (cstr (msg.take k) ++ NUL :: r) ++
        (hdr.take n ++ NUL :: buf.drop (n + 1)).drop (n + (cstr (msg.take k) ++ NUL :: r).length)
        = (hdr.take n ++ cstr (msg.take k)) ++ NUL :: (r ++
        (hdr.take n ++ NUL :: buf.drop (n + 1)).drop (n + (cstr (msg.take k) ++ NUL :: r).length)) := by
      simp
    rw [this]
    apply cstr_append_NUL
    intro h
    rcases List.mem_append.mp h with h | h
    · exact hnul h
    · exact cstr_not_mem _ h

/-- The statements `slen = strlen(buf); buf[slen] = '\n'; buf[slen + 1] = 0;`. -/
theorem terminate_line (buf : Buf) (h : NUL ∈ buf) (hroom : (cstr buf).length + 2 ≤ buf.length) :
    ∃ b3 b4, strlen buf = some (cstr buf).length ∧
      poke buf (cstr buf).length ['\n'] = some b3 ∧
      poke b3 ((cstr buf).length + 1) [NUL] = some b4 ∧
      b4.length = buf.length ∧ cstr b4 = cstr buf ++ ['\n'] := by
  obtain ⟨r, hr⟩ := cstr_split buf h
  have hs : strlen buf = some (cstr buf).length := by
    unfold strlen
    rw [if_pos h]
  generalize hcs : cstr buf = s at hr hroom hs ⊢
  have hsn : NUL ∉ s := hcs ▸ cstr_not_mem buf
  have hblen : buf.length = s.length + 1 + r.length := by
    rw [hr]
    simp only [List.length_append, List.length_cons]
    omega
  have hr1 : r ≠ [] := by
    intro h0
    rw [h0] at hblen
    simp only [List.length_nil] at hblen
    omega
  obtain ⟨x, r', hxr⟩ := List.exists_cons_of_ne_nil hr1
  have e3 : poke buf s.length ['\n'] = some (s ++ '\n' :: r) := by
    rw [poke_some _ _ _ (by simp only [List.length_singleton]; omega)]
    rw [hr]
    simp
  have e4 : poke (s ++ '\n' :: r) (s.length + 1) [NUL] = some (s ++ '\n' :: NUL :: r') := by
    rw [poke_some _ _ _ (by
      rw [hxr]; simp only [List.length_singleton, List.length_append, List.length_cons,
        List.length_nil]; omega)]
    rw [hxr]
    have t1 : (s ++ '\n' :: x :: r').take (s.length + 1) = s ++ ['\n'] := by
      rw [List.take_append_eq_append_take]
      simp
    have t2 : (s ++ '\n' :: x :: r').drop (s.length + 1 + [NUL].length) = r' := by
      have e : s ++ '\n' :: x :: r' = (s ++ ['\n', x]) ++ r' := by simp
      rw [e]
      exact List.drop_left' (by simp)
    rw [t1, t2]
    simp
  refine ⟨_, _, hs, e3, e4, ?_, ?_⟩
  · rw [hblen, hxr]
    simp only [List.length_append, List.length_cons]
    omega
  · have : s ++ '\n' :: NUL :: r' = (s ++ ['\n']) ++ NUL :: r' := by simp
    rw [this]
    apply cstr_append_NUL
    intro h
    rcases List.mem_append.mp h with h | h
    · exact hsn h
    · simp only [List.mem_singleton] at h
      exact absurd h (by decide)

/-! ## The record left by `_formatLogItem` -/

theorem screenHeaderStored_length (ctx : SLogContext) (p : Int) (io : FormatEnv) :
    (screenHeaderStored ctx p io).length = 22 := by
  unfold screenHeaderStored
  have := screenHeader_length (headerId ctx io) (Int.tdiv io.ts 1000000) (headerUsec io)
    (log_type p)
  simp only [List.length_take]
  omega

theorem fileHeaderStored_length (ctx : SLogContext) (p : Int) (io : FormatEnv) :
    (fileHeaderStored ctx p io).length = 32 := by
  unfold fileHeaderStored
  have := fileHeader_length (headerId ctx io) io.tm (headerUsec io) (log_type p)
  simp only [List.length_take]
  omega

theorem screenHeaderStored_plain (ctx : SLogContext) (p : Int) (io : FormatEnv) :
    ∀ c ∈ screenHeaderStored ctx p io, plainChar c :=
  fun c hc => screenHeader_plain _ _ _ p c (List.mem_of_mem_take hc)

theorem fileHeaderStored_plain (ctx : SLogContext) (p : Int) (io : FormatEnv) :
    ∀ c ∈ fileHeaderStored ctx p io, plainChar c :=
  fun c hc => fileHeader_plain _ _ _ p c (List.mem_of_mem_take hc)

theorem cstr_length_le (buf : Buf) : (cstr buf).length ≤ buf.length :=
  (List.takeWhile_sublist _).length_le

theorem cstr_eq_self (buf : Buf) (h : NUL ∉ buf) : cstr buf = buf := by
  unfold cstr
  rw [List.takeWhile_eq_self_iff]
  intro c hc
  have : c ≠ NUL := fun e => h (e ▸ hc)
  simp [this]

theorem NUL_mem_of_cstr_lt (buf : Buf) (h : (cstr buf).length < buf.length) : NUL ∈ buf := by
  by_contra hn
  rw [cstr_eq_self buf hn] at h
  exact Nat.lt_irrefl _ h

theorem formatLogItem_screen (ctx : SLogContext) (buf : Buf) (p : Int) (msg : Str)
    (io : FormatEnv) (hs : ctx.b_log_screen = true) (hbuf : buf.length = MAX_LOG_ITEM_LENGTH + 1) :
    ∃ b, _formatLogItem ctx buf p msg io = some b ∧ b.length = MAX_LOG_ITEM_LENGTH + 1 ∧
      cstr b = screenRecord ctx p msg io := by
  have hbuf' : buf.length = 1024 := hbuf
  obtain ⟨b1, b2, e1, e2, hl, hc⟩ := snprintf_header_message buf
    (screenHeader (headerId ctx io) (Int.tdiv io.ts 1000000) (headerUsec io) (log_type p))
    msg 22 1000 (screenHeader_length _ _ _ _) (screenHeader_plain _ _ _ p) (by omega)
  refine ⟨b2, ?_, by rw [hl]; exact hbuf, hc⟩
  unfold _formatLogItem
  simp only [hs, if_true]
  have e1' : snprintf buf 0 23 (screenHeader (headerId ctx io) (Int.tdiv io.ts 1000000)
      (headerUsec io) (log_type p)) = some b1 := e1
  have e2' : snprintf b1 22 (MAX_LOG_ITEM_LENGTH - 22) msg = some b2 := e2
  unfold headerId headerUsec at e1'
  simp only [e1', Option.bind_eq_bind, Option.some_bind, e2']

theorem formatLogItem_file (ctx : SLogContext) (buf : Buf) (p : Int) (msg : Str)
    (io : FormatEnv) (hs : ctx.b_log_screen = false) (hbuf : buf.length = MAX_LOG_ITEM_LENGTH + 1) :
    ∃ b, _formatLogItem ctx buf p msg io = some b ∧ b.length = MAX_LOG_ITEM_LENGTH + 1 ∧
      cstr b = fileRecord ctx p msg io := by
  have hbuf' : buf.length = 1024 := hbuf
  have e0 : memset0 buf (MAX_LOG_ITEM_LENGTH + 1) = some (List.replicate 1024 NUL) := by
    unfold memset0
    rw [poke_some _ _ _ (by rw [List.length_replicate, hbuf']; decide)]
    have : List.drop (0 + (List.replicate (MAX_LOG_ITEM_LENGTH + 1) NUL).length) buf = [] := by
      rw [List.length_replicate, List.drop_eq_nil_iff, hbuf']
      decide
    rw [this]
    simp only [List.take_zero, List.nil_append, List.append_nil]
    rfl
  obtain ⟨b1, b2, e1, e2, hl, hc⟩ := snprintf_header_message (List.replicate 1024 NUL)
    (fileHeader (headerId ctx io) (strftime_dtt io.tm) (headerUsec io) (log_type p))
    msg 32 989 (fileHeader_length _ _ _ _) (fileHeader_plain _ _ _ p)
    (by rw [List.length_replicate]; decide)
  rw [List.length_replicate] at hl
  have hk := cstr_takeWhile_take msg 989
  have hh := fileHeaderStored_length ctx p io
  have hc' : cstr b2 = fileHeaderStored ctx p io ++ cstr (msg.take 989) := hc
  have hclen : (cstr b2).length ≤ 1021 := by
    rw [hc', List.length_append, hh]
    omega
  have hnul : NUL ∈ b2 := NUL_mem_of_cstr_lt b2 (by omega)
  obtain ⟨b3, b4, e3, e4, e5, hl4, hc4⟩ := terminate_line b2 hnul (by omega)
  refine ⟨b4, ?_, by rw [hl4, hl]; rfl, by rw [hc4, hc']; rfl⟩
  unfold _formatLogItem
  simp only [hs]
  have e1' : snprintf (List.replicate 1024 NUL) 0 33 (fileHeader (headerId ctx io)
      (strftime_dtt io.tm) (headerUsec io) (log_type p)) = some b1 := e1
  have e2' : snprintf b1 32 (MAX_LOG_ITEM_LENGTH - 32 - 1) msg = some b2 := e2
  unfold headerId headerUsec at e1'
  simp only [e0, e1', Option.bind_eq_bind, Option.some_bind, e2', e3, e4, e5]
  simp

/-! ## `_configLogrotate` and `_flushLogQueue` -/

theorem logWrites_append (a b : List IoEvent) : logWrites (a ++ b) = logWrites a ++ logWrites b := by
  induction a with
  | nil => rfl
  | cons e es ih => cases e <;> simp [logWrites, ih]

theorem slash_not_mem_afterLastSlash (name : Str) : '/' ∉ afterLastSlash name := by
  intro h
  unfold afterLastSlash at h
  have := List.mem_takeWhile_imp (List.mem_reverse.mp h)
  simp at this

theorem afterLastSlash_append (x y : Str) (hy : '/' ∉ y) : afterLastSlash (x ++ '/' :: y) = y := by
  unfold afterLastSlash
  have e : (x ++ '/' :: y).reverse = y.reverse ++ '/' :: x.reverse := by simp
  rw [e]
  have hy' : ∀ c ∈ y.reverse, (!decide (c = '/')) = true := by
    intro c hc
    have : c ≠ '/' := fun e => hy (e ▸ List.mem_reverse.mp hc)
    simp [this]
  have : List.takeWhile (fun c => !decide (c = '/')) (y.reverse ++ '/' :: x.reverse) = y.reverse := by
    generalize y.reverse = z at hy'
    induction z with
    | nil => simp [List.takeWhile]
    | cons a as ih =>
      have ha := hy' a (by simp)
      rw [List.cons_append, List.takeWhile_cons]
      simp only [ha, if_true]
      rw [ih (fun c hc => hy' c (List.mem_cons_of_mem _ hc))]
  rw [this, List.reverse_reverse]

/-- The descriptor of a log file is never the log file itself. -/
theorem configFilePath_ne (name : Str) : configFilePath name ≠ name := by
  intro h
  have h1 : afterLastSlash (configFilePath name) = afterLastSlash name ++ ".conf".toList := by
    unfold configFilePath
    rw [List.append_assoc, List.cons_append]
    apply afterLastSlash_append
    intro hm
    rcases List.mem_append.mp hm with hm | hm
    · exact slash_not_mem_afterLastSlash name hm
    · revert hm; decide
  rw [h] at h1
  have := congrArg List.length h1
  simp at this

theorem configLogrotate_ctx (s : CLog) (io : RotateCalls) :
    (_configLogrotate s io).m_ctx = s.m_ctx := by
  unfold _configLogrotate
  simp only
  split_ifs <;> rfl

theorem configLogrotate_queue (s : CLog) (io : RotateCalls) :
    (_configLogrotate s io).m_log_queue = s.m_log_queue := by
  unfold _configLogrotate
  simp only
  split_ifs <;> rfl

theorem configLogrotate_stdout (s : CLog) (io : RotateCalls) :
    (_configLogrotate s io).stdout = s.stdout := by
  unfold _configLogrotate
  simp only
  split_ifs <;> rfl

theorem configLogrotate_files (s : CLog) (io : RotateCalls) (p : Str)
    (hp : p ≠ configFilePath s.m_ctx.log_file_name) :
    (_configLogrotate s io).files p = s.files p := by
  unfold _configLogrotate
  simp only
  split_ifs <;> simp [fileRemove, fileReplace, hp]

theorem configLogrotate_trace (s : CLog) (io : RotateCalls) :
    ∃ evs, (_configLogrotate s io).trace = s.trace ++ evs ∧ logWrites evs = [] := by
  unfold _configLogrotate
  simp only
  split_ifs
  · exact ⟨[], by simp, rfl⟩
  · exact ⟨[], by simp, rfl⟩
  · exact ⟨_, rfl, rfl⟩
  · exact ⟨[], by simp, rfl⟩
  · exact ⟨_, rfl, rfl⟩
  · exact ⟨[], by simp, rfl⟩

/-- A malformed name (empty, relative, or ending in a slash) makes `_configLogrotate` return
at once. -/
theorem configLogrotate_skip (s : CLog) (io : RotateCalls)
    (h : s.m_ctx.log_file_name.length = 0 ∨ s.m_ctx.log_file_name.head? ≠ some '/'
      ∨ afterLastSlash s.m_ctx.log_file_name = []) :
    _configLogrotate s io = s := by
  unfold _configLogrotate
  simp only
  rcases h with h | h | h
  · rw [if_pos (Or.inl h)]
  · rw [if_pos (Or.inr h)]
  · split_ifs <;> rfl

theorem flush_empty (s : CLog) (force : Bool) (io : FlushCalls) (h : s.m_log_queue.length = 0) :
    _flushLogQueue s force io = s := by
  unfold _flushLogQueue
  rw [if_pos h]

theorem flush_not_due (s : CLog) (force : Bool) (io : FlushCalls) (h : ¬ flushDue s force io) :
    _flushLogQueue s force io = s := by
  unfold flushDue at h
  push_neg at h
  obtain ⟨h1, h2, h3⟩ := h
  have hc : (!force && decide (s.m_log_queue.length < MAX_LOG_QUEUE_LENGTH)
      && decide (io.tsec - s.m_log_queue.flush_sec < MAX_LOG_QUEUE_TIME)) = true := by
    simp only [Bool.and_eq_true, Bool.not_eq_true', decide_eq_true_eq]
    exact ⟨⟨by simpa using h1, by omega⟩, by omega⟩
  unfold _flushLogQueue
  by_cases h0 : s.m_log_queue.length = 0
  · rw [if_pos h0]
  · rw [if_neg h0]
    dsimp only
    rw [if_pos hc]

theorem flush_due (s : CLog) (force : Bool) (io : FlushCalls) (h0 : s.m_log_queue.length ≠ 0)
    (h : flushDue s force io) :
    _flushLogQueue s force io =
      { afterWrite (afterOpen s io) io with
        m_log_queue := { (afterWrite (afterOpen s io) io).m_log_queue with
          length := 0, flush_sec := toInt32 io.tsec } } := by
  unfold _flushLogQueue
  rw [if_neg h0]
  have hc : ¬ ((!force && decide (s.m_log_queue.length < MAX_LOG_QUEUE_LENGTH)
      && decide (io.tsec - s.m_log_queue.flush_sec < MAX_LOG_QUEUE_TIME)) = true) := by
    simp only [Bool.and_eq_true, Bool.not_eq_true', decide_eq_true_eq]
    rintro ⟨⟨h1, h2⟩, h3⟩
    rcases h with h | h | h
    · rw [h1] at h; cases h
    · omega
    · omega
  dsimp only
  rw [if_neg hc]
  rfl

theorem afterOpen_ctx (s : CLog) (io : FlushCalls) : (afterOpen s io).m_ctx = s.m_ctx := by
  unfold afterOpen
  split
  · rfl
  · split <;> rfl

theorem afterOpen_items (s : CLog) (io : FlushCalls) :
    (afterOpen s io).m_log_queue.items = s.m_log_queue.items := by
  unfold afterOpen
  split
  · rfl
  · split <;> rfl

theorem afterOpen_length (s : CLog) (io : FlushCalls) :
    (afterOpen s io).m_log_queue.length = s.m_log_queue.length := by
  unfold afterOpen
  split
  · rfl
  · split <;> rfl

theorem afterOpen_stdout (s : CLog) (io : FlushCalls) : (afterOpen s io).stdout = s.stdout := by
  unfold afterOpen
  split
  · rfl
  · split <;> rfl

theorem afterOpen_pendingBytes (s : CLog) (io : FlushCalls) :
    pendingBytes (afterOpen s io) = pendingBytes s := by
  unfold pendingBytes pendingRecords
  rw [afterOpen_items, afterOpen_length]

theorem afterOpen_of_open (s : CLog) (io : FlushCalls) (fd : Str)
    (h : s.m_log_queue.log_fd = some fd) : afterOpen s io = s := by
  unfold afterOpen
  rw [h]

theorem afterOpen_of_fail (s : CLog) (io : FlushCalls) (h : s.m_log_queue.log_fd = none)
    (ho : io.openOk = false) : afterOpen s io = s := by
  unfold afterOpen
  rw [h]
  simp [ho]

theorem afterOpen_of_success (s : CLog) (io : FlushCalls) (h : s.m_log_queue.log_fd = none)
    (ho : io.openOk = true) :
    afterOpen s io =
      { s with m_log_queue := { s.m_log_queue with log_fd := some s.m_ctx.log_file_name },
               files := fileCreate s.files s.m_ctx.log_file_name,
               trace := s.trace ++ [IoEvent.openLog s.m_ctx.log_file_name] } := by
  unfold afterOpen
  rw [h]
  simp [ho]

theorem afterWrite_ctx (s : CLog) (io : FlushCalls) : (afterWrite s io).m_ctx = s.m_ctx := by
  unfold afterWrite
  split
  · rfl
  · rw [configLogrotate_ctx]

theorem afterWrite_queue (s : CLog) (io : FlushCalls) :
    (afterWrite s io).m_log_queue = s.m_log_queue := by
  unfold afterWrite
  split
  · rfl
  · rw [configLogrotate_queue]

theorem afterWrite_stdout (s : CLog) (io : FlushCalls) : (afterWrite s io).stdout = s.stdout := by
  unfold afterWrite
  split
  · rfl
  · rw [configLogrotate_stdout]

theorem afterWrite_of_closed (s : CLog) (io : FlushCalls) (h : s.m_log_queue.log_fd = none) :
    afterWrite s io = s := by
  unfold afterWrite
  rw [h]

theorem afterWrite_of_open (s : CLog) (io : FlushCalls) (fd : Str)
    (h : s.m_log_queue.log_fd = some fd) :
    afterWrite s io = _configLogrotate
      { s with files := fileAppend s.files fd (stored io.written (pendingBytes s)),
               trace := s.trace ++ [IoEvent.writev fd (stored io.written (pendingBytes s))] }
      io.rot := by
  unfold afterWrite
  rw [h]

/-- Whatever it does, `_flushLogQueue` leaves the configuration, the slots and standard output
as they are. -/
theorem flush_frame (s : CLog) (force : Bool) (io : FlushCalls) :
    (_flushLogQueue s force io).m_ctx = s.m_ctx ∧
    (_flushLogQueue s force io).m_log_queue.items = s.m_log_queue.items ∧
    (_flushLogQueue s force io).stdout = s.stdout := by
  by_cases h0 : s.m_log_queue.length = 0
  · rw [flush_empty s force io h0]
    exact ⟨rfl, rfl, rfl⟩
  by_cases hd : flushDue s force io
  · rw [flush_due s force io h0 hd]
    refine ⟨?_, ?_, ?_⟩
    · show (afterWrite (afterOpen s io) io).m_ctx = _
      rw [afterWrite_ctx, afterOpen_ctx]
    · show (afterWrite (afterOpen s io) io).m_log_queue.items = _
      rw [afterWrite_queue, afterOpen_items]
    · show (afterWrite (afterOpen s io) io).stdout = _
      rw [afterWrite_stdout, afterOpen_stdout]
  · rw [flush_not_due s force io hd]
    exact ⟨rfl, rfl, rfl⟩

/-- After the unforced `_flushLogQueue` of `_log` the next slot index is inside the array. -/
theorem flush_length_lt (s : CLog) (io : FlushCalls) :
    (_flushLogQueue s false io).m_log_queue.length < MAX_LOG_QUEUE_LENGTH := by
  by_cases h0 : s.m_log_queue.length = 0
  · rw [flush_empty s false io h0, h0]
    decide
  by_cases hd : flushDue s false io
  · rw [flush_due s false io h0 hd]
    show 0 < MAX_LOG_QUEUE_LENGTH
    decide
  · rw [flush_not_due s false io hd]
    unfold flushDue at hd
    push_neg at hd
    exact hd.2.1

theorem flush_sized (s : CLog) (force : Bool) (io : FlushCalls) (h : s.m_log_queue.sized) :
    (_flushLogQueue s force io).m_log_queue.sized := by
  unfold SLogQueue.sized at h ⊢
  rw [(flush_frame s force io).2.1]
  exact h

theorem take_set_succ {α : Type} (l : List α) (i : Nat) (x : α) (h : i < l.length) :
    (l.set i x).take (i + 1) = l.take i ++ [x] := by
  induction l generalizing i with
  | nil => simp at h
  | cons a as ih =>
    cases i with
    | zero => simp
    | succ j =>
      simp only [List.length_cons, Nat.add_lt_add_iff_right] at h
      simp only [List.set_cons_succ, List.take_succ_cons, List.cons_append, List.cons.injEq, true_and]
      exact ih j h

/-- The file-mode branch of `_log`, the mutex acquired. -/
theorem log_file_step (s : CLog) (p hl : Int) (msg : Str) (fio : FlushCalls) (io : FormatEnv)
    (hp : p ≤ s.m_ctx.log_level) (hs : s.m_ctx.b_log_screen = false)
    (hz : s.m_log_queue.sized) :
    ∃ slot, slot.length = MAX_LOG_ITEM_LENGTH + 1 ∧ cstr slot = fileRecord s.m_ctx p msg io ∧
      _log s p hl msg true fio io =
        some { _flushLogQueue s false fio with m_log_queue :=
          { (_flushLogQueue s false fio).m_log_queue with
            items := (_flushLogQueue s false fio).m_log_queue.items.set
              (_flushLogQueue s false fio).m_log_queue.length slot,
            length := (_flushLogQueue s false fio).m_log_queue.length + 1 } } := by
  have hlt := flush_length_lt s fio
  obtain ⟨hctx, hitems, -⟩ := flush_frame s false fio
  have hz1 := flush_sized s false fio hz
  have hi : (_flushLogQueue s false fio).m_log_queue.length
      < (_flushLogQueue s false fio).m_log_queue.items.length := by
    rw [hz1.1]
    exact hlt
  obtain ⟨slot', hfmt, hlen, hc⟩ := formatLogItem_file (_flushLogQueue s false fio).m_ctx
    ((_flushLogQueue s false fio).m_log_queue.items.get ⟨_, hi⟩) p msg io
    (by rw [hctx]; exact hs) (hz1.2 _ (List.get_mem _ _ _))
  refine ⟨slot', hlen, by rw [hc, hctx], ?_⟩
  unfold _log
  rw [if_neg (by omega)]
  simp only [hs]
  simp only [Bool.false_eq_true, if_false, if_true]
  rw [List.getElem?_eq_getElem hi]
  simp only [Option.bind_eq_bind, Option.some_bind]
  have : (_flushLogQueue s false fio).m_log_queue.items[(_flushLogQueue s false fio).m_log_queue.length]
      = (_flushLogQueue s false fio).m_log_queue.items.get ⟨_, hi⟩ := rfl
  rw [this, hfmt]
  rfl

/-- The console branch of `_log`. -/
theorem log_screen_step (s : CLog) (p hl : Int) (msg : Str) (lockOk : Bool) (fio : FlushCalls)
    (io : FormatEnv) (hp : p ≤ s.m_ctx.log_level) (hs : s.m_ctx.b_log_screen = true) :
    ∃ buf, cstr buf = screenRecord s.m_ctx p msg io ∧
      _log s p hl msg lockOk fio io =
        some { s with stdout := s.stdout ++ [_printLogItem s.m_ctx buf hl io] } := by
  obtain ⟨b, hfmt, -, hc⟩ := formatLogItem_screen s.m_ctx
    (List.replicate (MAX_LOG_ITEM_LENGTH + 1) NUL) p msg io hs (List.length_replicate _ _)
  refine ⟨b, hc, ?_⟩
  unfold _log
  rw [if_neg (by omega)]
  simp only [hs, if_true, hfmt, Option.bind_eq_bind, Option.some_bind]

theorem log_dropped (s : CLog) (p hl : Int) (msg : Str) (lockOk : Bool) (fio : FlushCalls)
    (io : FormatEnv) (hp : p > s.m_ctx.log_level) : _log s p hl msg lockOk fio io = some s := by
  unfold _log
  rw [if_pos hp]

theorem fileContent_fileCreate (s : CLog) (path p : Str) :
    (fileCreate s.files path p).getD [] = (s.files p).getD [] := by
  unfold fileCreate
  split
  · next h => rw [h]; rfl
  · rfl

/-- A flush that is due, on a logger whose descriptor is closed or open on its own file, the
`open` succeeding: the bytes stored by `writev` are appended to that file, which is the only
log write, and the descriptor is left open on it. -/
theorem flush_due_write (s : CLog) (force : Bool) (io : FlushCalls)
    (h0 : s.m_log_queue.length ≠ 0) (hd : flushDue s force io)
    (hfd : s.m_log_queue.log_fd = some s.m_ctx.log_file_name
      ∨ (s.m_log_queue.log_fd = none ∧ io.openOk = true)) :
    (_flushLogQueue s force io).m_log_queue.log_fd = some s.m_ctx.log_file_name ∧
    (_flushLogQueue s force io).files s.m_ctx.log_file_name
      = some (fileContent s s.m_ctx.log_file_name ++ stored io.written (pendingBytes s)) ∧
    (∀ p, p ≠ s.m_ctx.log_file_name → p ≠ configFilePath s.m_ctx.log_file_name →
      (_flushLogQueue s force io).files p = s.files p) ∧
    ∃ evs, (_flushLogQueue s force io).trace = s.trace ++ evs ∧
      logWrites evs = [(s.m_ctx.log_file_name, stored io.written (pendingBytes s))] := by
  rw [flush_due s force io h0 hd]
  have hne : s.m_ctx.log_file_name ≠ configFilePath s.m_ctx.log_file_name :=
    fun h => configFilePath_ne _ h.symm
  rcases hfd with hfd | ⟨hfd, ho⟩
  · rw [afterOpen_of_open s io _ hfd, afterWrite_of_open s io _ hfd]
    refine ⟨?_, ?_, ?_, ?_⟩
    · show (_configLogrotate _ io.rot).m_log_queue.log_fd = _
      rw [configLogrotate_queue]
      exact hfd
    · show (_configLogrotate _ io.rot).files _ = _
      rw [configLogrotate_files _ _ _ (by exact hne)]
      simp [fileAppend, fileContent]
    · intro p hp1 hp2
      show (_configLogrotate _ io.rot).files _ = _
      rw [configLogrotate_files _ _ _ (by exact hp2)]
      simp [fileAppend, hp1]
    · obtain ⟨evs, he, hw⟩ := configLogrotate_trace
        { s with files := fileAppend s.files s.m_ctx.log_file_name (stored io.written (pendingBytes s)),
                 trace := s.trace ++ [IoEvent.writev s.m_ctx.log_file_name
                   (stored io.written (pendingBytes s))] } io.rot
      refine ⟨IoEvent.writev s.m_ctx.log_file_name (stored io.written (pendingBytes s)) :: evs,
        ?_, ?_⟩
      · show (_configLogrotate _ io.rot).trace = _
        rw [he]
        simp
      · simp [logWrites, hw]
  · have hb := afterOpen_pendingBytes s io
    rw [afterOpen_of_success s io hfd ho] at hb ⊢
    rw [afterWrite_of_open _ io s.m_ctx.log_file_name rfl, hb]
    refine ⟨?_, ?_, ?_, ?_⟩
    · show (_configLogrotate _ io.rot).m_log_queue.log_fd = _
      rw [configLogrotate_queue]
    · show (_configLogrotate _ io.rot).files _ = _
      rw [configLogrotate_files _ _ _ (by exact hne)]
      simp [fileAppend, fileContent, fileCreate]
    · intro p hp1 hp2
      show (_configLogrotate _ io.rot).files _ = _
      rw [configLogrotate_files _ _ _ (by exact hp2)]
      simp [fileAppend, fileCreate, hp1]
    · obtain ⟨evs, he, hw⟩ := configLogrotate_trace
        { m_ctx := s.m_ctx,
          m_log_queue := { s.m_log_queue with log_fd := some s.m_ctx.log_file_name },
          files := fileAppend (fileCreate s.files s.m_ctx.log_file_name) s.m_ctx.log_file_name
            (stored io.written (pendingBytes s)),
          trace := s.trace ++ [IoEvent.openLog s.m_ctx.log_file_name] ++
            [IoEvent.writev s.m_ctx.log_file_name (stored io.written (pendingBytes s))],
          stdout := s.stdout } io.rot
      refine ⟨IoEvent.openLog s.m_ctx.log_file_name ::
        IoEvent.writev s.m_ctx.log_file_name (stored io.written (pendingBytes s)) :: evs, ?_, ?_⟩
      · show (_configLogrotate _ io.rot).trace = _
        rw [he]
        simp
      · simp [logWrites, hw]

/-- A flush that is due while the descriptor is closed and `open` fails: the batch is dropped
and nothing outside the queue changes. -/
theorem flush_due_open_failed (s : CLog) (force : Bool) (io : FlushCalls)
    (h0 : s.m_log_queue.length ≠ 0) (hd : flushDue s force io)
    (hfd : s.m_log_queue.log_fd = none) (ho : io.openOk = false) :
    _flushLogQueue s force io =
      { s with m_log_queue := { s.m_log_queue with length := 0, flush_sec := toInt32 io.tsec } } := by
  rw [flush_due s force io h0 hd, afterOpen_of_fail s io hfd ho, afterWrite_of_closed s io hfd]

theorem flush_due_length (s : CLog) (force : Bool) (io : FlushCalls)
    (h0 : s.m_log_queue.length ≠ 0) (hd : flushDue s force io) :
    (_flushLogQueue s force io).m_log_queue.length = 0 ∧
    (_flushLogQueue s force io).m_log_queue.flush_sec = toInt32 io.tsec := by
  rw [flush_due s force io h0 hd]
  exact ⟨rfl, rfl⟩

theorem pendingBytes_of_length_zero (s : CLog) (h : s.m_log_queue.length = 0) :
    pendingBytes s = [] := by
  unfold pendingBytes pendingRecords
  rw [h]
  rfl

theorem flush_keeps_bytes (s : CLog) (force : Bool) (io : FlushCalls) (ht : oneTarget s)
    (ho : io.openOk = true) (hw : io.written = none) :
    (_flushLogQueue s force io).m_ctx = s.m_ctx ∧ oneTarget (_flushLogQueue s force io) ∧
    fileContent (_flushLogQueue s force io) s.m_ctx.log_file_name
        ++ pendingBytes (_flushLogQueue s force io)
      = fileContent s s.m_ctx.log_file_name ++ pendingBytes s := by
  obtain ⟨hscr, hz, hfd⟩ := ht
  obtain ⟨hctx, hitems, -⟩ := flush_frame s force io
  by_cases h0 : s.m_log_queue.length = 0
  · rw [flush_empty s force io h0]
    exact ⟨rfl, ⟨hscr, hz, hfd⟩, rfl⟩
  by_cases hd : flushDue s force io
  · obtain ⟨hfd', hfile, -, -⟩ := flush_due_write s force io h0 hd (by
      rcases hfd with h | h
      · exact Or.inr ⟨h, ho⟩
      · exact Or.inl h)
    refine ⟨hctx, ⟨by rw [hctx]; exact hscr, flush_sized s force io hz, ?_⟩, ?_⟩
    · rw [hctx]
      exact Or.inr hfd'
    · rw [pendingBytes_of_length_zero _ (flush_due_length s force io h0 hd).1]
      unfold fileContent at hfile ⊢
      rw [hfile, hw]
      simp [stored]
  · rw [flush_not_due s force io hd]
    exact ⟨rfl, ⟨hscr, hz, hfd⟩, rfl⟩

theorem log_keeps_bytes (s : CLog) (p hl : Int) (msg : Str) (fio : FlushCalls) (io : FormatEnv)
    (ht : oneTarget s) (hp : p ≤ s.m_ctx.log_level)
    (ho : fio.openOk = true) (hw : fio.written = none) :
    ∃ s', _log s p hl msg true fio io = some s' ∧ s'.m_ctx = s.m_ctx ∧ oneTarget s' ∧
      fileContent s' s.m_ctx.log_file_name ++ pendingBytes s'
        = fileContent s s.m_ctx.log_file_name ++ pendingBytes s ++ fileRecord s.m_ctx p msg io := by
  obtain ⟨slot, hlen, hc, hlog⟩ := log_file_step s p hl msg fio io hp ht.1 ht.2.1
  obtain ⟨hctx, ht1, hbytes⟩ := flush_keeps_bytes s false fio ht ho hw
  have hlt := flush_length_lt s fio
  refine ⟨_, hlog, hctx, ⟨?_, ⟨?_, ?_⟩, ?_⟩, ?_⟩
  · exact ht1.1
  · show ((_flushLogQueue s false fio).m_log_queue.items.set _ slot).length = _
    rw [List.length_set]
    exact ht1.2.1.1
  · intro b hb
    rcases List.mem_or_eq_of_mem_set hb with hb | hb
    · exact ht1.2.1.2 b hb
    · rw [hb]; exact hlen
  · exact ht1.2.2
  · have hi : (_flushLogQueue s false fio).m_log_queue.length
        < (_flushLogQueue s false fio).m_log_queue.items.length := by
      rw [ht1.2.1.1]
      exact hlt
    have hpend : pendingBytes { _flushLogQueue s false fio with m_log_queue :=
          { (_flushLogQueue s false fio).m_log_queue with
            items := (_flushLogQueue s false fio).m_log_queue.items.set
              (_flushLogQueue s false fio).m_log_queue.length slot,
            length := (_flushLogQueue s false fio).m_log_queue.length + 1 } }
        = pendingBytes (_flushLogQueue s false fio) ++ fileRecord s.m_ctx p msg io := by
      unfold pendingBytes pendingRecords
      simp only
      rw [take_set_succ _ _ _ hi]
      simp [hc]
    rw [hpend, ← List.append_assoc]
    show fileContent (_flushLogQueue s false fio) _ ++ _ ++ _ = _
    rw [hbytes]

/-! ## Level filter, write order, flush decision -/

theorem zeroItems_sized : SLogQueue.sized
    { items := zeroItems, length := 0, flush_sec := 1700000000, log_fd := none } := by
  unfold SLogQueue.sized zeroItems
  refine ⟨List.length_replicate _ _, ?_⟩
  intro b hb
  rw [List.eq_of_mem_replicate hb]
  exact List.length_replicate _ _

theorem demoFile_oneTarget : oneTarget demoFile := ⟨rfl, zeroItems_sized, Or.inl rfl⟩

theorem flushLogs_length (s : CLog) (fio : FlushCalls) :
    (flushLogs s true fio).m_log_queue.length = 0 := by
  unfold flushLogs
  rw [if_pos rfl]
  by_cases h0 : s.m_log_queue.length = 0
  · rw [flush_empty s true fio h0, h0]
  · exact (flush_due_length s true fio h0 (Or.inl rfl)).1

theorem run_keeps_bytes (cs : List Call) : ∀ s : CLog, oneTarget s →
    (∀ c ∈ cs, c.accepted s.m_ctx.log_level) →
    ∃ s', run s cs = some s' ∧ s'.m_ctx = s.m_ctx ∧ oneTarget s' ∧
      fileContent s' s.m_ctx.log_file_name ++ pendingBytes s'
        = fileContent s s.m_ctx.log_file_name ++ pendingBytes s
            ++ (submitted s.m_ctx cs).flatten := by
  induction cs with
  | nil =>
    intro s ht _
    exact ⟨s, rfl, rfl, ht, by simp [submitted]⟩
  | cons c cs ih =>
    intro s ht hacc
    have hc := hacc c (List.mem_cons_self _ _)
    have hrest : ∀ c' ∈ cs, c'.accepted s.m_ctx.log_level :=
      fun c' h => hacc c' (List.mem_cons_of_mem _ h)
    cases c with
    | log p hl m l fio io =>
      obtain ⟨hp, hl1, ho, hw⟩ := hc
      subst hl1
      obtain ⟨s1, e1, hctx1, ht1, hb1⟩ := log_keeps_bytes s p hl m fio io ht hp ho hw
      obtain ⟨s2, e2, hctx2, ht2, hb2⟩ := ih s1 ht1 (by rw [hctx1]; exact hrest)
      refine ⟨s2, ?_, by rw [hctx2, hctx1], ht2, ?_⟩
      · simp only [run, step, e1, Option.some_bind, e2]
      · rw [hctx1] at hb2
        rw [hb2, hb1]
        simp [submitted]
    | flushLogs l fio =>
      obtain ⟨ho, hw⟩ := hc
      have key : (flushLogs s l fio).m_ctx = s.m_ctx ∧ oneTarget (flushLogs s l fio) ∧
          fileContent (flushLogs s l fio) s.m_ctx.log_file_name
              ++ pendingBytes (flushLogs s l fio)
            = fileContent s s.m_ctx.log_file_name ++ pendingBytes s := by
        unfold flushLogs
        cases l
        · exact ⟨rfl, ht, rfl⟩
        · exact flush_keeps_bytes s true fio ht ho hw
      obtain ⟨hctx1, ht1, hb1⟩ := key
      obtain ⟨s2, e2, hctx2, ht2, hb2⟩ := ih (flushLogs s l fio) ht1 (by rw [hctx1]; exact hrest)
      refine ⟨s2, ?_, by rw [hctx2, hctx1], ht2, ?_⟩
      · simp only [run, step, Option.some_bind, e2]
      · rw [hctx1] at hb2
        rw [hb2, hb1]
        simp [submitted]
    | setContext ctx l1 l2 fio rio => exact absurd hc (by simp [Call.accepted])
    | setLogLevel lvl => exact absurd hc (by simp [Call.accepted])

theorem run_append (s : CLog) (cs ds : List Call) :
    run s (cs ++ ds) = (run s cs).bind (fun s' => run s' ds) := by
  induction cs generalizing s with
  | nil => simp [run]
  | cons c cs ih =>
    simp only [List.cons_append, run]
    cases step s c with
    | none => rfl
    | some s1 => simp [ih]

/-- C1 (level filter). A log call whose priority is numerically greater than the configured
level returns the state unchanged: nothing is printed, the queue, the descriptor, the flush
time, the files and the file-system trace are as before, in either mode and whatever the
lock does. A call whose priority is at most the level emits exactly one record: in console
mode one text is printed, made from the console record, and nothing else changes; in file
mode, the mutex acquired, the record is appended as one slot after the unforced flush check,
so that the pending records are those left by the check followed by the new file record. -/
theorem c1_level_filter (s : CLog) (p hl : Int) (msg : Str) (lockOk : Bool) (fio : FlushCalls)
    (io : FormatEnv) :
    (p > s.m_ctx.log_level → _log s p hl msg lockOk fio io = some s) ∧
    (p ≤ s.m_ctx.log_level → s.m_ctx.b_log_screen = true →
      ∃ buf, cstr buf = screenRecord s.m_ctx p msg io ∧
        _log s p hl msg lockOk fio io =
          some { s with stdout := s.stdout ++ [_printLogItem s.m_ctx buf hl io] }) ∧
    (p ≤ s.m_ctx.log_level → s.m_ctx.b_log_screen = false → lockOk = true →
      s.m_log_queue.sized →
      ∃ s', _log s p hl msg lockOk fio io = some s' ∧
        s'.m_log_queue.length = (_flushLogQueue s false fio).m_log_queue.length + 1 ∧
        pendingRecords s'.m_log_queue
          = pendingRecords (_flushLogQueue s false fio).m_log_queue
              ++ [fileRecord s.m_ctx p msg io] ∧
        s'.stdout = s.stdout ∧ s'.m_ctx = s.m_ctx ∧
        s'.files = (_flushLogQueue s false fio).files ∧
        s'.trace = (_flushLogQueue s false fio).trace ∧
        s'.m_log_queue.log_fd = (_flushLogQueue s false fio).m_log_queue.log_fd ∧
        s'.m_log_queue.flush_sec = (_flushLogQueue s false fio).m_log_queue.flush_sec) := by
  refine ⟨log_dropped s p hl msg lockOk fio io, log_screen_step s p hl msg lockOk fio io, ?_⟩
  intro hp hs hl1 hz
  subst hl1
  obtain ⟨slot, -, hc, hlog⟩ := log_file_step s p hl msg fio io hp hs hz
  obtain ⟨hctx, -, hout⟩ := flush_frame s false fio
  have hi : (_flushLogQueue s false fio).m_log_queue.length
      < (_flushLogQueue s false fio).m_log_queue.items.length := by
    rw [(flush_sized s false fio hz).1]
    exact flush_length_lt s fio
  refine ⟨_, hlog, rfl, ?_, hout, hctx, rfl, rfl, rfl, rfl⟩
  unfold pendingRecords
  simp only
  rw [take_set_succ _ _ _ hi]
  simp [hc]

/-- Witness of C1: a debug record is dropped by a logger at level INFO, and an info record
is queued by it. -/
theorem c1_level_filter_witness :
    _log demoFile LOG_PRI_DEBUG LOG_HL_NONE "x".toList true (demoFlush 1700000001)
        demoFormat = some demoFile ∧
    ∃ s', _log demoFile LOG_PRI_INFO LOG_HL_NONE "x".toList true (demoFlush 1700000001)
        demoFormat = some s' ∧
      s'.m_log_queue.length
        = (_flushLogQueue demoFile false (demoFlush 1700000001)).m_log_queue.length + 1 :=
  ⟨(c1_level_filter demoFile LOG_PRI_DEBUG LOG_HL_NONE "x".toList true
      (demoFlush 1700000001) demoFormat).1 (by decide),
   Exists.imp (fun _ h => ⟨h.1, h.2.1⟩)
    ((c1_level_filter demoFile LOG_PRI_INFO LOG_HL_NONE "x".toList true
      (demoFlush 1700000001) demoFormat).2.2 (by decide) rfl rfl zeroItems_sized)⟩

/-- C2 (write order). Take a logger in file mode whose descriptor is closed or open on the
configured file, and any sequence of accepted log calls and forced flushes, every `open`
succeeding and every `writev` storing all its bytes, with any clock values. The sequence
runs to the end, and the content of the log file followed by the bytes still pending is the
content and pending bytes from before followed by the submitted records in submission order.
A flush that is due appends the whole pending batch, in index order, after the previous
content of the file and empties the queue; so after a closing forced flush the file holds
its previous content, the previously pending records and every submitted record, in order. -/
theorem c2_fifo_write_order (s : CLog) (cs : List Call) (ht : oneTarget s)
    (hacc : ∀ c ∈ cs, c.accepted s.m_ctx.log_level) :
    (∃ s', run s cs = some s' ∧
      fileContent s' s.m_ctx.log_file_name ++ pendingBytes s'
        = fileContent s s.m_ctx.log_file_name ++ pendingBytes s
            ++ (submitted s.m_ctx cs).flatten) ∧
    (∀ (force : Bool) (fio : FlushCalls), s.m_log_queue.length ≠ 0 → flushDue s force fio →
      fio.openOk = true → fio.written = none →
      (_flushLogQueue s force fio).files s.m_ctx.log_file_name
          = some (fileContent s s.m_ctx.log_file_name
              ++ ((s.m_log_queue.items.take s.m_log_queue.length).map cstr).flatten) ∧
        (_flushLogQueue s force fio).m_log_queue.length = 0) ∧
    (∀ fio : FlushCalls, fio.openOk = true → fio.written = none →
      ∃ s', run s (cs ++ [Call.flushLogs true fio]) = some s' ∧
        s'.m_log_queue.length = 0 ∧
        fileContent s' s.m_ctx.log_file_name
          = fileContent s s.m_ctx.log_file_name ++ pendingBytes s
              ++ (submitted s.m_ctx cs).flatten) := by
  obtain ⟨s1, e1, hctx1, ht1, hb1⟩ := run_keeps_bytes cs s ht hacc
  refine ⟨⟨s1, e1, hb1⟩, ?_, ?_⟩
  · intro force fio h0 hd ho hw
    obtain ⟨-, hfile, -, -⟩ := flush_due_write s force fio h0 hd (by
      rcases ht.2.2 with h | h
      · exact Or.inr ⟨h, ho⟩
      · exact Or.inl h)
    refine ⟨?_, (flush_due_length s force fio h0 hd).1⟩
    rw [hfile, hw]
    rfl
  · intro fio ho hw
    obtain ⟨hctx2, ht2, hb2⟩ := flush_keeps_bytes s1 true fio ht1 ho hw
    have hlen := flushLogs_length s1 fio
    refine ⟨flushLogs s1 true fio, ?_, hlen, ?_⟩
    · rw [run_append, e1]
      rfl
    · have hp := pendingBytes_of_length_zero _ hlen
      have e : flushLogs s1 true fio = _flushLogQueue s1 true fio := rfl
      rw [e] at hp ⊢
      rw [hp, List.append_nil, hctx1] at hb2
      rw [hb2, hb1]

/-- Witness of C2: two records and a forced flush on a logger in file mode. -/
theorem c2_fifo_write_order_witness :
    ∃ s', run demoFile
        [Call.log LOG_PRI_WARN LOG_HL_NONE "first".toList true (demoFlush 1700000001)
            demoFormat,
          Call.log LOG_PRI_INFO LOG_HL_NONE "second".toList true (demoFlush 1700000002)
            demoFormat,
          Call.flushLogs true (demoFlush 1700000003)] = some s' ∧
      fileContent s' demoFile.m_ctx.log_file_name ++ pendingBytes s'
        = fileContent demoFile demoFile.m_ctx.log_file_name ++ pendingBytes demoFile
          ++ (submitted demoFile.m_ctx
              [Call.log LOG_PRI_WARN LOG_HL_NONE "first".toList true (demoFlush 1700000001)
                demoFormat,
               Call.log LOG_PRI_INFO LOG_HL_NONE "second".toList true (demoFlush 1700000002)
                demoFormat,
               Call.flushLogs true (demoFlush 1700000003)]).flatten :=
  (c2_fifo_write_order demoFile _ demoFile_oneTarget (by
    intro c hc
    simp only [List.mem_cons, List.mem_singleton, List.not_mem_nil, or_false] at hc
    rcases hc with h | h | h
    · subst h; exact ⟨by decide, rfl, rfl, rfl⟩
    · subst h; exact ⟨by decide, rfl, rfl, rfl⟩
    · subst h; exact ⟨rfl, rfl⟩)).1

theorem toInt32_of_fits (v : Int) (h : -2147483648 ≤ v ∧ v < 2147483648) : toInt32 v = v := by
  unfold toInt32
  omega

/-- C3, counterexample. One record is pending, the call is not forced, the queue is not
full and exactly 60 seconds have passed since the last flush, which is not more than 60:
the queue is flushed all the same, the record is in the file. -/
theorem c3_flush_at_sixty_seconds :
    demoPending.m_log_queue.length = 1 ∧
    (demoFlush 1700000060).tsec - demoPending.m_log_queue.flush_sec = 60 ∧
    ¬ (false = true ∨ MAX_LOG_QUEUE_LENGTH ≤ demoPending.m_log_queue.length
        ∨ (demoFlush 1700000060).tsec - demoPending.m_log_queue.flush_sec > 60) ∧
    (_flushLogQueue demoPending false (demoFlush 1700000060)).m_log_queue.length = 0 ∧
    (_flushLogQueue demoPending false (demoFlush 1700000060)).files demoPath
      = some "[4242   231114:221320.123456 I] ready\n".toList := by
  decide

/-- C3, amended. On a non-empty queue `_flushLogQueue(force)` flushes (the queue comes back
empty) if and only if `force` is true, or the length has reached `MAX_LOG_QUEUE_LENGTH`, or
at least `MAX_LOG_QUEUE_TIME` = 60 seconds have passed since `flush_sec`; otherwise the
state is returned unchanged. -/
theorem c3_flush_decision (s : CLog) (force : Bool) (fio : FlushCalls)
    (h0 : s.m_log_queue.length ≠ 0) :
    ((_flushLogQueue s force fio).m_log_queue.length = 0 ↔
      (force = true ∨ MAX_LOG_QUEUE_LENGTH ≤ s.m_log_queue.length
        ∨ fio.tsec - s.m_log_queue.flush_sec ≥ MAX_LOG_QUEUE_TIME)) ∧
    (¬ (force = true ∨ MAX_LOG_QUEUE_LENGTH ≤ s.m_log_queue.length
        ∨ fio.tsec - s.m_log_queue.flush_sec ≥ MAX_LOG_QUEUE_TIME) →
      _flushLogQueue s force fio = s) := by
  constructor
  · constructor
    · intro h
      by_contra hn
      rw [flush_not_due s force fio hn] at h
      exact h0 h
    · intro h
      exact (flush_due_length s force fio h0 h).1
  · intro hn
    exact flush_not_due s force fio hn

/-- Witness of C3, amended: at 60 seconds the pending record is flushed, at 59 it is not. -/
theorem c3_flush_decision_witness :
    ((_flushLogQueue demoPending false (demoFlush 1700000060)).m_log_queue.length = 0 ↔
      (false = true ∨ MAX_LOG_QUEUE_LENGTH ≤ demoPending.m_log_queue.length
        ∨ (demoFlush 1700000060).tsec - demoPending.m_log_queue.flush_sec
            ≥ MAX_LOG_QUEUE_TIME)) ∧
    _flushLogQueue demoPending false (demoFlush 1700000059) = demoPending :=
  ⟨(c3_flush_decision demoPending false (demoFlush 1700000060) (by decide)).1,
   (c3_flush_decision demoPending false (demoFlush 1700000059) (by decide)).2 (by decide)⟩

/-- The part of C5 that the code keeps: a flush that is due on a non-empty queue leaves the
length 0 and the last-flush time equal to the clock converted to `int`, whatever `open` and
`writev` do; when `open` fails on a closed descriptor, the files, the trace of file-system
calls and the descriptor are as before. -/
theorem flush_resets_queue (s : CLog) (force : Bool) (fio : FlushCalls)
    (h0 : s.m_log_queue.length ≠ 0) (hd : flushDue s force fio) :
    (_flushLogQueue s force fio).m_log_queue.length = 0 ∧
    (_flushLogQueue s force fio).m_log_queue.flush_sec = toInt32 fio.tsec ∧
    (-2147483648 ≤ fio.tsec ∧ fio.tsec < 2147483648 →
      (_flushLogQueue s force fio).m_log_queue.flush_sec = fio.tsec) ∧
    (s.m_log_queue.log_fd = none → fio.openOk = false →
      (_flushLogQueue s force fio).files = s.files ∧
      (_flushLogQueue s force fio).trace = s.trace ∧
      (_flushLogQueue s force fio).m_log_queue.log_fd = none) := by
  obtain ⟨h1, h2⟩ := flush_due_length s force fio h0 hd
  refine ⟨h1, h2, fun hr => by rw [h2, toInt32_of_fits _ hr], ?_⟩
  intro hfd ho
  rw [flush_due_open_failed s force fio h0 hd hfd ho]
  exact ⟨rfl, rfl, hfd⟩

/-- C5, the failing input. A forced flush of one pending record at clock second 2147483648
(19 January 2038, 03:14:08 UTC): the queue is reset, but `flush_sec`, an `int`, receives
the `long long` clock value and holds -2147483648, not the current time; seen from the
next second, 4294967297 seconds have passed since that flush. -/
theorem c5_flush_time_truncated :
    (_flushLogQueue demoPending true (demoFlush 2147483648)).m_log_queue.length = 0 ∧
    (_flushLogQueue demoPending true (demoFlush 2147483648)).m_log_queue.flush_sec
      = -2147483648 ∧
    (_flushLogQueue demoPending true (demoFlush 2147483648)).m_log_queue.flush_sec
      ≠ (demoFlush 2147483648).tsec ∧
    (demoFlush 2147483649).tsec
      - (_flushLogQueue demoPending true (demoFlush 2147483648)).m_log_queue.flush_sec
      = 4294967297 := by
  decide

/-- C8 (flush on an empty queue). With an empty queue `_flushLogQueue`, forced or not, at any
clock value and with any outcome of the system calls, returns the state unchanged (files,
trace of file-system calls, descriptor and last-flush time included), and so does
`flushLogs`, whether or not it obtains the mutex. A `flushLogs` call that obtained the mutex
leaves an empty queue, so a second `flushLogs` right after it changes nothing: twice is the
same as once. -/
theorem c8_flush_empty_noop (s : CLog) (force lockOk : Bool) (fio fio2 : FlushCalls) :
    (s.m_log_queue.length = 0 →
      _flushLogQueue s force fio = s ∧ flushLogs s lockOk fio = s) ∧
    flushLogs (flushLogs s true fio) lockOk fio2 = flushLogs s true fio := by
  have hnoop : ∀ (t : CLog) (l : Bool) (g : FlushCalls), t.m_log_queue.length = 0 →
      flushLogs t l g = t := by
    intro t l g ht
    unfold flushLogs
    cases l
    · rfl
    · exact flush_empty t true g ht
  exact ⟨fun h => ⟨flush_empty s force fio h, hnoop s lockOk fio h⟩,
    hnoop _ lockOk fio2 (flushLogs_length s fio)⟩

/-- Witness of C8: a forced flush of the empty queue of `demoFile`. -/
theorem c8_flush_empty_noop_witness :
    _flushLogQueue demoFile true (demoFlush 1800000000) = demoFile ∧
    flushLogs demoFile true (demoFlush 1800000000) = demoFile :=
  (c8_flush_empty_noop demoFile true true (demoFlush 1800000000)
    (demoFlush 1800000001)).1 rfl

/-! ## Filling the queue while the clock stands still -/

theorem pendingRecords_append (s : CLog) (slot : Buf)
    (hi : s.m_log_queue.length < s.m_log_queue.items.length) :
    pendingRecords { s.m_log_queue with
        items := s.m_log_queue.items.set s.m_log_queue.length slot,
        length := s.m_log_queue.length + 1 }
      = pendingRecords s.m_log_queue ++ [cstr slot] := by
  unfold pendingRecords
  simp only
  rw [take_set_succ _ _ _ hi]
  simp

/-- While the queue has room and the clock stands at the last flush time, accepted log calls
only append: no flush, no file-system call. -/
theorem run_fill (cs : List Call) : ∀ s : CLog,
    s.m_ctx.b_log_screen = false → s.m_log_queue.sized →
    s.m_log_queue.length + cs.length ≤ MAX_LOG_QUEUE_LENGTH →
    (∀ c ∈ cs, c.acceptedAt s.m_ctx.log_level s.m_log_queue.flush_sec) →
    ∃ s', run s cs = some s' ∧ s'.m_ctx = s.m_ctx ∧ s'.m_log_queue.sized ∧
      s'.m_log_queue.length = s.m_log_queue.length + cs.length ∧
      pendingRecords s'.m_log_queue = pendingRecords s.m_log_queue ++ submitted s.m_ctx cs ∧
      s'.m_log_queue.flush_sec = s.m_log_queue.flush_sec ∧
      s'.m_log_queue.log_fd = s.m_log_queue.log_fd ∧
      s'.files = s.files ∧ s'.trace = s.trace ∧ s'.stdout = s.stdout := by
  induction cs with
  | nil =>
    intro s _ hz _ _
    exact ⟨s, rfl, rfl, hz, rfl, by simp [submitted], rfl, rfl, rfl, rfl, rfl⟩
  | cons c cs ih =>
    intro s hs hz hroom hacc
    have hc := hacc c (List.mem_cons_self _ _)
    cases c with
    | log p hl m l fio io =>
      obtain ⟨hp, hl1, ht⟩ := hc
      subst hl1
      simp only [List.length_cons] at hroom
      have hnd : _flushLogQueue s false fio = s := by
        apply flush_not_due
        unfold flushDue
        push_neg
        refine ⟨by simp, by omega, ?_⟩
        rw [ht, sub_self]
        decide
      obtain ⟨slot, hlen, hcs, hlog⟩ := log_file_step s p hl m fio io hp hs hz
      rw [hnd] at hlog
      have hi : s.m_log_queue.length < s.m_log_queue.items.length := by
        rw [hz.1]; omega
      have hz1 : SLogQueue.sized { s.m_log_queue with
          items := s.m_log_queue.items.set s.m_log_queue.length slot,
          length := s.m_log_queue.length + 1 } := by
        refine ⟨?_, ?_⟩
        · show (s.m_log_queue.items.set _ slot).length = _
          rw [List.length_set]
          exact hz.1
        · intro b hb
          rcases List.mem_or_eq_of_mem_set hb with hb | hb
          · exact hz.2 b hb
          · rw [hb]; exact hlen
      obtain ⟨s2, e2, hctx2, hz2, hlen2, hpend2, hfs2, hfd2, hfiles2, htr2, hout2⟩ :=
        ih { s with m_log_queue := { s.m_log_queue with
          items := s.m_log_queue.items.set s.m_log_queue.length slot,
          length := s.m_log_queue.length + 1 } } hs hz1
          (by show s.m_log_queue.length + 1 + cs.length ≤ _; omega)
          (fun c' h => hacc c' (List.mem_cons_of_mem _ h))
      refine ⟨s2, ?_, hctx2, hz2, ?_, ?_, hfs2, hfd2, hfiles2, htr2, hout2⟩
      · simp only [run, step, hlog, Option.some_bind, e2]
      · rw [hlen2]
        show s.m_log_queue.length + 1 + cs.length = _
        simp only [List.length_cons]
        omega
      · rw [hpend2, pendingRecords_append s slot hi, hcs]
        simp [submitted]
    | setContext ctx l1 l2 fio rio => exact absurd hc (by simp [Call.acceptedAt])
    | setLogLevel lvl => exact absurd hc (by simp [Call.acceptedAt])
    | flushLogs l fio => exact absurd hc (by simp [Call.acceptedAt])

theorem construct_eq (files : Str → Option Str) (t0 : Int) (initOk : Bool)
    (fio0 : FlushCalls) (rio0 : RotateCalls) :
    construct files t0 initOk true true true fio0 rio0 =
      { m_ctx := ctx_default,
        m_log_queue := { items := zeroItems, length := 0, flush_sec := toInt32 t0,
                         log_fd := none },
        files := files, trace := [],
        stdout := if initOk then []
          else ["ERROR: CLog module failed to be initialized.\n".toList] } := by
  unfold construct setContext
  simp [ctx_default, _configLogrotate, zeroItems, zeroSlot]

theorem closeLogFd_of_closed (s : CLog) (h : s.m_log_queue.log_fd = none) :
    closeLogFd s = s := by
  unfold closeLogFd
  rw [h]

/-- On a logger with an empty queue and a closed descriptor `setContext` only installs the
configuration and runs `_configLogrotate`. -/
theorem setContext_of_idle (s : CLog) (ctx : SLogContext) (l1 l2 : Bool) (fio : FlushCalls)
    (rio : RotateCalls) (h0 : s.m_log_queue.length = 0) (hfd : s.m_log_queue.log_fd = none) :
    setContext s ctx l1 l2 fio rio =
      if l2 then _configLogrotate { s with m_ctx := ctx } rio else { s with m_ctx := ctx } := by
  have h1 : closeLogFd (_flushLogQueue s true fio) = s := by
    rw [flush_empty s true fio h0, closeLogFd_of_closed s hfd]
  unfold setContext
  simp only [h1]
  split_ifs <;> rfl

theorem freshFileLogger_eq (files : Str → Option Str) (t0 : Int) (initOk : Bool)
    (fio0 : FlushCalls) (rio0 : RotateCalls) (ctx : SLogContext) (fio1 : FlushCalls) (rio1 : RotateCalls) :
    freshFileLogger files t0 initOk fio0 rio0 ctx fio1 rio1 =
      _configLogrotate
        { m_ctx := ctx,
          m_log_queue := { items := zeroItems, length := 0, flush_sec := toInt32 t0,
                           log_fd := none },
          files := files, trace := [],
          stdout := if initOk then []
            else ["ERROR: CLog module failed to be initialized.\n".toList] } rio1 := by
  unfold freshFileLogger
  rw [construct_eq, setContext_of_idle _ _ _ _ _ _ rfl rfl]
  rfl

theorem freshFileLogger_spec (files : Str → Option Str) (t0 : Int) (initOk : Bool)
    (fio0 : FlushCalls) (rio0 : RotateCalls) (ctx : SLogContext) (fio1 : FlushCalls) (rio1 : RotateCalls) :
    (freshFileLogger files t0 initOk fio0 rio0 ctx fio1 rio1).m_ctx = ctx ∧
    (freshFileLogger files t0 initOk fio0 rio0 ctx fio1 rio1).m_log_queue
      = { items := zeroItems, length := 0, flush_sec := toInt32 t0, log_fd := none } ∧
    logWrites (freshFileLogger files t0 initOk fio0 rio0 ctx fio1 rio1).trace = [] := by
  rw [freshFileLogger_eq]
  refine ⟨by rw [configLogrotate_ctx], by rw [configLogrotate_queue], ?_⟩
  obtain ⟨evs, he, hw⟩ := configLogrotate_trace
    { m_ctx := ctx,
      m_log_queue := { items := zeroItems, length := 0, flush_sec := toInt32 t0,
                       log_fd := none },
      files := files, trace := [],
      stdout := if initOk then []
        else ["ERROR: CLog module failed to be initialized.\n".toList] } rio1
  rw [he, logWrites_append, hw]
  rfl

/-- The effect of an accepted log call in file mode, the mutex acquired. -/
theorem log_file_effect (s : CLog) (p hl : Int) (msg : Str) (fio : FlushCalls) (io : FormatEnv)
    (hp : p ≤ s.m_ctx.log_level) (hs : s.m_ctx.b_log_screen = false)
    (hz : s.m_log_queue.sized) :
    ∃ s', _log s p hl msg true fio io = some s' ∧
      s'.m_log_queue.length = (_flushLogQueue s false fio).m_log_queue.length + 1 ∧
      pendingRecords s'.m_log_queue
        = pendingRecords (_flushLogQueue s false fio).m_log_queue
            ++ [fileRecord s.m_ctx p msg io] ∧
      s'.stdout = s.stdout ∧ s'.m_ctx = s.m_ctx ∧ s'.m_log_queue.sized ∧
      s'.files = (_flushLogQueue s false fio).files ∧
      s'.trace = (_flushLogQueue s false fio).trace ∧
      s'.m_log_queue.log_fd = (_flushLogQueue s false fio).m_log_queue.log_fd ∧
      s'.m_log_queue.flush_sec = (_flushLogQueue s false fio).m_log_queue.flush_sec := by
  obtain ⟨slot, hlen, hc, hlog⟩ := log_file_step s p hl msg fio io hp hs hz
  obtain ⟨hctx, -, hout⟩ := flush_frame s false fio
  have hz1 := flush_sized s false fio hz
  have hi : (_flushLogQueue s false fio).m_log_queue.length
      < (_flushLogQueue s false fio).m_log_queue.items.length := by
    rw [hz1.1]
    exact flush_length_lt s fio
  refine ⟨_, hlog, rfl, ?_, hout, hctx, ⟨?_, ?_⟩, rfl, rfl, rfl, rfl⟩
  · rw [← hc]
    exact pendingRecords_append (_flushLogQueue s false fio) slot hi
  · show ((_flushLogQueue s false fio).m_log_queue.items.set _ slot).length = _
    rw [List.length_set]
    exact hz1.1
  · intro b hb
    rcases List.mem_or_eq_of_mem_set hb with hb | hb
    · exact hz1.2 b hb
    · rw [hb]; exact hlen

theorem pendingRecords_of_length_zero (q : SLogQueue) (h : q.length = 0) :
    pendingRecords q = [] := by
  unfold pendingRecords
  rw [h]
  rfl

theorem zeroItems_sized_at (t : Int) : SLogQueue.sized
    { items := zeroItems, length := 0, flush_sec := t, log_fd := none } :=
  zeroItems_sized

/-- N accepted records on a fresh file-mode logger while the clock stands still: they are
all queued and nothing else changes. -/
theorem fresh_fill (files : Str → Option Str) (t0 : Int) (initOk : Bool)
    (fio0 : FlushCalls) (rio0 : RotateCalls) (ctx : SLogContext) (fio1 : FlushCalls)
    (rio1 : RotateCalls) (cs : List Call)
    (hfit : -2147483648 ≤ t0 ∧ t0 < 2147483648) (hfile : ctx.b_log_screen = false)
    (hn : cs.length = MAX_LOG_QUEUE_LENGTH) (hcs : ∀ c ∈ cs, c.acceptedAt ctx.log_level t0) :
    ∃ s', run (freshFileLogger files t0 initOk fio0 rio0 ctx fio1 rio1) cs = some s' ∧
      s'.m_ctx = ctx ∧ s'.m_log_queue.sized ∧ s'.m_log_queue.log_fd = none ∧
      s'.m_log_queue.length = MAX_LOG_QUEUE_LENGTH ∧
      pendingRecords s'.m_log_queue = submitted ctx cs ∧
      s'.files = (freshFileLogger files t0 initOk fio0 rio0 ctx fio1 rio1).files ∧
      s'.trace = (freshFileLogger files t0 initOk fio0 rio0 ctx fio1 rio1).trace := by
  obtain ⟨hctx, hq, -⟩ := freshFileLogger_spec files t0 initOk fio0 rio0 ctx fio1 rio1
  generalize freshFileLogger files t0 initOk fio0 rio0 ctx fio1 rio1 = f at hctx hq ⊢
  have hfs : f.m_log_queue.flush_sec = t0 := by rw [hq]; exact toInt32_of_fits t0 hfit
  have hlen0 : f.m_log_queue.length = 0 := by rw [hq]
  have hfd0 : f.m_log_queue.log_fd = none := by rw [hq]
  obtain ⟨s', e, hctx', hz', hlen', hpend', -, hfd', hfiles', htr', -⟩ := run_fill cs f
    (by rw [hctx]; exact hfile) (by rw [hq]; exact zeroItems_sized_at _)
    (by rw [hlen0, hn]; omega) (by rw [hctx, hfs]; exact hcs)
  rw [hlen0, Nat.zero_add, hn] at hlen'
  rw [pendingRecords_of_length_zero _ hlen0, List.nil_append, hctx] at hpend'
  exact ⟨s', e, by rw [hctx', hctx], hz', by rw [hfd', hfd0], hlen', hpend', hfiles', htr'⟩

/-- C4, counterexample. A logger constructed at second 1700000000 and put into file mode
receives 1024 accepted records while the clock stands still. After the 1024th call the queue
holds 1024 records, the log file does not exist and no `writev` has been made: no flush
has happened. -/
theorem c4_full_queue_not_flushed :
    (run demoFresh (List.replicate 1024 demoCall)).map
        (fun s => (s.m_log_queue.length, s.files demoPath, logWrites s.trace))
      = some (1024, none, []) := by
  obtain ⟨s', e, -, -, -, hlen, -, hfiles, htr⟩ := fresh_fill (fun _ => none) 1700000000 true
    (demoFlush 1700000000) demoRotate demoFileCtx (demoFlush 1700000000) demoRotate
    (List.replicate 1024 demoCall) (by decide) rfl (List.length_replicate _ _)
    (by
      intro c hc
      rw [List.eq_of_mem_replicate hc]
      exact ⟨by decide, rfl, rfl⟩)
  have hf : demoFresh.files demoPath = none := by
    unfold demoFresh
    rw [freshFileLogger_eq]
    rw [configLogrotate_files _ _ _ (by exact fun h => configFilePath_ne _ h.symm)]
  have ht : logWrites demoFresh.trace = [] :=
    (freshFileLogger_spec _ _ _ _ _ _ _ _).2.2
  show (run demoFresh (List.replicate 1024 demoCall)).map _ = _
  unfold demoFresh at hf ht ⊢
  rw [e, Option.map_some', hlen, hfiles, htr, hf, ht]
  rfl

/-- C4, amended. A logger is constructed at a clock second that fits an `int` and put into
file mode; then N = 1024 accepted records are submitted while the clock stands still. No
flush happens during these calls: after the N-th call the queue holds the N records, and the
files and the trace of file-system calls are those of the fresh logger. The flush happens
in the next accepted log call, before its record is appended: with `open` succeeding and
`writev` storing every byte, that call makes the only `writev` so far, which appends the N
records in order to the log file, and leaves its own record alone in the queue. -/
theorem c4_capacity_flush (files : Str → Option Str) (t0 : Int) (initOk : Bool)
    (fio0 : FlushCalls) (rio0 : RotateCalls) (ctx : SLogContext) (fio1 : FlushCalls) (rio1 : RotateCalls)
    (cs : List Call)
    (hfit : -2147483648 ≤ t0 ∧ t0 < 2147483648) (hfile : ctx.b_log_screen = false)
    (hn : cs.length = MAX_LOG_QUEUE_LENGTH) (hcs : ∀ c ∈ cs, c.acceptedAt ctx.log_level t0) :
    ∃ s', run (freshFileLogger files t0 initOk fio0 rio0 ctx fio1 rio1) cs = some s' ∧
      s'.m_log_queue.length = MAX_LOG_QUEUE_LENGTH ∧
      pendingRecords s'.m_log_queue = submitted ctx cs ∧
      s'.files = (freshFileLogger files t0 initOk fio0 rio0 ctx fio1 rio1).files ∧
      s'.trace = (freshFileLogger files t0 initOk fio0 rio0 ctx fio1 rio1).trace ∧
      ∀ (p hl : Int) (m : Str) (fio : FlushCalls) (io : FormatEnv), p ≤ ctx.log_level →
        fio.openOk = true → fio.written = none →
        ∃ s'', _log s' p hl m true fio io = some s'' ∧
          s''.m_log_queue.length = 1 ∧
          pendingRecords s''.m_log_queue = [fileRecord ctx p m io] ∧
          s''.files ctx.log_file_name
            = some (fileContent (freshFileLogger files t0 initOk fio0 rio0 ctx fio1 rio1)
                ctx.log_file_name ++ (submitted ctx cs).flatten) ∧
          logWrites s''.trace = [(ctx.log_file_name, (submitted ctx cs).flatten)] := by
  obtain ⟨s', e, hctx2, hz', hfd', hlen', hpend', hfiles', htr'⟩ :=
    fresh_fill files t0 initOk fio0 rio0 ctx fio1 rio1 cs hfit hfile hn hcs
  have htr := (freshFileLogger_spec files t0 initOk fio0 rio0 ctx fio1 rio1).2.2
  refine ⟨s', e, hlen', hpend', hfiles', htr', ?_⟩
  intro p hl m fio io hp ho hw
  obtain ⟨s'', e2, hl2, hp2, -, -, -, hf2, ht2, -, -⟩ := log_file_effect s' p hl m fio io
    (by rw [hctx2]; exact hp) (by rw [hctx2]; exact hfile) hz'
  have h0 : s'.m_log_queue.length ≠ 0 := by rw [hlen']; decide
  have hd : flushDue s' false fio := Or.inr (Or.inl (by rw [hlen']))
  obtain ⟨hlenf, -⟩ := flush_due_length s' false fio h0 hd
  obtain ⟨-, hfile2, -, evs, hev, hwr⟩ := flush_due_write s' false fio h0 hd
    (Or.inr ⟨hfd', ho⟩)
  have hbytes : pendingBytes s' = (submitted ctx cs).flatten := by
    unfold pendingBytes
    rw [hpend']
  refine ⟨s'', e2, by rw [hl2, hlenf], ?_, ?_, ?_⟩
  · rw [hp2, pendingRecords_of_length_zero _ hlenf, hctx2]
    rfl
  · rw [hctx2] at hfile2
    rw [hf2, hfile2, hw, hbytes]
    unfold fileContent
    rw [hfiles']
    rfl
  · rw [ht2, hev, logWrites_append, hwr, htr', htr, hw, hbytes, hctx2]
    rfl

/-- Witness of C4, amended: 1024 warnings at second 1700000000. -/
theorem c4_capacity_flush_witness :
    ∃ s', run demoFresh (List.replicate 1024 demoCall) = some s' ∧
      s'.m_log_queue.length = MAX_LOG_QUEUE_LENGTH :=
  Exists.imp (fun _ h => ⟨h.1, h.2.1⟩)
    (c4_capacity_flush (fun _ => none) 1700000000 true (demoFlush 1700000000) demoRotate
      demoFileCtx (demoFlush 1700000000) demoRotate (List.replicate 1024 demoCall)
      (by decide) rfl (List.length_replicate _ _)
      (fun c hc => by
        rw [List.eq_of_mem_replicate hc]
        exact ⟨by decide, rfl, rfl⟩))

/-! ## `setContext` -/

/-- Every `writev` of `_flushLogQueue` goes to the open descriptor or, when it was closed, to
the configured file, and the descriptor ends where it was or open on the configured file. -/
theorem flush_trace (s : CLog) (force : Bool) (io : FlushCalls) :
    (∃ evs, (_flushLogQueue s force io).trace = s.trace ++ evs ∧
      ∀ w ∈ logWrites evs, s.m_log_queue.log_fd = some w.1
        ∨ (s.m_log_queue.log_fd = none ∧ w.1 = s.m_ctx.log_file_name)) ∧
    ((_flushLogQueue s force io).m_log_queue.log_fd = s.m_log_queue.log_fd
      ∨ (s.m_log_queue.log_fd = none
          ∧ (_flushLogQueue s force io).m_log_queue.log_fd = some s.m_ctx.log_file_name)) := by
  by_cases h0 : s.m_log_queue.length = 0
  · rw [flush_empty s force io h0]
    exact ⟨⟨[], by simp, by simp [logWrites]⟩, Or.inl rfl⟩
  by_cases hd : flushDue s force io
  swap
  · rw [flush_not_due s force io hd]
    exact ⟨⟨[], by simp, by simp [logWrites]⟩, Or.inl rfl⟩
  rw [flush_due s force io h0 hd]
  cases hfd : s.m_log_queue.log_fd with
  | some fd =>
    rw [afterOpen_of_open s io fd hfd, afterWrite_of_open s io fd hfd]
    obtain ⟨evs, he, hw⟩ := configLogrotate_trace
      { s with files := fileAppend s.files fd (stored io.written (pendingBytes s)),
               trace := s.trace ++ [IoEvent.writev fd (stored io.written (pendingBytes s))] }
      io.rot
    refine ⟨⟨IoEvent.writev fd (stored io.written (pendingBytes s)) :: evs, ?_, ?_⟩, ?_⟩
    · show (_configLogrotate _ io.rot).trace = _
      rw [he]
      simp
    · intro w hwm
      simp only [logWrites, hw, List.mem_singleton] at hwm
      rw [hwm]
      exact Or.inl rfl
    · left
      show (_configLogrotate _ io.rot).m_log_queue.log_fd = _
      rw [configLogrotate_queue]
      exact hfd
  | none =>
    cases ho : io.openOk with
    | false =>
      rw [afterOpen_of_fail s io hfd ho, afterWrite_of_closed s io hfd]
      exact ⟨⟨[], by simp, by simp [logWrites]⟩, Or.inl hfd⟩
    | true =>
      have hb := afterOpen_pendingBytes s io
      rw [afterOpen_of_success s io hfd ho] at hb ⊢
      rw [afterWrite_of_open _ io s.m_ctx.log_file_name rfl, hb]
      obtain ⟨evs, he, hw⟩ := configLogrotate_trace
        { m_ctx := s.m_ctx,
          m_log_queue := { s.m_log_queue with log_fd := some s.m_ctx.log_file_name },
          files := fileAppend (fileCreate s.files s.m_ctx.log_file_name) s.m_ctx.log_file_name
            (stored io.written (pendingBytes s)),
          trace := s.trace ++ [IoEvent.openLog s.m_ctx.log_file_name] ++
            [IoEvent.writev s.m_ctx.log_file_name (stored io.written (pendingBytes s))],
          stdout := s.stdout } io.rot
      refine ⟨⟨IoEvent.openLog s.m_ctx.log_file_name ::
        IoEvent.writev s.m_ctx.log_file_name (stored io.written (pendingBytes s)) :: evs,
        ?_, ?_⟩, ?_⟩
      · show (_configLogrotate _ io.rot).trace = _
        rw [he]
        simp
      · intro w hwm
        simp only [logWrites, hw, List.mem_singleton] at hwm
        rw [hwm]
        exact Or.inr ⟨rfl, rfl⟩
      · right
        refine ⟨rfl, ?_⟩
        show (_configLogrotate _ io.rot).m_log_queue.log_fd = _
        rw [configLogrotate_queue]

theorem closeLogFd_fields (s : CLog) :
    (closeLogFd s).m_ctx = s.m_ctx ∧ (closeLogFd s).m_log_queue.items = s.m_log_queue.items ∧
    (closeLogFd s).m_log_queue.length = s.m_log_queue.length ∧
    (closeLogFd s).m_log_queue.flush_sec = s.m_log_queue.flush_sec ∧
    (closeLogFd s).m_log_queue.log_fd = none ∧ (closeLogFd s).files = s.files ∧
    (closeLogFd s).stdout = s.stdout ∧
    ∃ evs, (closeLogFd s).trace = s.trace ++ evs ∧ logWrites evs = [] := by
  unfold closeLogFd
  cases h : s.m_log_queue.log_fd with
  | none => exact ⟨rfl, rfl, rfl, rfl, h, rfl, rfl, [], by simp, rfl⟩
  | some fd => exact ⟨rfl, rfl, rfl, rfl, rfl, rfl, rfl, _, rfl, rfl⟩

/-- Under its condition and with the first lock obtained, `setContext` flushes and closes
with the old configuration, then installs the new one, then configures rotation. -/
theorem setContext_swap (s : CLog) (ctx : SLogContext) (lock2 : Bool) (fio : FlushCalls)
    (rio : RotateCalls) (h : swapsTarget s ctx) :
    setContext s ctx true lock2 fio rio =
      if lock2 then
        _configLogrotate { closeLogFd (_flushLogQueue s true fio) with m_ctx := ctx } rio
      else { closeLogFd (_flushLogQueue s true fio) with m_ctx := ctx } := by
  have hc : ((!s.m_ctx.b_log_screen && ctx.b_log_screen)
      || decide (ctx.log_file_name ≠ s.m_ctx.log_file_name)) = true := by
    rcases h with ⟨h1, h2⟩ | h
    · simp [h1, h2]
    · simp [h]
  unfold setContext
  simp only [hc, if_true]

/-- Outside its condition `setContext` neither flushes nor closes. -/
theorem setContext_keep (s : CLog) (ctx : SLogContext) (lock1 lock2 : Bool) (fio : FlushCalls)
    (rio : RotateCalls) (h : ¬ swapsTarget s ctx) :
    setContext s ctx lock1 lock2 fio rio =
      if lock2 then _configLogrotate { s with m_ctx := ctx } rio
      else { s with m_ctx := ctx } := by
  have hc : ¬ (((!s.m_ctx.b_log_screen && ctx.b_log_screen)
      || decide (ctx.log_file_name ≠ s.m_ctx.log_file_name)) = true) := by
    intro hc
    apply h
    simp only [Bool.or_eq_true, Bool.and_eq_true, Bool.not_eq_true', decide_eq_true_eq] at hc
    exact hc
  unfold setContext
  simp only [if_neg hc]

theorem setContext_swap_fields (s : CLog) (ctx : SLogContext) (lock2 : Bool) (fio : FlushCalls)
    (rio : RotateCalls) (h : swapsTarget s ctx) :
    (setContext s ctx true lock2 fio rio).m_ctx = ctx ∧
    (setContext s ctx true lock2 fio rio).m_log_queue.length = 0 ∧
    (setContext s ctx true lock2 fio rio).m_log_queue.log_fd = none ∧
    (setContext s ctx true lock2 fio rio).m_log_queue.items = s.m_log_queue.items ∧
    (∀ p, p ≠ configFilePath ctx.log_file_name →
      (setContext s ctx true lock2 fio rio).files p = (_flushLogQueue s true fio).files p) ∧
    ∃ evs, (setContext s ctx true lock2 fio rio).trace = (_flushLogQueue s true fio).trace ++ evs
      ∧ logWrites evs = [] := by
  rw [setContext_swap s ctx lock2 fio rio h]
  obtain ⟨-, hitems, hlen, -, hfd, hfiles, -, evs, he, hw⟩ :=
    closeLogFd_fields (_flushLogQueue s true fio)
  have hlen0 : (_flushLogQueue s true fio).m_log_queue.length = 0 := flushLogs_length s fio
  cases lock2 with
  | false =>
    rw [if_neg Bool.false_ne_true]
    exact ⟨rfl, by rw [hlen, hlen0], hfd, by rw [hitems, (flush_frame s true fio).2.1],
      fun p _ => by rw [hfiles], evs, he, hw⟩
  | true =>
    rw [if_pos rfl]
    obtain ⟨evs2, he2, hw2⟩ := configLogrotate_trace
      { closeLogFd (_flushLogQueue s true fio) with m_ctx := ctx } rio
    refine ⟨by rw [configLogrotate_ctx], ?_, ?_, ?_, ?_, evs ++ evs2, ?_, ?_⟩
    · rw [configLogrotate_queue]
      show (closeLogFd _).m_log_queue.length = 0
      rw [hlen, hlen0]
    · rw [configLogrotate_queue]
      exact hfd
    · rw [configLogrotate_queue]
      show (closeLogFd _).m_log_queue.items = _
      rw [hitems, (flush_frame s true fio).2.1]
    · intro p hp
      rw [configLogrotate_files _ _ _ (by exact hp)]
      show (closeLogFd _).files p = _
      rw [hfiles]
    · rw [he2]
      show (closeLogFd _).trace ++ evs2 = _
      rw [he, List.append_assoc]
    · rw [logWrites_append, hw, hw2]
      rfl

theorem log_unlocked (s : CLog) (p hl : Int) (msg : Str) (fio : FlushCalls) (io : FormatEnv)
    (hs : s.m_ctx.b_log_screen = false) : _log s p hl msg false fio io = some s := by
  unfold _log
  split_ifs <;> first | rfl | simp_all

theorem flush_only_target (t : CLog) (force : Bool) (io : FlushCalls) (ht : oneTarget t) :
    (_flushLogQueue t force io).m_ctx = t.m_ctx ∧ oneTarget (_flushLogQueue t force io) ∧
    ∃ evs, (_flushLogQueue t force io).trace = t.trace ++ evs ∧
      ∀ w ∈ logWrites evs, w.1 = t.m_ctx.log_file_name := by
  obtain ⟨hctx, -, -⟩ := flush_frame t force io
  obtain ⟨⟨evs, he, hw⟩, hfd⟩ := flush_trace t force io
  refine ⟨hctx, ⟨by rw [hctx]; exact ht.1, flush_sized t force io ht.2.1, ?_⟩, evs, he, ?_⟩
  · rw [hctx]
    rcases hfd with h | ⟨-, h⟩
    · rw [h]; exact ht.2.2
    · exact Or.inr h
  · intro w hwm
    rcases hw w hwm with h | ⟨-, h⟩
    · rcases ht.2.2 with h' | h'
      · rw [h'] at h; cases h
      · rw [h'] at h
        exact (Option.some.inj h).symm
    · exact h

theorem step_only_target (t : CLog) (c : Call) (ht : oneTarget t) (hc : c.logsOrFlushes) :
    ∃ t', step t c = some t' ∧ t'.m_ctx = t.m_ctx ∧ oneTarget t' ∧
      ∃ evs, t'.trace = t.trace ++ evs ∧ ∀ w ∈ logWrites evs, w.1 = t.m_ctx.log_file_name := by
  have hsame : t.m_ctx = t.m_ctx ∧ oneTarget t ∧
      ∃ evs, t.trace = t.trace ++ evs ∧ ∀ w ∈ logWrites evs, w.1 = t.m_ctx.log_file_name :=
    ⟨rfl, ht, [], by simp, by simp [logWrites]⟩
  cases c with
  | log p hl m l fio io =>
    by_cases hp : p > t.m_ctx.log_level
    · exact ⟨t, log_dropped t p hl m l fio io hp, hsame⟩
    cases l with
    | false => exact ⟨t, log_unlocked t p hl m fio io ht.1, hsame⟩
    | true =>
      obtain ⟨t', e, -, -, -, hctx, hz, -, htr, hfd, -⟩ :=
        log_file_effect t p hl m fio io (by omega) ht.1 ht.2.1
      obtain ⟨hctx1, ht1, evs, he, hw⟩ := flush_only_target t false fio ht
      refine ⟨t', e, hctx, ⟨by rw [hctx]; exact ht.1, hz, ?_⟩, evs, by rw [htr, he], hw⟩
      rw [hfd, hctx, ← hctx1]
      exact ht1.2.2
  | flushLogs l fio =>
    cases l with
    | false => exact ⟨t, rfl, hsame⟩
    | true => exact ⟨_, rfl, flush_only_target t true fio ht⟩
  | setContext ctx l1 l2 fio rio => exact absurd hc (by simp [Call.logsOrFlushes])
  | setLogLevel lvl => exact absurd hc (by simp [Call.logsOrFlushes])

theorem run_only_target (cs : List Call) : ∀ t : CLog, oneTarget t →
    (∀ c ∈ cs, c.logsOrFlushes) →
    ∃ t', run t cs = some t' ∧ t'.m_ctx = t.m_ctx ∧
      ∃ evs, t'.trace = t.trace ++ evs ∧ ∀ w ∈ logWrites evs, w.1 = t.m_ctx.log_file_name := by
  induction cs with
  | nil =>
    intro t _ _
    exact ⟨t, rfl, rfl, [], by simp, by simp [logWrites]⟩
  | cons c cs ih =>
    intro t ht hcs
    obtain ⟨t1, e1, hctx1, ht1, evs1, he1, hw1⟩ :=
      step_only_target t c ht (hcs c (List.mem_cons_self _ _))
    obtain ⟨t2, e2, hctx2, evs2, he2, hw2⟩ :=
      ih t1 ht1 (fun c' h => hcs c' (List.mem_cons_of_mem _ h))
    refine ⟨t2, ?_, by rw [hctx2, hctx1], evs1 ++ evs2, by rw [he2, he1, List.append_assoc], ?_⟩
    · simp only [run, e1, Option.some_bind, e2]
    · intro w hwm
      rw [logWrites_append] at hwm
      rcases List.mem_append.mp hwm with h | h
      · exact hw1 w h
      · rw [← hctx1]; exact hw2 w h

/-- C6 (configuration swap). A logger in file mode with file A has k ≥ 1 pending records, its
descriptor closed or open on A; A can be opened and `writev` stores every byte. `setContext`
with a file-mode configuration for another file B, the mutex obtained, makes exactly one
`writev`, which appends the k pending records in order to A, and none to B; it returns with
the new configuration, an empty queue and a closed descriptor. As files: A holds its previous
content followed by the pending records unless A is the rotation descriptor derived from B,
and B is untouched unless B is the rotation descriptor derived from A. Whatever log calls and
forced flushes follow, with any outcomes, every later `writev` goes to B. -/
theorem c6_config_swap (s : CLog) (ctx : SLogContext) (lock2 : Bool) (fio : FlushCalls)
    (rio : RotateCalls) (ht : oneTarget s) (hk : 1 ≤ s.m_log_queue.length)
    (hfile : ctx.b_log_screen = false) (hB : ctx.log_file_name ≠ s.m_ctx.log_file_name)
    (ho : fio.openOk = true) (hw : fio.written = none) :
    (∃ evs, (setContext s ctx true lock2 fio rio).trace = s.trace ++ evs ∧
      logWrites evs = [(s.m_ctx.log_file_name, pendingBytes s)]) ∧
    (setContext s ctx true lock2 fio rio).m_ctx = ctx ∧
    (setContext s ctx true lock2 fio rio).m_log_queue.length = 0 ∧
    (setContext s ctx true lock2 fio rio).m_log_queue.log_fd = none ∧
    (s.m_ctx.log_file_name ≠ configFilePath ctx.log_file_name →
      (setContext s ctx true lock2 fio rio).files s.m_ctx.log_file_name
        = some (fileContent s s.m_ctx.log_file_name ++ pendingBytes s)) ∧
    (ctx.log_file_name ≠ configFilePath s.m_ctx.log_file_name →
      (setContext s ctx true lock2 fio rio).files ctx.log_file_name
        = s.files ctx.log_file_name) ∧
    (∀ cs : List Call, (∀ c ∈ cs, c.logsOrFlushes) →
      ∃ s'', run (setContext s ctx true lock2 fio rio) cs = some s'' ∧
        ∃ evs, s''.trace = (setContext s ctx true lock2 fio rio).trace ++ evs ∧
          ∀ w ∈ logWrites evs, w.1 = ctx.log_file_name) := by
  have hswap : swapsTarget s ctx := Or.inr hB
  obtain ⟨hctx, hlen, hfd, hitems, hfiles, evs2, he2, hw2⟩ :=
    setContext_swap_fields s ctx lock2 fio rio hswap
  have h0 : s.m_log_queue.length ≠ 0 := by omega
  obtain ⟨-, hfA, hfother, evs1, he1, hw1⟩ := flush_due_write s true fio h0 (Or.inl rfl) (by
    rcases ht.2.2 with h | h
    · exact Or.inr ⟨h, ho⟩
    · exact Or.inl h)
  rw [hw] at hfA hw1
  refine ⟨⟨evs1 ++ evs2, by rw [he2, he1, List.append_assoc], ?_⟩, hctx, hlen, hfd, ?_, ?_, ?_⟩
  · rw [logWrites_append, hw1, hw2]
    rfl
  · intro hA
    rw [hfiles _ hA, hfA]
    rfl
  · intro hBA
    rw [hfiles _ (fun h => configFilePath_ne _ h.symm), hfother _ hB hBA]
  · intro cs hcs
    have ht' : oneTarget (setContext s ctx true lock2 fio rio) := by
      refine ⟨by rw [hctx]; exact hfile, ⟨?_, ?_⟩, Or.inl hfd⟩
      · rw [hitems]; exact ht.2.1.1
      · rw [hitems]; exact ht.2.1.2
    obtain ⟨s'', e, -, evs, he, hwr⟩ := run_only_target cs _ ht' hcs
    rw [hctx] at hwr
    exact ⟨s'', e, evs, he, hwr⟩

theorem slotOf_length (text : Str) (h : text.length ≤ MAX_LOG_ITEM_LENGTH + 1) :
    (slotOf text).length = MAX_LOG_ITEM_LENGTH + 1 := by
  unfold slotOf
  rw [List.length_append, List.length_replicate]
  omega

theorem demoPending_oneTarget : oneTarget demoPending := by
  refine ⟨rfl, ⟨?_, ?_⟩, Or.inl rfl⟩
  · show (_ :: List.replicate (MAX_LOG_QUEUE_LENGTH - 1) zeroSlot).length = _
    rw [List.length_cons, List.length_replicate]
    rfl
  · intro b hb
    rcases List.mem_cons.mp hb with h | h
    · rw [h]
      exact slotOf_length _ (by decide)
    · rw [List.eq_of_mem_replicate h]
      exact List.length_replicate _ _

/-- Witness of C6: the pending record of `demoPending` goes to `demoPath` when the logger is
pointed at `demoOtherPath`. -/
theorem c6_config_swap_witness :
    ∃ evs, (setContext demoPending { demoFileCtx with log_file_name := demoOtherPath } true true
        (demoFlush 1700000005) demoRotate).trace = demoPending.trace ++ evs ∧
      logWrites evs = [(demoPending.m_ctx.log_file_name, pendingBytes demoPending)] :=
  (c6_config_swap demoPending { demoFileCtx with log_file_name := demoOtherPath } true
    (demoFlush 1700000005) demoRotate demoPending_oneTarget (by decide) rfl (by decide)
    rfl rfl).1

/-! ## Formatting -/

/-- C7, counterexample. A logger is put into file mode and queues one record; a
`setContext` to console mode then fails to obtain its first lock, so the record stays queued
while the configuration is in console mode. Now `setContext` is called, every lock obtained,
with a configuration that disables console mode and keeps the file name: it returns with the
record still queued and without any `writev`. -/
theorem c7_screen_to_file_keeps_queue :
    (run demoFresh
        [demoCall,
         Call.setContext demoScreenCtx false true (demoFlush 1700000001) demoRotate]).map
      (fun s => (s.m_ctx.b_log_screen, s.m_log_queue.length)) = some (true, 1) ∧
    demoFileCtx.b_log_screen = false ∧
    demoFileCtx.log_file_name = demoScreenCtx.log_file_name ∧
    (run demoFresh
        [demoCall,
         Call.setContext demoScreenCtx false true (demoFlush 1700000001) demoRotate,
         Call.setContext demoFileCtx true true (demoFlush 1700000002) demoRotate]).map
      (fun s => (s.m_ctx.b_log_screen, s.m_log_queue.length)) = some (false, 1) ∧
    (run demoFresh
        [demoCall,
         Call.setContext demoScreenCtx false true (demoFlush 1700000001) demoRotate,
         Call.setContext demoFileCtx true true (demoFlush 1700000002) demoRotate]).map
      (fun s => logWrites s.trace) = some [] := by
  decide

/-- C7, amended. If the current configuration has console mode disabled while the new one
enables it, or the new file name differs from the current one, then `setContext`, its first
lock obtained, runs the forced flush and closes the descriptor on the state that still holds
the old configuration, and only then installs the new configuration and configures rotation;
it returns with the new configuration, an empty queue and a closed descriptor. A non-empty
batch whose descriptor is open on the old file, or closed with `open` succeeding, is written
by one `writev` to the old configuration's file. -/
theorem c7_setContext_flush (s : CLog) (ctx : SLogContext) (lock2 : Bool) (fio : FlushCalls)
    (rio : RotateCalls)
    (h : (s.m_ctx.b_log_screen = false ∧ ctx.b_log_screen = true)
      ∨ ctx.log_file_name ≠ s.m_ctx.log_file_name) :
    setContext s ctx true lock2 fio rio
      = (if lock2 then
          _configLogrotate { closeLogFd (_flushLogQueue s true fio) with m_ctx := ctx } rio
        else { closeLogFd (_flushLogQueue s true fio) with m_ctx := ctx }) ∧
    (_flushLogQueue s true fio).m_ctx = s.m_ctx ∧
    (setContext s ctx true lock2 fio rio).m_ctx = ctx ∧
    (setContext s ctx true lock2 fio rio).m_log_queue.length = 0 ∧
    (setContext s ctx true lock2 fio rio).m_log_queue.log_fd = none ∧
    (s.m_log_queue.length ≠ 0 →
      (s.m_log_queue.log_fd = some s.m_ctx.log_file_name
        ∨ (s.m_log_queue.log_fd = none ∧ fio.openOk = true)) →
      ∃ evs, (setContext s ctx true lock2 fio rio).trace = s.trace ++ evs ∧
        logWrites evs = [(s.m_ctx.log_file_name, stored fio.written (pendingBytes s))]) := by
  obtain ⟨hctx, hlen, hfd, -, -, evs2, he2, hw2⟩ := setContext_swap_fields s ctx lock2 fio rio h
  refine ⟨setContext_swap s ctx lock2 fio rio h, (flush_frame s true fio).1, hctx, hlen, hfd, ?_⟩
  intro h0 hopen
  obtain ⟨-, -, -, evs1, he1, hw1⟩ := flush_due_write s true fio h0 (Or.inl rfl) hopen
  exact ⟨evs1 ++ evs2, by rw [he2, he1, List.append_assoc], by
    rw [logWrites_append, hw1, hw2]; rfl⟩

/-- Witness of C7, amended: `demoPending` leaves file mode for console mode. -/
theorem c7_setContext_flush_witness :
    (setContext demoPending demoScreenCtx true true (demoFlush 1700000005)
      demoRotate).m_log_queue.length = 0 ∧
    (setContext demoPending demoScreenCtx true true (demoFlush 1700000005)
      demoRotate).m_log_queue.log_fd = none :=
  ⟨(c7_setContext_flush demoPending demoScreenCtx true (demoFlush 1700000005) demoRotate
      (Or.inl ⟨rfl, rfl⟩)).2.2.2.1,
   (c7_setContext_flush demoPending demoScreenCtx true (demoFlush 1700000005) demoRotate
      (Or.inl ⟨rfl, rfl⟩)).2.2.2.2.1⟩

theorem cstr_take_leading (msg : Str) (k : Nat) : ∃ rest, msg = cstr (msg.take k) ++ rest := by
  refine ⟨(msg.take k).dropWhile (fun c => !decide (c = NUL)) ++ msg.drop k, ?_⟩
  unfold cstr
  rw [← List.append_assoc, List.takeWhile_append_dropWhile, List.take_append_drop]

/-- C9 (bounded formatting). Whatever the configuration, priority, ids, time stamp and
message, `_formatLogItem` on an array of `MAX_LOG_ITEM_LENGTH + 1` = 1024 bytes makes no
write outside the array: it returns the array, of the same size, holding a terminated string
of at most 1023 characters. In the console layout the string is the 22 characters of the
header followed by a leading part of the message of at most 1000 characters; in the file
layout it is the 32 characters of the header, a leading part of the message of at most 989
characters, and the line feed. -/
theorem c9_bounded_format (ctx : SLogContext) (buf : Buf) (p : Int) (msg : Str) (io : FormatEnv)
    (hbuf : buf.length = MAX_LOG_ITEM_LENGTH + 1) :
    ∃ b, _formatLogItem ctx buf p msg io = some b ∧ b.length = MAX_LOG_ITEM_LENGTH + 1 ∧
      NUL ∈ b ∧ (cstr b).length + 1 ≤ MAX_LOG_ITEM_LENGTH + 1 ∧
      (ctx.b_log_screen = true →
        ∃ m rest, cstr b = screenHeaderStored ctx p io ++ m ∧
          (screenHeaderStored ctx p io).length = 22 ∧ m.length ≤ 1000 ∧ msg = m ++ rest) ∧
      (ctx.b_log_screen = false →
        ∃ m rest, cstr b = fileHeaderStored ctx p io ++ m ++ ['\n'] ∧
          (fileHeaderStored ctx p io).length = 32 ∧ m.length ≤ 989 ∧ msg = m ++ rest) := by
  cases hs : ctx.b_log_screen with
  | true =>
    obtain ⟨b, e, hl, hc⟩ := formatLogItem_screen ctx buf p msg io hs hbuf
    obtain ⟨rest, hrest⟩ := cstr_take_leading msg 1000
    have h22 := screenHeaderStored_length ctx p io
    have hm := cstr_takeWhile_take msg 1000
    have hlen : (cstr b).length + 1 ≤ MAX_LOG_ITEM_LENGTH + 1 := by
      rw [hc]
      unfold screenRecord
      rw [List.length_append, h22]
      show _ ≤ 1024
      omega
    refine ⟨b, e, hl, NUL_mem_of_cstr_lt b (by rw [hl]; omega), hlen, ?_, ?_⟩
    · intro _
      exact ⟨_, rest, hc, h22, hm, hrest⟩
    · intro h
      cases h
  | false =>
    obtain ⟨b, e, hl, hc⟩ := formatLogItem_file ctx buf p msg io hs hbuf
    obtain ⟨rest, hrest⟩ := cstr_take_leading msg 989
    have h32 := fileHeaderStored_length ctx p io
    have hm := cstr_takeWhile_take msg 989
    have hlen : (cstr b).length + 1 ≤ MAX_LOG_ITEM_LENGTH + 1 := by
      rw [hc]
      unfold fileRecord
      rw [List.length_append, List.length_append, h32]
      show _ ≤ 1024
      simp only [List.length_singleton]
      omega
    refine ⟨b, e, hl, NUL_mem_of_cstr_lt b (by rw [hl]; omega), hlen, ?_, ?_⟩
    · intro h
      cases h
    · intro _
      exact ⟨_, rest, hc, h32, hm, hrest⟩

/-- Witness of C9: a message of 5000 characters formatted into an empty slot. -/
theorem c9_bounded_format_witness :
    ∃ b, _formatLogItem demoFileCtx zeroSlot LOG_PRI_INFO (List.replicate 5000 'a')
        demoFormat = some b ∧ b.length = MAX_LOG_ITEM_LENGTH + 1 :=
  Exists.imp (fun _ h => ⟨h.1, h.2.1⟩)
    (c9_bounded_format demoFileCtx zeroSlot LOG_PRI_INFO (List.replicate 5000 'a') demoFormat
      (List.length_replicate _ _))

theorem linesOf_line (body rest : Str) (h : '\n' ∉ body) :
    linesOf (body ++ '\n' :: rest) = (body ++ ['\n']) :: linesOf rest := by
  induction body with
  | nil => simp [linesOf]
  | cons c cs ih =>
    have hc : c ≠ '\n' := fun e => h (by simp [e])
    have hcs : '\n' ∉ cs := fun e => h (by simp [e])
    rw [List.cons_append, linesOf, if_neg hc, ih hcs]
    rfl

theorem linesOf_flatten (rs : List Str)
    (h : ∀ r ∈ rs, ∃ body, r = body ++ ['\n'] ∧ '\n' ∉ body) :
    linesOf rs.flatten = rs := by
  induction rs with
  | nil => rfl
  | cons r rs ih =>
    obtain ⟨body, hr, hb⟩ := h r (List.mem_cons_self _ _)
    rw [List.flatten_cons, hr, List.append_assoc, List.singleton_append, linesOf_line _ _ hb,
      ih (fun r' hr' => h r' (List.mem_cons_of_mem _ hr'))]

theorem cstr_no_line_feed (msg : Str) (k : Nat) (h : '\n' ∉ msg) :
    '\n' ∉ cstr (msg.take k) := by
  intro hm
  unfold cstr at hm
  exact h (List.mem_of_mem_take ((List.takeWhile_sublist _).subset hm))

/-- A file record whose message holds no line feed is a body without line feed followed by
one line feed. -/
theorem fileRecord_one_line (ctx : SLogContext) (p : Int) (msg : Str) (io : FormatEnv)
    (h : '\n' ∉ msg) :
    '\n' ∉ fileHeaderStored ctx p io ++ cstr (msg.take 989) := by
  intro hm
  rcases List.mem_append.mp hm with h1 | h1
  · exact (fileHeaderStored_plain ctx p io _ h1).2 rfl
  · exact cstr_no_line_feed msg 989 h h1

theorem submitted_one_line (ctx : SLogContext) (cs : List Call) (h : ∀ c ∈ cs, c.oneLine) :
    ∀ r ∈ submitted ctx cs, ∃ body, r = body ++ ['\n'] ∧ '\n' ∉ body := by
  induction cs with
  | nil =>
    intro r hr
    simp [submitted] at hr
  | cons c cs ih =>
    have ih' := ih (fun c' hc' => h c' (List.mem_cons_of_mem _ hc'))
    have hc := h c (List.mem_cons_self _ _)
    cases c with
    | log p hl m l fio io =>
      intro r hr
      simp only [submitted, List.mem_cons] at hr
      rcases hr with hr | hr
      · exact ⟨_, hr, fileRecord_one_line ctx p m io hc⟩
      · exact ih' r hr
    | setContext ctx' l1 l2 fio rio => exact ih'
    | setLogLevel lvl => exact ih'
    | flushLogs l fio => exact ih'

/-- C10, counterexample. An accepted record whose message is `a`, a line feed, `b`: the
formatted record holds two line feeds, so in the file it reads back as two lines, the second
of them without header. -/
theorem c10_message_with_line_feed :
    (_formatLogItem demoFileCtx zeroSlot LOG_PRI_INFO "a\nb".toList demoFormat).map cstr
      = some "[4242   231114:221320.123456 I] a\nb\n".toList ∧
    (_formatLogItem demoFileCtx zeroSlot LOG_PRI_INFO "a\nb".toList demoFormat).map
        (fun b => (cstr b).count '\n') = some 2 ∧
    (_formatLogItem demoFileCtx zeroSlot LOG_PRI_INFO "a\nb".toList demoFormat).map
        (fun b => linesOf (cstr b))
      = some ["[4242   231114:221320.123456 I] a\n".toList, "b\n".toList] := by
  decide

/-- C10, amended. For an accepted file-mode record whose message text holds no line feed,
the formatted record is the 32 characters of the header, a leading part of the message, and
a line feed, with no other line feed in it: exactly one line. A log file holding the records
submitted by a sequence of such calls reads back as exactly these records, one per line, in
submission order. -/
theorem c10_one_line_per_record (ctx : SLogContext) (buf : Buf) (p : Int) (msg : Str)
    (io : FormatEnv) (cs : List Call)
    (hfile : ctx.b_log_screen = false) (hbuf : buf.length = MAX_LOG_ITEM_LENGTH + 1)
    (hmsg : '\n' ∉ msg) (hcs : ∀ c ∈ cs, c.oneLine) :
    (∃ b, _formatLogItem ctx buf p msg io = some b ∧
      cstr b = fileHeaderStored ctx p io ++ cstr (msg.take 989) ++ ['\n'] ∧
      (fileHeaderStored ctx p io).length = 32 ∧
      '\n' ∉ fileHeaderStored ctx p io ++ cstr (msg.take 989) ∧
      linesOf (cstr b) = [cstr b]) ∧
    linesOf (submitted ctx cs).flatten = submitted ctx cs := by
  obtain ⟨b, e, -, hc⟩ := formatLogItem_file ctx buf p msg io hfile hbuf
  have h1 := fileRecord_one_line ctx p msg io hmsg
  refine ⟨⟨b, e, hc, fileHeaderStored_length ctx p io, h1, ?_⟩,
    linesOf_flatten _ (submitted_one_line ctx cs hcs)⟩
  rw [hc]
  unfold fileRecord
  have := linesOf_line _ [] h1
  simpa [linesOf] using this

/-- Witness of C10, amended: two records without line feed. -/
theorem c10_one_line_per_record_witness :
    linesOf (submitted demoFileCtx
      [Call.log LOG_PRI_WARN LOG_HL_NONE "first".toList true (demoFlush 1700000001)
          demoFormat,
       Call.log LOG_PRI_INFO LOG_HL_NONE "second".toList true (demoFlush 1700000002)
          demoFormat]).flatten
      = submitted demoFileCtx
      [Call.log LOG_PRI_WARN LOG_HL_NONE "first".toList true (demoFlush 1700000001)
          demoFormat,
       Call.log LOG_PRI_INFO LOG_HL_NONE "second".toList true (demoFlush 1700000002)
          demoFormat] :=
  (c10_one_line_per_record demoFileCtx zeroSlot LOG_PRI_INFO "third".toList demoFormat
    [Call.log LOG_PRI_WARN LOG_HL_NONE "first".toList true (demoFlush 1700000001)
        demoFormat,
     Call.log LOG_PRI_INFO LOG_HL_NONE "second".toList true (demoFlush 1700000002)
        demoFormat]
    rfl (List.length_replicate _ _) (by decide)
    (by
      intro c hc
      simp only [List.mem_cons, List.mem_singleton, List.not_mem_nil, or_false] at hc
      rcases hc with h | h
      · subst h; show '\n' ∉ "first".toList; decide
      · subst h; show '\n' ∉ "second".toList; decide)).2

/-! ## Exact widths of the header fields -/

theorem decimalAux_length_le (fuel : Nat) : ∀ n k : Nat, n < 10 ^ (k + 1) →
    (decimalAux fuel n).length ≤ k + 1 := by
  induction fuel with
  | zero =>
    intro n k _
    simp [decimalAux]
  | succ f ih =>
    intro n k h
    unfold decimalAux
    split
    · simp
    · next h10 =>
      cases k with
      | zero => simp at h; omega
      | succ j =>
        have hdiv : n / 10 < 10 ^ (j + 1) := by
          rw [Nat.div_lt_iff_lt_mul (by decide)]
          rw [Nat.pow_succ] at h
          exact h
        have := ih (n / 10) j hdiv
        simp only [List.length_append, List.length_singleton]
        omega

theorem decimal_length_le (n k : Nat) (h : n < 10 ^ (k + 1)) : (decimal n).length ≤ k + 1 :=
  decimalAux_length_le n n k h

theorem fmt_d_zero_length_eq (w : Nat) (v : Int) (h0 : 0 ≤ v) (h : v.toNat < 10 ^ (w + 1)) :
    (fmt_d_zero (w + 1) v).length = w + 1 := by
  unfold fmt_d_zero
  rw [if_neg (by omega)]
  have := decimal_length_le v.toNat w h
  simp only [List.length_append, List.length_replicate]
  omega

theorem fmt_d_left_length_eq (w : Nat) (n : Nat) (h : n < 10 ^ (w + 1)) :
    (fmt_d_left (w + 1) (n : Int)).length = w + 1 := by
  unfold fmt_d_left
  have hd : fmt_d (n : Int) = decimal n := by
    unfold fmt_d
    rw [if_neg (by omega)]
    simp
  rw [hd]
  have := decimal_length_le n w h
  simp only [List.length_append, List.length_replicate]
  omega

theorem strftime_dtt_length_eq (tm : Tm) : (strftime_dtt tm).length = 13 := by
  unfold strftime_dtt
  have key : ∀ x : Nat, (fmt_d_zero 2 ((x % 100 : Nat) : Int)).length = 2 := by
    intro x
    have hx : x % 100 < 100 := Nat.mod_lt _ (by decide)
    exact fmt_d_zero_length_eq 1 _ (by omega) (by
      show ((x % 100 : Nat) : Int).toNat < 100
      omega)
  simp only [List.length_append, List.length_cons, key]

theorem headerUsec_range (io : FormatEnv) (h : 0 ≤ io.ts) :
    0 ≤ headerUsec io ∧ (headerUsec io).toNat < 10 ^ 6 := by
  unfold headerUsec
  rw [Int.tdiv_eq_ediv h (by decide)]
  constructor
  · omega
  · show (io.ts - io.ts / 1000000 * 1000000).toNat < 1000000
    omega

/-- With an id of at most six digits and a time stamp that is not negative, the expansion
of the console header has exactly 22 characters, the last four being a blank, the level
character, the closing bracket and a blank. -/
theorem screenHeader_exact (ctx : SLogContext) (p : Int) (io : FormatEnv)
    (hid : (if ctx.log_color = LOG_CLR_TID then io.tid else io.pid) < 1000000)
    (hts : 0 ≤ io.ts) :
    ∃ pre, pre.length = 18 ∧
      screenHeaderStored ctx p io = pre ++ [' ', log_type p, ']', ' '] := by
  obtain ⟨hu0, hu1⟩ := headerUsec_range io hts
  have h1 := fmt_d_left_length_eq 5 _ hid
  have h2 : (fmt_d_zero 3 (Int.tdiv io.ts 1000000 % 256)).length = 3 :=
    fmt_d_zero_length_eq 2 _ (by omega) (by
      show (Int.tdiv io.ts 1000000 % 256).toNat < 1000
      omega)
  have h3 := fmt_d_zero_length_eq 5 _ hu0 hu1
  refine ⟨'[' :: fmt_d_left 6 (headerId ctx io) ++ ' ' ::
    fmt_d_zero 3 (Int.tdiv io.ts 1000000 % 256) ++ '.' :: fmt_d_zero 6 (headerUsec io), ?_, ?_⟩
  · unfold headerId
    simp only [List.length_append, List.length_cons, h1, h2, h3]
  · unfold screenHeaderStored screenHeader
    apply List.take_of_length_le
    unfold headerId
    simp only [List.length_append, List.length_cons, h1, h2, h3, List.length_nil]
    omega

/-- The same for the file header: exactly 32 characters, ending in the level character
between a blank and the closing bracket and blank. -/
theorem fileHeader_exact (ctx : SLogContext) (p : Int) (io : FormatEnv)
    (hid : (if ctx.log_color = LOG_CLR_TID then io.tid else io.pid) < 1000000)
    (hts : 0 ≤ io.ts) :
    ∃ pre, pre.length = 28 ∧
      fileHeaderStored ctx p io = pre ++ [' ', log_type p, ']', ' '] := by
  obtain ⟨hu0, hu1⟩ := headerUsec_range io hts
  have h1 := fmt_d_left_length_eq 5 _ hid
  have h2 := strftime_dtt_length_eq io.tm
  have h3 := fmt_d_zero_length_eq 5 _ hu0 hu1
  refine ⟨'[' :: fmt_d_left 6 (headerId ctx io) ++ ' ' :: strftime_dtt io.tm
    ++ '.' :: fmt_d_zero 6 (headerUsec io), ?_, ?_⟩
  · unfold headerId
    simp only [List.length_append, List.length_cons, h1, h2, h3]
  · unfold fileHeaderStored fileHeader
    apply List.take_of_length_le
    unfold headerId
    simp only [List.length_append, List.length_cons, h1, h2, h3, List.length_nil]
    omega

/-- C11 (priority letter). The level character is `C` for priority 10, `W` for 20, `I` for
30, `D` for 40 and `W` for every other integer. Formatting succeeds for every priority, and
the stored record starts with the header rendered with that character: with an id of at most
six digits and a time stamp that is not negative, the header ends in a blank, the level
character, the closing bracket and a blank (characters 18 to 21 of the console record,
28 to 31 of the file record). -/
theorem c11_priority_letter (ctx : SLogContext) (buf : Buf) (p : Int) (msg : Str)
    (io : FormatEnv) (hbuf : buf.length = MAX_LOG_ITEM_LENGTH + 1) :
    log_type p = (if p = 10 then 'C' else if p = 20 then 'W' else if p = 30 then 'I'
      else if p = 40 then 'D' else 'W') ∧
    ∃ b, _formatLogItem ctx buf p msg io = some b ∧
      ((if ctx.log_color = LOG_CLR_TID then io.tid else io.pid) < 1000000 → 0 ≤ io.ts →
        (ctx.b_log_screen = true →
          ∃ pre, pre.length = 18 ∧ (cstr b).take 22 = pre ++ [' ', log_type p, ']', ' ']) ∧
        (ctx.b_log_screen = false →
          ∃ pre, pre.length = 28 ∧ (cstr b).take 32 = pre ++ [' ', log_type p, ']', ' '])) := by
  constructor
  · unfold log_type LOG_PRI_WARN LOG_PRI_INFO LOG_PRI_DEBUG LOG_PRI_CRITICAL
    split_ifs <;> first | rfl | omega
  · cases hs : ctx.b_log_screen with
    | true =>
      obtain ⟨b, e, -, hc⟩ := formatLogItem_screen ctx buf p msg io hs hbuf
      refine ⟨b, e, fun hid hts => ⟨fun _ => ?_, fun h => by cases h⟩⟩
      obtain ⟨pre, hl, hp⟩ := screenHeader_exact ctx p io hid hts
      refine ⟨pre, hl, ?_⟩
      rw [hc]
      unfold screenRecord
      rw [List.take_left' (screenHeaderStored_length ctx p io), hp]
    | false =>
      obtain ⟨b, e, -, hc⟩ := formatLogItem_file ctx buf p msg io hs hbuf
      refine ⟨b, e, fun hid hts => ⟨fun h => (by cases h), fun _ => ?_⟩⟩
      obtain ⟨pre, hl, hp⟩ := fileHeader_exact ctx p io hid hts
      refine ⟨pre, hl, ?_⟩
      rw [hc]
      unfold fileRecord
      rw [List.append_assoc, List.take_left' (fileHeaderStored_length ctx p io), hp]

/-- Witness of C11: priority 77 is not one of the four levels and is formatted as `W`. -/
theorem c11_priority_letter_witness :
    log_type 77 = 'W' ∧
    ∃ b, _formatLogItem demoFileCtx zeroSlot 77 "x".toList demoFormat = some b :=
  ⟨by decide,
   Exists.imp (fun _ h => h.1)
    (c11_priority_letter demoFileCtx zeroSlot 77 "x".toList demoFormat
      (List.length_replicate _ _)).2⟩

/-! ## The rotation descriptor: path, content, buffers -/

theorem afterLastSlash_eq_nil_iff (name : Str) :
    afterLastSlash name = [] ↔ name = [] ∨ name.getLast? = some '/' := by
  unfold afterLastSlash
  rw [List.reverse_eq_nil_iff, ← List.head?_reverse]
  cases h : name.reverse with
  | nil =>
    have : name = [] := by simpa using h
    simp [this]
  | cons x xs =>
    have hne : name ≠ [] := by
      intro h0
      rw [h0] at h
      cases h
    by_cases hx : x = '/'
    · simp [List.takeWhile_cons, hx, hne]
    · simp [List.takeWhile_cons, hx, hne]

/-- A name that holds a slash is a directory part, a slash, and the part after the last
slash. -/
theorem afterLastSlash_split (name : Str) (h : '/' ∈ name) :
    ∃ pre, name = pre ++ '/' :: afterLastSlash name := by
  unfold afterLastSlash
  have hsplit := List.takeWhile_append_dropWhile (fun c => !decide (c = '/')) name.reverse
  cases hd : name.reverse.dropWhile (fun c => !decide (c = '/')) with
  | nil =>
    exfalso
    rw [hd, List.append_nil] at hsplit
    have hm : '/' ∈ name.reverse.takeWhile (fun c => !decide (c = '/')) := by
      rw [hsplit]
      exact List.mem_reverse.mpr h
    have := List.mem_takeWhile_imp hm
    simp at this
  | cons x rest =>
    have hx : x = '/' := by
      have := List.head_dropWhile_not (fun c => !decide (c = '/')) name.reverse
        (by rw [hd]; exact List.cons_ne_nil _ _)
      simp only [hd, List.head_cons] at this
      simpa using this
    refine ⟨rest.reverse, ?_⟩
    rw [hd, hx] at hsplit
    have := congrArg List.reverse hsplit
    simp only [List.reverse_append, List.reverse_cons, List.reverse_reverse,
      List.append_assoc, List.singleton_append] at this
    exact this.symm

theorem mem_of_head? {c : Char} {l : Str} (h : l.head? = some c) : c ∈ l := by
  cases l with
  | nil => cases h
  | cons x xs =>
    simp only [List.head?_cons, Option.some.injEq] at h
    rw [h]
    exact List.mem_cons_self _ _

theorem collapseSlashes_no_slash (b rest : Str) (hb : '/' ∉ b) :
    collapseSlashes (b ++ rest) = b ++ collapseSlashes rest := by
  induction b with
  | nil => rfl
  | cons c cs ih =>
    have hc : c ≠ '/' := fun e => hb (by simp [e])
    have hcs : '/' ∉ cs := fun e => hb (by simp [e])
    cases hrest : cs ++ rest with
    | nil =>
      have h1 : cs = [] := (List.append_eq_nil.mp hrest).1
      have h2 : rest = [] := (List.append_eq_nil.mp hrest).2
      subst h1 h2
      rfl
    | cons d ds =>
      rw [List.cons_append, hrest, collapseSlashes, if_neg (fun h => hc h.1), ← hrest, ih hcs]
      rfl

theorem collapseSlashes_configFilePath (name : Str) (h : afterLastSlash name ≠ []) :
    collapseSlashes (configFilePath name)
      = "/etc/logrotate.d/".toList ++ afterLastSlash name ++ ".conf".toList := by
  have hb := slash_not_mem_afterLastSlash name
  obtain ⟨x, xs, hx⟩ := List.exists_cons_of_ne_nil h
  have hx0 : x ≠ '/' := fun e => hb (by rw [hx, e]; exact List.mem_cons_self _ _)
  have htail : collapseSlashes (afterLastSlash name ++ ".conf".toList)
      = afterLastSlash name ++ ".conf".toList := by
    have h2 : '/' ∉ afterLastSlash name ++ ".conf".toList := by
      intro hm
      rcases List.mem_append.mp hm with hm | hm
      · exact hb hm
      · revert hm; decide
    have := collapseSlashes_no_slash _ [] h2
    simpa [collapseSlashes] using this
  unfold configFilePath LOGROTATE_CONFIG_PATH
  rw [hx] at htail ⊢
  simp only [String.toList, List.cons_append, List.nil_append, collapseSlashes] at htail ⊢
  simp [hx0, htail]

/-- What `_configLogrotate` does for a name that is absolute and does not end in a slash. -/
theorem configLogrotate_acts (s : CLog) (io : RotateCalls)
    (habs : s.m_ctx.log_file_name.head? = some '/')
    (hbase : afterLastSlash s.m_ctx.log_file_name ≠ []) :
    _configLogrotate s io =
      if s.m_ctx.b_log_rotate = false then
        if io.unlinkOk = true ∧ (s.files (configFilePath s.m_ctx.log_file_name)).isSome = true
        then { s with files := fileRemove s.files (configFilePath s.m_ctx.log_file_name),
                      trace := s.trace
                        ++ [IoEvent.unlink (configFilePath s.m_ctx.log_file_name)] }
        else s
      else if io.openOk = true then
        { s with files := fileReplace s.files (configFilePath s.m_ctx.log_file_name)
                   (stored io.written (logrotateText s.m_ctx.log_file_name)),
                 trace := s.trace ++ [IoEvent.writeConf (configFilePath s.m_ctx.log_file_name)
                   (stored io.written (logrotateText s.m_ctx.log_file_name))] }
      else s := by
  have hlen : ¬ (s.m_ctx.log_file_name.length = 0 ∨ s.m_ctx.log_file_name.head? ≠ some '/') := by
    rintro (h | h)
    · rw [List.length_eq_zero] at h
      rw [h] at habs
      cases habs
    · exact h habs
  unfold _configLogrotate
  simp only [if_neg hlen, if_neg hbase]
  cases s.m_ctx.b_log_rotate <;> cases io.unlinkOk <;> cases io.openOk <;> simp

theorem logrotateText_length (name : Str) : (logrotateText name).length = name.length + 85 := by
  unfold logrotateText
  simp only [List.length_append]
  rfl

theorem configFilePath_length (name : Str) :
    (configFilePath name).length = (afterLastSlash name).length + 23 := by
  unfold configFilePath
  simp only [List.length_append, List.length_cons]
  have : LOGROTATE_CONFIG_PATH.length = 17 := rfl
  have h2 : ".conf".toList.length = 5 := rfl
  omega

/-- The descriptor text fits its array of 1024 bytes exactly when the log file name has at
most 938 characters. -/
theorem renderLogrotateText_some_iff (buf : Buf) (name : Str) (hbuf : buf.length = 1024) :
    (renderLogrotateText buf name).isSome = true ↔ name.length ≤ 938 := by
  unfold renderLogrotateText sprintf poke
  have := logrotateText_length name
  split
  · next h =>
    simp only [List.length_append, List.length_singleton, hbuf, this] at h
    simp only [Option.isSome_some, true_iff]
    omega
  · next h =>
    simp only [List.length_append, List.length_singleton, hbuf, this] at h
    simp only [Option.isSome_none, Bool.false_eq_true, false_iff]
    omega

/-- The descriptor path fits its array of `PATH_MAX + 1` bytes exactly when the part of the
log file name after the last slash has at most 4073 characters. -/
theorem renderConfigFile_some_iff (buf : Buf) (name : Str) (hbuf : buf.length = PATH_MAX + 1) :
    (renderConfigFile buf name).isSome = true ↔ (afterLastSlash name).length ≤ 4073 := by
  unfold renderConfigFile sprintf poke
  have := configFilePath_length name
  have hp : PATH_MAX = 4096 := rfl
  split
  · next h =>
    simp only [List.length_append, List.length_singleton, hbuf, this] at h
    simp only [Option.isSome_some, true_iff]
    omega
  · next h =>
    simp only [List.length_append, List.length_singleton, hbuf, this] at h
    simp only [Option.isSome_none, Bool.false_eq_true, false_iff]
    omega

theorem longPath_base (n : Nat) : afterLastSlash (longPath n) = List.replicate n 'a' := by
  unfold longPath
  have := afterLastSlash_append [] (List.replicate n 'a') (by
    intro h
    have := List.eq_of_mem_replicate h
    revert this
    decide)
  simpa using this

/-- C12, counterexample. For the log file `/var/log/app.log` the descriptor path rendered by
`_configLogrotate` is the string `/etc/logrotate.d//app.log.conf`, with two slashes after the
directory, not the string `/etc/logrotate.d/app.log.conf`; it is under the former that the
template is recorded as written. -/
theorem c12_descriptor_path_double_slash :
    configFilePath "/var/log/app.log".toList = "/etc/logrotate.d//app.log.conf".toList ∧
    configFilePath "/var/log/app.log".toList ≠ "/etc/logrotate.d/app.log.conf".toList ∧
    (_configLogrotate demoRotating demoRotate).trace
      = [IoEvent.writeConf "/etc/logrotate.d//app.log.conf".toList
          (logrotateText "/var/log/app.log".toList)] := by
  decide

/-- C12, amended. For an absolute log file name with a non-empty part b after its last
slash, the descriptor that `_configLogrotate` writes or removes has the path string made of
`LOGROTATE_CONFIG_PATH` = `/etc/logrotate.d/`, one more slash, b and `.conf`; with the run
of slashes read as one separator this is `/etc/logrotate.d/` followed by b and `.conf`. No
other file is changed, and the only file-system call recorded is an `unlink` or a write of
that path. -/
theorem c12_descriptor_path (s : CLog) (io : RotateCalls)
    (habs : s.m_ctx.log_file_name.head? = some '/')
    (hbase : afterLastSlash s.m_ctx.log_file_name ≠ []) :
    (∃ dir, s.m_ctx.log_file_name = dir ++ '/' :: afterLastSlash s.m_ctx.log_file_name) ∧
    '/' ∉ afterLastSlash s.m_ctx.log_file_name ∧
    configFilePath s.m_ctx.log_file_name
      = "/etc/logrotate.d/".toList ++ '/' :: afterLastSlash s.m_ctx.log_file_name
          ++ ".conf".toList ∧
    collapseSlashes (configFilePath s.m_ctx.log_file_name)
      = "/etc/logrotate.d/".toList ++ afterLastSlash s.m_ctx.log_file_name
          ++ ".conf".toList ∧
    (∀ p, p ≠ configFilePath s.m_ctx.log_file_name →
      (_configLogrotate s io).files p = s.files p) ∧
    ((_configLogrotate s io).trace = s.trace
      ∨ (_configLogrotate s io).trace
          = s.trace ++ [IoEvent.unlink (configFilePath s.m_ctx.log_file_name)]
      ∨ ∃ bytes, (_configLogrotate s io).trace
          = s.trace ++ [IoEvent.writeConf (configFilePath s.m_ctx.log_file_name) bytes]) := by
  refine ⟨afterLastSlash_split _ (mem_of_head? habs), slash_not_mem_afterLastSlash _, rfl,
    collapseSlashes_configFilePath _ hbase, fun p hp => configLogrotate_files s io p hp, ?_⟩
  rw [configLogrotate_acts s io habs hbase]
  split_ifs
  · exact Or.inr (Or.inl rfl)
  · exact Or.inl rfl
  · exact Or.inr (Or.inr ⟨_, rfl⟩)
  · exact Or.inl rfl

/-- Witness of C12, amended: the descriptor of `/var/log/app.log`. -/
theorem c12_descriptor_path_witness :
    collapseSlashes (configFilePath demoRotating.m_ctx.log_file_name)
      = "/etc/logrotate.d/".toList ++ afterLastSlash demoRotating.m_ctx.log_file_name
          ++ ".conf".toList :=
  (c12_descriptor_path demoRotating demoRotate (by decide) (by decide)).2.2.2.1

theorem setContext_rotates (s : CLog) (ctx : SLogContext) (lock1 : Bool) (fio : FlushCalls)
    (rio : RotateCalls) :
    ∃ t : CLog, t.m_ctx = ctx ∧ setContext s ctx lock1 true fio rio = _configLogrotate t rio := by
  unfold setContext
  simp only [if_true]
  exact ⟨_, rfl, rfl⟩

/-- C13 (descriptor lifecycle). Let P be absolute with a non-empty part after its last
slash, and let `setContext` obtain its second lock. With rotation enabled, `open`
succeeding and `write` storing every byte, the descriptor file ends up holding exactly P
followed by the fixed template, whatever it held before. With rotation disabled and `unlink`
permitted, the descriptor file ends up absent. Disabling again, when the configuration is
already installed and the descriptor absent, returns the state unchanged, whatever the
system calls would do. -/
theorem c13_descriptor_lifecycle (s : CLog) (ctx : SLogContext) (lock1 : Bool)
    (fio : FlushCalls) (rio : RotateCalls)
    (habs : ctx.log_file_name.head? = some '/') (hbase : afterLastSlash ctx.log_file_name ≠ []) :
    (ctx.b_log_rotate = true → rio.openOk = true → rio.written = none →
      (setContext s ctx lock1 true fio rio).files (configFilePath ctx.log_file_name)
        = some (ctx.log_file_name ++
            "\n\x7b\nmissingok\nnotifempty\nnocompress\ncopytruncate\nnodateext\nstart 1\n".toList
            ++ "rotate 4\nsize 50M\n\x7d".toList)) ∧
    (ctx.b_log_rotate = false → rio.unlinkOk = true →
      (setContext s ctx lock1 true fio rio).files (configFilePath ctx.log_file_name) = none) ∧
    (ctx.b_log_rotate = false → s.m_ctx = ctx →
      s.files (configFilePath ctx.log_file_name) = none →
      setContext s ctx lock1 true fio rio = s) := by
  obtain ⟨t, ht, e⟩ := setContext_rotates s ctx lock1 fio rio
  have hact := configLogrotate_acts t rio (by rw [ht]; exact habs) (by rw [ht]; exact hbase)
  rw [ht] at hact
  refine ⟨?_, ?_, ?_⟩
  · intro hr ho hw
    rw [e, hact, hr, ho, hw]
    simp only [Bool.true_eq_false, if_false, if_true, fileReplace, stored]
    unfold logrotateText
    simp only [List.append_assoc]
    rfl
  · intro hr hu
    rw [e, hact, hr, hu]
    simp only [if_true, true_and]
    split_ifs with hex
    · simp [fileRemove]
    · simpa using hex
  · intro hr hs hf
    have hkeep : ¬ swapsTarget s ctx := by
      rw [← hs]
      unfold swapsTarget
      rintro (⟨h1, h2⟩ | h)
      · rw [h1] at h2; cases h2
      · exact h rfl
    rw [setContext_keep s ctx lock1 true fio rio hkeep, if_pos rfl]
    have hsame : ({ s with m_ctx := ctx } : CLog) = s := by rw [← hs]
    rw [hsame, configLogrotate_acts s rio (by rw [hs]; exact habs) (by rw [hs]; exact hbase),
      hs, hr, hf]
    simp

/-- Witness of C13: rotation is enabled for `demoPath` on the logger `demoFile`. -/
theorem c13_descriptor_lifecycle_witness :
    (setContext demoFile { demoFileCtx with b_log_rotate := true } true true
        (demoFlush 1700000001) demoRotate).files
        (configFilePath ({ demoFileCtx with b_log_rotate := true } : SLogContext).log_file_name)
      = some (({ demoFileCtx with b_log_rotate := true } : SLogContext).log_file_name ++
          "\n\x7b\nmissingok\nnotifempty\nnocompress\ncopytruncate\nnodateext\nstart 1\n".toList
          ++ "rotate 4\nsize 50M\n\x7d".toList) :=
  (c13_descriptor_lifecycle demoFile { demoFileCtx with b_log_rotate := true } true
    (demoFlush 1700000001) demoRotate (by decide) (by decide)).1 rfl rfl rfl

/-- C14 (malformed path). When the file name is empty, does not start with a slash, or ends
with a slash, `_configLogrotate` returns the state unchanged, whatever the rotation flag and
the system calls would do. When the name starts with a slash and does not end with one, it
acts on the descriptor: with rotation enabled and `open` succeeding the descriptor holds the
bytes stored by `write` and the write is recorded; with rotation disabled, `unlink`
permitted and the descriptor present, the descriptor is removed and the `unlink` is
recorded. -/
theorem c14_malformed_path (s : CLog) (io : RotateCalls) :
    (s.m_ctx.log_file_name = [] ∨ s.m_ctx.log_file_name.head? ≠ some '/'
        ∨ s.m_ctx.log_file_name.getLast? = some '/' →
      _configLogrotate s io = s) ∧
    (s.m_ctx.log_file_name.head? = some '/' → s.m_ctx.log_file_name.getLast? ≠ some '/' →
      (s.m_ctx.b_log_rotate = true → io.openOk = true →
        (_configLogrotate s io).files (configFilePath s.m_ctx.log_file_name)
          = some (stored io.written (logrotateText s.m_ctx.log_file_name)) ∧
        (_configLogrotate s io).trace
          = s.trace ++ [IoEvent.writeConf (configFilePath s.m_ctx.log_file_name)
              (stored io.written (logrotateText s.m_ctx.log_file_name))]) ∧
      (s.m_ctx.b_log_rotate = false → io.unlinkOk = true →
        (s.files (configFilePath s.m_ctx.log_file_name)).isSome = true →
        (_configLogrotate s io).files (configFilePath s.m_ctx.log_file_name) = none ∧
        (_configLogrotate s io).trace
          = s.trace ++ [IoEvent.unlink (configFilePath s.m_ctx.log_file_name)])) := by
  constructor
  · intro h
    apply configLogrotate_skip
    rcases h with h | h | h
    · exact Or.inl (by rw [h]; rfl)
    · exact Or.inr (Or.inl h)
    · exact Or.inr (Or.inr ((afterLastSlash_eq_nil_iff _).mpr (Or.inr h)))
  · intro habs hlast
    have hbase : afterLastSlash s.m_ctx.log_file_name ≠ [] := by
      intro h0
      rcases (afterLastSlash_eq_nil_iff _).mp h0 with h | h
      · rw [h] at habs; cases habs
      · exact hlast h
    have hact := configLogrotate_acts s io habs hbase
    constructor
    · intro hr ho
      rw [hact, hr, ho]
      simp [fileReplace]
    · intro hr hu hex
      rw [hact, hr, hu, hex]
      simp [fileRemove]

/-- Witness of C14: a relative file name leaves everything as it is. -/
theorem c14_malformed_path_witness :
    _configLogrotate { demoRotating with m_ctx :=
        { demoRotating.m_ctx with log_file_name := "app.log".toList } } demoRotate
      = { demoRotating with m_ctx :=
        { demoRotating.m_ctx with log_file_name := "app.log".toList } } :=
  (c14_malformed_path { demoRotating with m_ctx :=
      { demoRotating.m_ctx with log_file_name := "app.log".toList } } demoRotate).1
    (Or.inr (Or.inl (by decide)))

/-- C18, the failing inputs. `deepPath` is an absolute path of 1012 characters, within
`PATH_MAX`, with the file name `app.log`: the descriptor text rendered from it has 1097
characters, and the `sprintf` into the array of 1024 bytes writes past its end. The path
`longPath 4090` has 4091 characters, within `PATH_MAX`: the descriptor path rendered from it
has 4113 characters, and the `sprintf` into the array of `PATH_MAX + 1` bytes writes past
its end. Nothing is truncated. -/
theorem c18_sprintf_overflow :
    deepPath.length = 1012 ∧ deepPath.length ≤ PATH_MAX ∧
    deepPath.head? = some '/' ∧ afterLastSlash deepPath = "app.log".toList ∧
    (logrotateText deepPath).length = 1097 ∧
    renderLogrotateText (List.replicate 1024 NUL) deepPath = none ∧
    (longPath 4090).length = 4091 ∧ (longPath 4090).length ≤ PATH_MAX ∧
    (longPath 4090).head? = some '/' ∧ afterLastSlash (longPath 4090) ≠ [] ∧
    (configFilePath (longPath 4090)).length = 4113 ∧
    renderConfigFile (List.replicate (PATH_MAX + 1) NUL) (longPath 4090) = none := by
  have hd : deepPath.length = 1012 := by decide
  have hl : (longPath 4090).length = 4091 := by
    unfold longPath
    rw [List.length_cons, List.length_replicate]
  have hb : (afterLastSlash (longPath 4090)).length = 4090 := by
    rw [longPath_base, List.length_replicate]
  have h1 : renderLogrotateText (List.replicate 1024 NUL) deepPath = none := by
    have := (renderLogrotateText_some_iff (List.replicate 1024 NUL) deepPath
      (List.length_replicate _ _)).not
    rw [hd] at this
    simpa using this
  have h2 : renderConfigFile (List.replicate (PATH_MAX + 1) NUL) (longPath 4090) = none := by
    have := (renderConfigFile_some_iff (List.replicate (PATH_MAX + 1) NUL) (longPath 4090)
      (List.length_replicate _ _)).not
    rw [hb] at this
    simpa using this
  refine ⟨hd, by rw [hd]; decide, by decide, by decide, by rw [logrotateText_length, hd],
    h1, hl, by rw [hl]; decide, rfl, ?_, by rw [configFilePath_length, hb], h2⟩
  intro h0
  rw [h0] at hb
  cases hb

/-! ## Failed locks and colours -/

/-- C15, counterexample. `setContext` for another file is called on a logger with one
pending record and both of its locks fail: the configuration is replaced all the same, while
the record stays queued. The record, queued for `demoPath`, is written to `demoOtherPath` by
the next forced flush. -/
theorem c15_setContext_installs_without_lock :
    demoPending.m_ctx.log_file_name = demoPath ∧
    (setContext demoPending { demoFileCtx with log_file_name := demoOtherPath } false false
      (demoFlush 1700000001) demoRotate).m_ctx.log_file_name = demoOtherPath ∧
    (setContext demoPending { demoFileCtx with log_file_name := demoOtherPath } false false
      (demoFlush 1700000001) demoRotate).m_log_queue.length = 1 ∧
    (flushLogs (setContext demoPending { demoFileCtx with log_file_name := demoOtherPath }
      false false (demoFlush 1700000001) demoRotate) true (demoFlush 1700000002)).files
        demoOtherPath = some "[4242   231114:221320.123456 I] ready\n".toList ∧
    (flushLogs (setContext demoPending { demoFileCtx with log_file_name := demoOtherPath }
      false false (demoFlush 1700000001) demoRotate) true (demoFlush 1700000002)).files
        demoPath = none := by
  decide

/-- C15, amended. A log call in file mode and a forced flush whose lock fails return the
state unchanged. In `setContext` a failed lock only skips the section it guards, and the new
configuration is installed in every case: with both locks failing the result is the old
state with the new configuration; with the first lock failing the queue, the flush time and
the descriptor are as before; with the second lock failing the rotation step is skipped. -/
theorem c15_lock_failure (s : CLog) (ctx : SLogContext) (p hl : Int) (msg : Str)
    (lock1 lock2 : Bool) (fio : FlushCalls) (rio : RotateCalls) (io : FormatEnv) :
    (s.m_ctx.b_log_screen = false → _log s p hl msg false fio io = some s) ∧
    flushLogs s false fio = s ∧
    setContext s ctx false false fio rio = { s with m_ctx := ctx } ∧
    (setContext s ctx false lock2 fio rio).m_ctx = ctx ∧
    (setContext s ctx false lock2 fio rio).m_log_queue = s.m_log_queue ∧
    (setContext s ctx lock1 false fio rio = { s with m_ctx := ctx }
      ∨ setContext s ctx lock1 false fio rio
          = { closeLogFd (_flushLogQueue s true fio) with m_ctx := ctx }) := by
  refine ⟨fun hs => log_unlocked s p hl msg fio io hs, rfl, ?_, ?_, ?_, ?_⟩
  · unfold setContext
    simp
  · unfold setContext
    cases lock2
    · simp
    · simp only [Bool.false_eq_true, if_false, ite_self, if_true]
      rw [configLogrotate_ctx]
  · unfold setContext
    cases lock2
    · simp
    · simp only [Bool.false_eq_true, if_false, ite_self, if_true]
      rw [configLogrotate_queue]
  · unfold setContext
    cases lock1
    · left
      simp
    · by_cases hsw : ((!s.m_ctx.b_log_screen && ctx.b_log_screen)
          || decide (ctx.log_file_name ≠ s.m_ctx.log_file_name)) = true
      · right
        simp only [hsw, if_true, Bool.false_eq_true, if_false]
      · left
        simp only [if_neg hsw, Bool.false_eq_true, if_false]

/-- Witness of C15, amended: a log call whose lock fails on `demoPending`. -/
theorem c15_lock_failure_witness :
    _log demoPending LOG_PRI_WARN LOG_HL_NONE "x".toList false (demoFlush 1700000001)
      demoFormat = some demoPending :=
  (c15_lock_failure demoPending demoScreenCtx LOG_PRI_WARN LOG_HL_NONE "x".toList false false
    (demoFlush 1700000001) demoRotate demoFormat).1 rfl

/-- C16 (colour resolution). A configured colour that is neither `LOG_CLR_PID` nor
`LOG_CLR_TID` is returned as it is. Otherwise the result is the entry `id % 10` of the
palette RED, BLUE, GREEN, LGREEN, LPURPLE, ORANGE, YELLOW, CYAN, PURPLE, LCYAN, where id is
the thread id under `LOG_CLR_TID` and the process id under `LOG_CLR_PID`; it is one of the ten
entries, and it depends on nothing but the configuration and these ids. -/
theorem c16_colour_resolution (ctx : SLogContext) (io io' : FormatEnv) :
    (ctx.log_color ≠ LOG_CLR_PID → ctx.log_color ≠ LOG_CLR_TID →
      _getLogColor ctx io = ctx.log_color) ∧
    (ctx.log_color = LOG_CLR_TID →
      [LOG_CLR_RED, LOG_CLR_BLUE, LOG_CLR_GREEN, LOG_CLR_LGREEN, LOG_CLR_LPURPLE,
        LOG_CLR_ORANGE, LOG_CLR_YELLOW, LOG_CLR_CYAN, LOG_CLR_PURPLE, LOG_CLR_LCYAN][io.tid % 10]?
        = some (_getLogColor ctx io)) ∧
    (ctx.log_color = LOG_CLR_PID →
      [LOG_CLR_RED, LOG_CLR_BLUE, LOG_CLR_GREEN, LOG_CLR_LGREEN, LOG_CLR_LPURPLE,
        LOG_CLR_ORANGE, LOG_CLR_YELLOW, LOG_CLR_CYAN, LOG_CLR_PURPLE, LOG_CLR_LCYAN][io.pid % 10]?
        = some (_getLogColor ctx io)) ∧
    (ctx.log_color = LOG_CLR_PID ∨ ctx.log_color = LOG_CLR_TID →
      _getLogColor ctx io ∈ [LOG_CLR_RED, LOG_CLR_BLUE, LOG_CLR_GREEN, LOG_CLR_LGREEN,
        LOG_CLR_LPURPLE, LOG_CLR_ORANGE, LOG_CLR_YELLOW, LOG_CLR_CYAN, LOG_CLR_PURPLE,
        LOG_CLR_LCYAN]) ∧
    (io.pid = io'.pid → io.tid = io'.tid → _getLogColor ctx io = _getLogColor ctx io') := by
  refine ⟨?_, ?_, ?_, ?_, ?_⟩
  · intro h1 h2
    unfold _getLogColor
    rw [if_pos ⟨h1, h2⟩]
  · intro h
    unfold _getLogColor
    rw [if_neg (fun hn => hn.2 h)]
    simp only [h, if_true]
    exact (List.getElem?_eq_getElem _).trans rfl
  · intro h
    have hne : ¬ (LOG_CLR_PID = LOG_CLR_TID) := by decide
    unfold _getLogColor
    rw [if_neg (fun hn => hn.1 h)]
    simp only [h, hne, if_false]
    exact (List.getElem?_eq_getElem _).trans rfl
  · intro h
    unfold _getLogColor
    rw [if_neg (by
      rintro ⟨h1, h2⟩
      rcases h with h | h
      · exact h1 h
      · exact h2 h)]
    exact List.get_mem _ _ _
  · intro h1 h2
    cases io
    cases io'
    simp only at h1 h2
    subst h1 h2
    rfl

/-- Witness of C16: process 4242 under `LOG_CLR_PID` gets entry 2 of the palette, green. -/
theorem c16_colour_resolution_witness :
    _getLogColor demoFileCtx demoFormat = LOG_CLR_GREEN ∧
    _getLogColor { demoFileCtx with log_color := LOG_CLR_GRAY } demoFormat = LOG_CLR_GRAY :=
  ⟨by
    have h := (c16_colour_resolution demoFileCtx demoFormat demoFormat).2.2.1 rfl
    exact (Option.some.inj h).symm,
   (c16_colour_resolution { demoFileCtx with log_color := LOG_CLR_GRAY } demoFormat
    demoFormat).1 (by decide) (by decide)⟩

/-! ## Invariants of the reachable states -/

theorem flush_length_le (s : CLog) (force : Bool) (io : FlushCalls) :
    (_flushLogQueue s force io).m_log_queue.length ≤ s.m_log_queue.length := by
  by_cases h0 : s.m_log_queue.length = 0
  · rw [flush_empty s force io h0]
  by_cases hd : flushDue s force io
  · rw [(flush_due_length s force io h0 hd).1]
    exact Nat.zero_le _
  · rw [flush_not_due s force io hd]

/-- The shape of every `setContext`: the state it configures is the old one, or the old one
flushed and closed, with the new configuration installed. -/
theorem setContext_form (s : CLog) (ctx : SLogContext) (l1 l2 : Bool) (fio : FlushCalls)
    (rio : RotateCalls) :
    ∃ t : CLog, (t = s ∨ t = closeLogFd (_flushLogQueue s true fio)) ∧
      setContext s ctx l1 l2 fio rio =
        if l2 then _configLogrotate { t with m_ctx := ctx } rio else { t with m_ctx := ctx } := by
  unfold setContext
  by_cases hsw : ((!s.m_ctx.b_log_screen && ctx.b_log_screen)
      || decide (ctx.log_file_name ≠ s.m_ctx.log_file_name)) = true
  · cases l1
    · exact ⟨s, Or.inl rfl, by simp only [hsw, if_true, Bool.false_eq_true, if_false]⟩
    · exact ⟨_, Or.inr rfl, by simp only [hsw, if_true]⟩
  · exact ⟨s, Or.inl rfl, by simp only [if_neg hsw]⟩

theorem setContext_queue (s : CLog) (ctx : SLogContext) (l1 l2 : Bool) (fio : FlushCalls)
    (rio : RotateCalls) :
    (setContext s ctx l1 l2 fio rio).m_ctx = ctx ∧
    (setContext s ctx l1 l2 fio rio).m_log_queue.items = s.m_log_queue.items ∧
    (setContext s ctx l1 l2 fio rio).m_log_queue.length ≤ s.m_log_queue.length ∧
    (setContext s ctx l1 l2 fio rio).stdout = s.stdout := by
  obtain ⟨t, ht, e⟩ := setContext_form s ctx l1 l2 fio rio
  have hq : (setContext s ctx l1 l2 fio rio).m_log_queue = t.m_log_queue ∧
      (setContext s ctx l1 l2 fio rio).m_ctx = ctx ∧
      (setContext s ctx l1 l2 fio rio).stdout = t.stdout := by
    rw [e]
    cases l2
    · exact ⟨rfl, rfl, rfl⟩
    · rw [if_pos rfl, configLogrotate_queue, configLogrotate_ctx, configLogrotate_stdout]
      exact ⟨rfl, rfl, rfl⟩
  rw [hq.1, hq.2.1, hq.2.2]
  rcases ht with ht | ht
  · rw [ht]
    exact ⟨rfl, rfl, Nat.le_refl _, rfl⟩
  · obtain ⟨-, hi, hl, -, -, -, ho, -⟩ := closeLogFd_fields (_flushLogQueue s true fio)
    rw [ht, hi, hl, ho, (flush_frame s true fio).2.1, (flush_frame s true fio).2.2]
    exact ⟨rfl, rfl, flush_length_le s true fio, rfl⟩

theorem step_withinBounds (s : CLog) (c : Call) (h : withinBounds s) :
    ∃ s', step s c = some s' ∧ withinBounds s' := by
  cases c with
  | log p hl m l fio io =>
    by_cases hp : p > s.m_ctx.log_level
    · exact ⟨s, log_dropped s p hl m l fio io hp, h⟩
    cases hs : s.m_ctx.b_log_screen with
    | true =>
      obtain ⟨buf, -, e⟩ := log_screen_step s p hl m l fio io (by omega) hs
      exact ⟨_, e, h⟩
    | false =>
      cases l with
      | false => exact ⟨s, log_unlocked s p hl m fio io hs, h⟩
      | true =>
        obtain ⟨s', e, hl', -, -, -, hz, -⟩ := log_file_effect s p hl m fio io (by omega) hs h.1
        refine ⟨s', e, hz, ?_⟩
        rw [hl']
        exact flush_length_lt s fio
  | setContext ctx l1 l2 fio rio =>
    obtain ⟨-, hi, hl, -⟩ := setContext_queue s ctx l1 l2 fio rio
    refine ⟨_, rfl, ⟨?_, ?_⟩, Nat.le_trans hl h.2⟩
    · rw [hi]; exact h.1.1
    · rw [hi]; exact h.1.2
  | setLogLevel lvl => exact ⟨_, rfl, h⟩
  | flushLogs l fio =>
    refine ⟨_, rfl, ?_⟩
    unfold flushLogs
    cases l
    · exact h
    · exact ⟨flush_sized s true fio h.1, Nat.le_trans (flush_length_le s true fio) h.2⟩

theorem run_withinBounds (cs : List Call) : ∀ s : CLog, withinBounds s →
    ∃ s', run s cs = some s' ∧ withinBounds s' := by
  induction cs with
  | nil => exact fun s h => ⟨s, rfl, h⟩
  | cons c cs ih =>
    intro s h
    obtain ⟨s1, e1, h1⟩ := step_withinBounds s c h
    obtain ⟨s2, e2, h2⟩ := ih s1 h1
    exact ⟨s2, by simp only [run, e1, Option.some_bind, e2], h2⟩

theorem zeroItems_sized_any (t : Int) (fd : Option Str) : SLogQueue.sized
    { items := zeroItems, length := 0, flush_sec := t, log_fd := fd } :=
  zeroItems_sized

theorem construct_queue (files : Str → Option Str) (tsec : Int) (initOk l0 l1 l2 : Bool)
    (fio : FlushCalls) (rio : RotateCalls) :
    (construct files tsec initOk l0 l1 l2 fio rio).m_ctx = ctx_default ∧
    (construct files tsec initOk l0 l1 l2 fio rio).m_log_queue
      = { items := zeroItems, length := 0, flush_sec := if l0 then toInt32 tsec else 0,
          log_fd := none } := by
  unfold construct
  rw [setContext_of_idle _ _ _ _ _ _ rfl rfl]
  cases l2
  · exact ⟨rfl, rfl⟩
  · rw [if_pos rfl, configLogrotate_ctx, configLogrotate_queue]
    exact ⟨rfl, rfl⟩

/-- C17 (queue bounds). From the constructor, with any outcome of its locks, any sequence of
log, `setContext`, `setLogLevel` and forced-flush calls, with any clock values and any
outcomes of the locks and of the system calls, runs to a state whose queue length is at most
`MAX_LOG_QUEUE_LENGTH` = 1024 (it is a natural number, so at least 0) and whose slots have
their declared sizes. In such a state an accepted log call in file mode, the mutex obtained,
stores its record in the slot whose index is the length left by the flush check, and that
index is below 1024. -/
theorem c17_queue_bounds (files : Str → Option Str) (tsec : Int) (initOk l0 l1 l2 : Bool)
    (fio : FlushCalls) (rio : RotateCalls) (cs : List Call) :
    ∃ s, run (construct files tsec initOk l0 l1 l2 fio rio) cs = some s ∧
      s.m_log_queue.length ≤ MAX_LOG_QUEUE_LENGTH ∧ MAX_LOG_QUEUE_LENGTH = 1024 ∧
      s.m_log_queue.sized ∧
      ∀ (p hl : Int) (m : Str) (fio' : FlushCalls) (io : FormatEnv),
        p ≤ s.m_ctx.log_level → s.m_ctx.b_log_screen = false →
        ∃ slot s', _log s p hl m true fio' io = some s' ∧
          (_flushLogQueue s false fio').m_log_queue.length < MAX_LOG_QUEUE_LENGTH ∧
          s'.m_log_queue.items = (_flushLogQueue s false fio').m_log_queue.items.set
            (_flushLogQueue s false fio').m_log_queue.length slot ∧
          s'.m_log_queue.length = (_flushLogQueue s false fio').m_log_queue.length + 1 ∧
          s'.m_log_queue.length ≤ MAX_LOG_QUEUE_LENGTH := by
  have h0 : withinBounds (construct files tsec initOk l0 l1 l2 fio rio) := by
    obtain ⟨-, hq⟩ := construct_queue files tsec initOk l0 l1 l2 fio rio
    unfold withinBounds
    rw [hq]
    exact ⟨zeroItems_sized_any _ _, Nat.zero_le _⟩
  obtain ⟨s, e, hb⟩ := run_withinBounds cs _ h0
  refine ⟨s, e, hb.2, rfl, hb.1, ?_⟩
  intro p hl m fio' io hp hs
  obtain ⟨slot, -, -, hlog⟩ := log_file_step s p hl m fio' io hp hs hb.1
  have hlt := flush_length_lt s fio'
  exact ⟨slot, _, hlog, hlt, rfl, rfl, hlt⟩

/-- Witness of C17: a run with a failed lock, a change of level and a flush. -/
theorem c17_queue_bounds_witness :
    ∃ s, run (construct (fun _ => none) 1700000000 true true true true (demoFlush 1700000000)
        demoRotate)
        [Call.setContext demoFileCtx true true (demoFlush 1700000000) demoRotate, demoCall,
         Call.setLogLevel LOG_PRI_DEBUG, demoCall,
         Call.setContext demoScreenCtx false true (demoFlush 1700000001) demoRotate,
         Call.flushLogs true (demoFlush 1700000002)] = some s ∧
      s.m_log_queue.length ≤ MAX_LOG_QUEUE_LENGTH :=
  Exists.imp (fun _ h => ⟨h.1, h.2.1⟩)
    (c17_queue_bounds (fun _ => none) 1700000000 true true true true (demoFlush 1700000000)
      demoRotate
      [Call.setContext demoFileCtx true true (demoFlush 1700000000) demoRotate, demoCall,
       Call.setLogLevel LOG_PRI_DEBUG, demoCall,
       Call.setContext demoScreenCtx false true (demoFlush 1700000001) demoRotate,
       Call.flushLogs true (demoFlush 1700000002)])

theorem flush_idleOnScreen (s : CLog) (force : Bool) (io : FlushCalls) (h : idleOnScreen s) :
    idleOnScreen (_flushLogQueue s force io) := by
  obtain ⟨hscr, hfd, hz⟩ := h
  obtain ⟨hctx, -, -⟩ := flush_frame s force io
  refine ⟨?_, ?_, flush_sized s force io hz⟩
  · intro hs
    rw [hctx] at hs
    obtain ⟨h0, hn⟩ := hscr hs
    rw [flush_empty s force io h0]
    exact ⟨h0, hn⟩
  · rw [hctx]
    rcases (flush_trace s force io).2 with h | ⟨-, h⟩
    · rw [h]; exact hfd
    · exact Or.inr h

theorem step_idleOnScreen (s : CLog) (c : Call) (h : idleOnScreen s) (hc : c.locked) :
    ∃ s', step s c = some s' ∧ idleOnScreen s' := by
  cases c with
  | log p hl m l fio io =>
    by_cases hp : p > s.m_ctx.log_level
    · exact ⟨s, log_dropped s p hl m l fio io hp, h⟩
    cases hs : s.m_ctx.b_log_screen with
    | true =>
      obtain ⟨buf, -, e⟩ := log_screen_step s p hl m l fio io (by omega) hs
      exact ⟨_, e, h⟩
    | false =>
      have hl1 : l = true := hc
      subst hl1
      obtain ⟨s', e, -, -, -, hctx, hz, -, -, hfd, -⟩ :=
        log_file_effect s p hl m fio io (by omega) hs h.2.2
      have hf := flush_idleOnScreen s false fio h
      refine ⟨s', e, ?_, ?_, hz⟩
      · intro hs'
        rw [hctx, hs] at hs'
        cases hs'
      · rw [hfd, hctx, ← (flush_frame s false fio).1]
        exact hf.2.1
  | setContext ctx l1 l2 fio rio =>
    obtain ⟨hl1, -⟩ : l1 = true ∧ l2 = true := hc
    subst hl1
    refine ⟨_, rfl, ?_⟩
    obtain ⟨hctx, hitems, -, -⟩ := setContext_queue s ctx true l2 fio rio
    have hz : (setContext s ctx true l2 fio rio).m_log_queue.sized := by
      refine ⟨?_, ?_⟩
      · rw [hitems]; exact h.2.2.1
      · rw [hitems]; exact h.2.2.2
    by_cases hsw : swapsTarget s ctx
    · obtain ⟨-, hlen, hfd, -⟩ := setContext_swap_fields s ctx l2 fio rio hsw
      exact ⟨fun _ => ⟨hlen, hfd⟩, Or.inl hfd, hz⟩
    · have hq : (setContext s ctx true l2 fio rio).m_log_queue = s.m_log_queue := by
        rw [setContext_keep s ctx true l2 fio rio hsw]
        cases l2
        · rfl
        · rw [if_pos rfl, configLogrotate_queue]
      have hname : ctx.log_file_name = s.m_ctx.log_file_name := by
        by_contra hne
        exact hsw (Or.inr hne)
      refine ⟨?_, ?_, hz⟩
      · intro hs'
        rw [hctx] at hs'
        rw [hq]
        apply h.1
        cases hold : s.m_ctx.b_log_screen with
        | true => rfl
        | false => exact absurd (Or.inl ⟨hold, hs'⟩) hsw
      · rw [hq, hctx, hname]
        exact h.2.1
  | setLogLevel lvl => exact ⟨_, rfl, h⟩
  | flushLogs l fio =>
    have hl1 : l = true := hc
    subst hl1
    exact ⟨_, rfl, flush_idleOnScreen s true fio h⟩

theorem run_idleOnScreen (cs : List Call) : ∀ s : CLog, idleOnScreen s →
    (∀ c ∈ cs, c.locked) → ∃ s', run s cs = some s' ∧ idleOnScreen s' := by
  induction cs with
  | nil => exact fun s h _ => ⟨s, rfl, h⟩
  | cons c cs ih =>
    intro s h hcs
    obtain ⟨s1, e1, h1⟩ := step_idleOnScreen s c h (hcs c (List.mem_cons_self _ _))
    obtain ⟨s2, e2, h2⟩ := ih s1 h1 (fun c' hc' => hcs c' (List.mem_cons_of_mem _ hc'))
    exact ⟨s2, by simp only [run, e1, Option.some_bind, e2], h2⟩

/-- C19 (console mode keeps the file path idle). From the constructor, any sequence of log,
`setContext`, `setLogLevel` and forced-flush calls whose locks are all obtained runs to a
state in which, if console mode is enabled, the queue is empty and the descriptor closed.
From such a state in file mode, `setContext` to a console-mode configuration, with the same
file name or another, returns with an empty queue and a closed descriptor, and, `open`
succeeding and `writev` storing every byte, its only `writev` appends all the pending bytes
to the configured file. In console mode a log call, whatever its priority and its lock,
changes neither the queue nor the configuration nor any file, and makes no file-system
call. -/
theorem c19_screen_mode_idle (files : Str → Option Str) (tsec : Int) (initOk : Bool)
    (fio : FlushCalls) (rio : RotateCalls) (cs : List Call) (hcs : ∀ c ∈ cs, c.locked) :
    ∃ s, run (construct files tsec initOk true true true fio rio) cs = some s ∧
      (s.m_ctx.b_log_screen = true →
        s.m_log_queue.length = 0 ∧ s.m_log_queue.log_fd = none) ∧
      (∀ (ctx : SLogContext) (lock2 : Bool) (fio' : FlushCalls) (rio' : RotateCalls),
        s.m_ctx.b_log_screen = false → ctx.b_log_screen = true →
        (setContext s ctx true lock2 fio' rio').m_log_queue.length = 0 ∧
        (setContext s ctx true lock2 fio' rio').m_log_queue.log_fd = none ∧
        (s.m_log_queue.length ≠ 0 → fio'.openOk = true → fio'.written = none →
          ∃ evs, (setContext s ctx true lock2 fio' rio').trace = s.trace ++ evs ∧
            logWrites evs = [(s.m_ctx.log_file_name, pendingBytes s)])) ∧
      (∀ (p hl : Int) (m : Str) (l : Bool) (fio' : FlushCalls) (io : FormatEnv),
        s.m_ctx.b_log_screen = true →
        ∃ s', _log s p hl m l fio' io = some s' ∧ s'.m_log_queue = s.m_log_queue ∧
          s'.m_ctx = s.m_ctx ∧ s'.files = s.files ∧ s'.trace = s.trace) := by
  have h0 : idleOnScreen (construct files tsec initOk true true true fio rio) := by
    obtain ⟨hc, hq⟩ := construct_queue files tsec initOk true true true fio rio
    unfold idleOnScreen
    rw [hq]
    exact ⟨fun _ => ⟨rfl, rfl⟩, Or.inl rfl, zeroItems_sized_any _ _⟩
  obtain ⟨s, e, hidle⟩ := run_idleOnScreen cs _ h0 hcs
  refine ⟨s, e, hidle.1, ?_, ?_⟩
  · intro ctx lock2 fio' rio' hs hc
    have hsw : swapsTarget s ctx := Or.inl ⟨hs, hc⟩
    obtain ⟨-, hlen, hfd, -, -, evs2, he2, hw2⟩ :=
      setContext_swap_fields s ctx lock2 fio' rio' hsw
    refine ⟨hlen, hfd, ?_⟩
    intro hne ho hw
    obtain ⟨-, -, -, evs1, he1, hw1⟩ := flush_due_write s true fio' hne (Or.inl rfl) (by
      rcases hidle.2.1 with h | h
      · exact Or.inr ⟨h, ho⟩
      · exact Or.inl h)
    rw [hw] at hw1
    exact ⟨evs1 ++ evs2, by rw [he2, he1, List.append_assoc], by
      rw [logWrites_append, hw1, hw2]; rfl⟩
  · intro p hl m l fio' io hs
    by_cases hp : p > s.m_ctx.log_level
    · exact ⟨s, log_dropped s p hl m l fio' io hp, rfl, rfl, rfl, rfl⟩
    · obtain ⟨buf, -, e'⟩ := log_screen_step s p hl m l fio' io (by omega) hs
      exact ⟨_, e', rfl, rfl, rfl, rfl⟩

/-- Witness of C19: a record is queued in file mode, then the logger is switched to console
mode with the same file name. -/
theorem c19_screen_mode_idle_witness :
    ∃ s, run (construct (fun _ => none) 1700000000 true true true true (demoFlush 1700000000)
        demoRotate)
        [Call.setContext demoFileCtx true true (demoFlush 1700000000) demoRotate, demoCall,
         Call.setContext demoScreenCtx true true (demoFlush 1700000001) demoRotate] = some s ∧
      (s.m_ctx.b_log_screen = true →
        s.m_log_queue.length = 0 ∧ s.m_log_queue.log_fd = none) :=
  Exists.imp (fun _ h => ⟨h.1, h.2.1⟩)
    (c19_screen_mode_idle (fun _ => none) 1700000000 true (demoFlush 1700000000) demoRotate
      [Call.setContext demoFileCtx true true (demoFlush 1700000000) demoRotate, demoCall,
       Call.setContext demoScreenCtx true true (demoFlush 1700000001) demoRotate]
      (by
        intro c hc
        simp only [List.mem_cons, List.mem_singleton, List.not_mem_nil, or_false] at hc
        rcases hc with h | h | h
        · subst h; exact ⟨rfl, rfl⟩
        · subst h; exact rfl
        · subst h; exact ⟨rfl, rfl⟩))

/-! ## The descriptor of the previous file -/

theorem configFilePath_inj (a b : Str) (h : configFilePath a = configFilePath b) :
    afterLastSlash a = afterLastSlash b := by
  unfold configFilePath at h
  rw [List.append_assoc, List.append_assoc] at h
  have h1 := List.append_cancel_left h
  simp only [List.cons_append, List.cons.injEq, true_and] at h1
  exact List.append_cancel_right h1

/-- With rotation enabled `_configLogrotate` leaves the descriptor as it is or holding the
bytes stored by its `write`. -/
theorem configLogrotate_descriptor (t : CLog) (io : RotateCalls)
    (hrot : t.m_ctx.b_log_rotate = true) :
    (_configLogrotate t io).files (configFilePath t.m_ctx.log_file_name)
        = t.files (configFilePath t.m_ctx.log_file_name)
      ∨ (io.openOk = true ∧
          (_configLogrotate t io).files (configFilePath t.m_ctx.log_file_name)
            = some (stored io.written (logrotateText t.m_ctx.log_file_name))) := by
  unfold _configLogrotate
  simp only [hrot, Bool.not_true, Bool.false_eq_true, if_false]
  split_ifs with h1 h2 h3
  · exact Or.inl rfl
  · exact Or.inl rfl
  · exact Or.inr ⟨h3, by simp [fileReplace]⟩
  · exact Or.inl rfl

/-- The files after `_flushLogQueue`, when the descriptor is closed or open on the configured
file: those of a state that differs from the old one in the log file at most, or those left
by `_configLogrotate` on such a state. -/
theorem flush_files (s : CLog) (force : Bool) (io : FlushCalls)
    (hfd : s.m_log_queue.log_fd = none ∨ s.m_log_queue.log_fd = some s.m_ctx.log_file_name) :
    ∃ t : CLog, t.m_ctx = s.m_ctx ∧
      (∀ p, p ≠ s.m_ctx.log_file_name → t.files p = s.files p) ∧
      ((_flushLogQueue s force io).files = t.files
        ∨ (_flushLogQueue s force io).files = (_configLogrotate t io.rot).files) := by
  by_cases h0 : s.m_log_queue.length = 0
  · exact ⟨s, rfl, fun _ _ => rfl, Or.inl (by rw [flush_empty s force io h0])⟩
  by_cases hd : flushDue s force io
  swap
  · exact ⟨s, rfl, fun _ _ => rfl, Or.inl (by rw [flush_not_due s force io hd])⟩
  rw [flush_due s force io h0 hd]
  rcases hfd with hfd | hfd
  · cases ho : io.openOk with
    | false =>
      rw [afterOpen_of_fail s io hfd ho, afterWrite_of_closed s io hfd]
      exact ⟨s, rfl, fun _ _ => rfl, Or.inl rfl⟩
    | true =>
      rw [afterOpen_of_success s io hfd ho, afterWrite_of_open _ io s.m_ctx.log_file_name rfl]
      refine ⟨_, ?_, ?_, Or.inr rfl⟩
      · rfl
      · intro p hp
        simp [fileAppend, fileCreate, hp]
  · rw [afterOpen_of_open s io _ hfd, afterWrite_of_open s io _ hfd]
    refine ⟨_, ?_, ?_, Or.inr rfl⟩
    · rfl
    · intro p hp
      simp [fileAppend, hp]

/-- C20, counterexample. The logger rotates `demoPath`, whose descriptor holds the template,
and has one pending record; `setContext` names `demoOtherPath`. The forced flush of the
record runs `_configLogrotate` with the old configuration, which opens the descriptor of
`demoPath` with truncation and writes it again: the write is in the trace, and when it stores
no byte the descriptor of `demoPath` is left empty. -/
theorem c20_old_descriptor_rewritten :
    demoRotatedPending.files (configFilePath demoPath) = some (logrotateText demoPath) ∧
    IoEvent.writeConf (configFilePath demoPath) (logrotateText demoPath)
      ∈ (setContext demoRotatedPending { demoFileCtx with log_file_name := demoOtherPath }
          true true (demoFlush 1700000001) demoRotate).trace ∧
    (setContext demoRotatedPending { demoFileCtx with log_file_name := demoOtherPath }
      true true demoShortWrite demoRotate).files (configFilePath demoPath) = some [] := by
  decide

/-- C20, amended. The logger has rotation enabled for file A, its
descriptor closed or open on A, and A's rotation descriptor holds the template for A. The
new configuration names a file B whose part after the last slash differs from A's, with
rotation enabled or not. The flush of pending records may write A's descriptor again; if
that write stores every byte, then after `setContext`, whatever its locks and the other
system calls do, A's descriptor still holds the template for A. The descriptor path derived
from B is another path, and apart from the log file A and the descriptor derived from B no
file has changed. -/
theorem c20_old_descriptor_stays (s : CLog) (ctx : SLogContext) (lock1 lock2 : Bool)
    (fio : FlushCalls) (rio : RotateCalls)
    (hrot : s.m_ctx.b_log_rotate = true)
    (hfd : s.m_log_queue.log_fd = none ∨ s.m_log_queue.log_fd = some s.m_ctx.log_file_name)
    (hdesc : s.files (configFilePath s.m_ctx.log_file_name)
      = some (logrotateText s.m_ctx.log_file_name))
    (hbase : afterLastSlash ctx.log_file_name ≠ afterLastSlash s.m_ctx.log_file_name)
    (hw : fio.rot.openOk = true → fio.rot.written = none) :
    (setContext s ctx lock1 lock2 fio rio).files (configFilePath s.m_ctx.log_file_name)
      = some (logrotateText s.m_ctx.log_file_name) ∧
    configFilePath ctx.log_file_name ≠ configFilePath s.m_ctx.log_file_name ∧
    (∀ p, p ≠ s.m_ctx.log_file_name → p ≠ configFilePath ctx.log_file_name →
      (setContext s ctx lock1 lock2 fio rio).files p = s.files p) := by
  have hne : configFilePath ctx.log_file_name ≠ configFilePath s.m_ctx.log_file_name :=
    fun h => hbase (configFilePath_inj _ _ h)
  have hA : configFilePath s.m_ctx.log_file_name ≠ s.m_ctx.log_file_name :=
    configFilePath_ne _
  -- the files after the flush
  have hflush : ∀ p, p ≠ s.m_ctx.log_file_name →
      (_flushLogQueue s true fio).files p = s.files p := by
    intro p hp
    obtain ⟨t, htc, htf, hcase⟩ := flush_files s true fio hfd
    rcases hcase with h | h
    · rw [h, htf p hp]
    · rw [h]
      by_cases hpc : p = configFilePath s.m_ctx.log_file_name
      · have hd := configLogrotate_descriptor t fio.rot (by rw [htc]; exact hrot)
        rw [htc] at hd
        rw [hpc]
        rcases hd with hd | ⟨ho, hd⟩
        · rw [hd, htf _ hA]
        · rw [hd, hw ho, hdesc]
          rfl
      · rw [configLogrotate_files t fio.rot p (by rw [htc]; exact hpc), htf p hp]
  -- the files after the whole call
  obtain ⟨t, ht, e⟩ := setContext_form s ctx lock1 lock2 fio rio
  have htfiles : ∀ p, p ≠ s.m_ctx.log_file_name → t.files p = s.files p := by
    intro p hp
    rcases ht with ht | ht
    · rw [ht]
    · rw [ht, (closeLogFd_fields _).2.2.2.2.2.1]
      exact hflush p hp
  have hall : ∀ p, p ≠ s.m_ctx.log_file_name → p ≠ configFilePath ctx.log_file_name →
      (setContext s ctx lock1 lock2 fio rio).files p = s.files p := by
    intro p hp hpc
    rw [e]
    cases lock2
    · exact htfiles p hp
    · rw [if_pos rfl, configLogrotate_files _ rio p (by exact hpc)]
      exact htfiles p hp
  exact ⟨by rw [hall _ hA hne.symm, hdesc], hne, hall⟩

/-- Witness of C20: the logger that rotates `demoPath` is pointed at `demoOtherPath`. -/
theorem c20_old_descriptor_stays_witness :
    (setContext demoRotated { demoFileCtx with log_file_name := demoOtherPath } true true
        (demoFlush 1700000001) demoRotate).files
        (configFilePath demoRotated.m_ctx.log_file_name)
      = some (logrotateText demoRotated.m_ctx.log_file_name) :=
  (c20_old_descriptor_stays demoRotated { demoFileCtx with log_file_name := demoOtherPath }
    true true (demoFlush 1700000001) demoRotate (by decide) (Or.inl (by decide)) (by decide)
    (by decide) (fun _ => rfl)).1
